import Mathlib

/-!
# Beacon state container: setters and validator getters

A shallow embedding of the setters in `consensus-types/state/setters_*.go` and of the
getters in `consensus-types/state/getters_validator.go`.

Go values that can be aliased (reference counters, the backing arrays of the
`eth1DataVotes` slice, the `RandaoMixes` array objects, `Validator` records, the arrays
that `make([]uint64, n)` allocates) live in an explicit `Heap`; an address is the position of the object in the corresponding list and
allocation appends at the end.  The reader-writer lock is not modelled: every method is
one atomic step.  A run-time fault of the Go program (nil dereference, index out of
range) is an explicit outcome, never an error value.
-/

namespace Prysm

/-! ## Value objects -/

/-- A byte string (`[]byte`, `[32]byte`, `[48]byte`): one list element per byte. -/
abbrev Bytes := List Nat

/-- Modelled from the spec: `ethpb.Eth1Data` is declared outside the translated files; the
spec calls it an opaque value record from the wire layer. -/
structure Eth1Data where
  tag : Nat
deriving DecidableEq, Repr

/-- Modelled from the spec: `ethpb.SyncCommittee` is declared outside the translated files;
the spec calls it an opaque value record from the wire layer. -/
structure SyncCommittee where
  tag : Nat
deriving DecidableEq, Repr

/-- Modelled from the spec: `ethpb.Validator` is declared outside the translated files; the
spec says it is opaque and has a 48-byte public key field.  `rest` stands for the
remaining content of the record. -/
structure Validator where
  PublicKey : Bytes
  rest : List Nat
deriving DecidableEq, Repr

/-- The zero value `ethpb.Validator{}`. -/
def Validator.zero : Validator := { PublicKey := [], rest := [] }

/-- Modelled from the spec: `types.FieldIndex` is declared outside the translated files; the
spec calls it a closed enumeration of addressable state fields.  The fields named by the
translated methods and by the data model of the spec are listed. -/
inductive FieldIndex
  | Validators
  | Balances
  | Slashings
  | InactivityScores
  | RandaoMixes
  | Eth1Data
  | Eth1DataVotes
  | Eth1DepositIndex
  | CurrentSyncCommittee
  | NextSyncCommittee
  | NextWithdrawalIndex
  | NextWithdrawalValidatorIndex
deriving DecidableEq, Repr

/-! ## Fork versions -/

namespace version

/-- Modelled from the spec: the constants of `runtime/version` are declared outside the
translated files; the spec lists the fork versions in the order Phase0, Altair, Bellatrix,
BellatrixBlind, Capella. -/
def Phase0 : Nat := 0

/-- Modelled from the spec: second fork version of the list in the glossary. -/
def Altair : Nat := 1

/-- Modelled from the spec: third fork version of the list in the glossary. -/
def Bellatrix : Nat := 2

/-- Modelled from the spec: fourth fork version of the list in the glossary. -/
def BellatrixBlind : Nat := 3

/-- Modelled from the spec: fifth fork version of the list in the glossary. -/
def Capella : Nat := 4

end version

/-! ## Errors -/

/-- The error values returned by the translated methods.  Each constructor stands for one
construction site in the source and carries the arguments passed there. -/
inductive Err
  /-- `errors.Errorf("invalid index provided %d", idx)` -/
  | invalidIndex (idx : Nat)
  /-- `errNotSupported(method, version)` -/
  | notSupported (method : String) (ver : Nat)
  /-- `NewValidatorIndexOutOfRangeError(idx)`: message `index %d out of range` -/
  | validatorIndexOutOfRange (idx : Nat)
  /-- `ErrNilValidatorsInState` -/
  | nilValidatorsInState
  /-- `errors.New("nil validators in state")` -/
  | nilValidators
  /-- `fmt.Errorf("index of %d does not exist", idx)` -/
  | indexDoesNotExist (idx : Nat)
  /-- An error produced by a collaborator passed in as a parameter. -/
  | other (code : Nat)
deriving DecidableEq, Repr

/-! ## Heap -/

/-- A Go slice header whose backing array lives in a store: the address of the array and
the length of the slice.  The capacity is the length of the backing array, as no
translated method reslices. -/
structure Slice where
  ptr : Nat
  len : Nat
deriving DecidableEq, Repr

/-- The aliasable objects. -/
structure Heap where
  /-- The `stateutil.Reference` counters. -/
  refs : List Nat
  /-- The backing arrays of `[]*ethpb.Eth1Data` slices; `none` is a nil element. -/
  votes : List (List (Option Eth1Data))
  /-- The `customtypes.RandaoMixes` array objects. -/
  mixes : List (List Bytes)
  /-- The `ethpb.Validator` records. -/
  validators : List Validator
  /-- The backing arrays that `make([]uint64, n)` allocates. -/
  u64s : List (List Nat)
deriving DecidableEq, Repr

/-! ### Reference counters -/

/-- Modelled from the spec: `stateutil.Reference.Refs` is defined outside the translated
files; the spec describes RefCount as a counter supporting increment, decrement and read.
This is the read. -/
def Refs (h : Heap) (r : Nat) : Nat := h.refs.getD r 0

/-- Modelled from the spec: `stateutil.Reference.MinusRef` is defined outside the translated
files; the spec describes RefCount as a counter supporting increment, decrement and read.
This is the decrement of the counter at address `r`. -/
def MinusRef (h : Heap) (r : Nat) : Heap :=
  { h with refs := h.refs.set r (h.refs.getD r 0 - 1) }

/-- Modelled from the spec: `stateutil.NewRef` is defined outside the translated files; the
spec writes `install a new RefCount(1)`.  A new counter with the given value is allocated
and its address returned. -/
def NewRef (h : Heap) (n : Nat) : Nat × Heap :=
  (h.refs.length, { h with refs := h.refs ++ [n] })

/-! ### Go slices over a store of backing arrays -/

/-- Go `len(s)`; a nil slice has length zero. -/
def sliceLen (s : Option Slice) : Nat :=
  match s with
  | none => 0
  | some s => s.len

/-- Go `cap(s)`; a nil slice has capacity zero. -/
def sliceCap {α : Type} (st : List (List α)) (s : Option Slice) : Nat :=
  match s with
  | none => 0
  | some s => (st.getD s.ptr []).length

/-- The elements a holder of the slice header `s` observes. -/
def sliceElems {α : Type} (st : List (List α)) (s : Option Slice) : List α :=
  match s with
  | none => []
  | some s => (st.getD s.ptr []).take s.len

/-- Go `make([]T, n)`: a new backing array of `n` zero values. -/
def goMake {α : Type} (zero : α) (st : List (List α)) (n : Nat) : Slice × List (List α) :=
  ({ ptr := st.length, len := n }, st ++ [List.replicate n zero])

/-- Go `copy(dst, src)`: the first `min(len(dst), len(src))` elements of `src` overwrite
the first elements of the backing array of `dst`. -/
def goCopy {α : Type} (st : List (List α)) (dst src : Option Slice) : List (List α) :=
  match dst with
  | none => st
  | some d =>
    let n := min d.len (sliceLen src)
    st.set d.ptr ((sliceElems st src).take n ++ (st.getD d.ptr []).drop n)

/-- Go `append(s, v)`.  With spare capacity the element is written in place behind the
slice; otherwise a new, sufficiently large backing array is allocated.  The capacity of a
new array is implementation defined: `grow` maps the old capacity to a proposed new one
and at least `len(s) + 1` is allocated. -/
def goAppend {α : Type} (zero : α) (grow : Nat → Nat) (st : List (List α))
    (s : Option Slice) (v : α) : Slice × List (List α) :=
  match s with
  | some d =>
    if d.len < (st.getD d.ptr []).length then
      ({ ptr := d.ptr, len := d.len + 1 }, st.set d.ptr ((st.getD d.ptr []).set d.len v))
    else
      let newCap := max (d.len + 1) (grow (st.getD d.ptr []).length)
      ({ ptr := st.length, len := d.len + 1 },
        st ++ [(st.getD d.ptr []).take d.len ++ [v] ++ List.replicate (newCap - (d.len + 1)) zero])
  | none =>
    let newCap := max 1 (grow 0)
    ({ ptr := st.length, len := 1 }, st ++ [[v] ++ List.replicate (newCap - 1) zero])

/-- Go `copy(dst, src)` for a source given by its elements: the first
`min(len(dst), len(src))` elements of `src` overwrite the first elements of the backing
array of `dst`. -/
def goCopyFrom {α : Type} (st : List (List α)) (dst : Slice) (src : List α) : List (List α) :=
  let n := min dst.len src.length
  st.set dst.ptr (src.take n ++ (st.getD dst.ptr []).drop n)

/-- A `[]uint64` slice as a caller receives it.  The slices kept in the fields of a state
are modelled by their content: `own f` is the slice kept in the field `f` of the state
itself, so a getter that returned it would hand out the storage of the state; `buf s` is a
slice over a backing array of `Heap.u64s`, as `make` allocates it. -/
inductive Uint64Slice
  | own (f : FieldIndex)
  | buf (s : Slice)
deriving DecidableEq, Repr

/-! ### Validator records -/

/-- Modelled from the spec: `ethpb.CopyValidator` is defined outside the translated files;
the spec says the copying getters return a deep-copied Validator.  This is the call on a
non-nil pointer `p`: the record is copied into a newly allocated record, whose address is
returned.  What the function does with a nil pointer is not described and not modelled
here. -/
def CopyValidator (h : Heap) (p : Nat) : Nat × Heap :=
  (h.validators.length,
    { h with validators := h.validators ++ [h.validators.getD p Validator.zero] })

/-- Modelled from the spec: `types.ReadOnlyValidator` is declared outside the translated
files; the spec calls it a borrowing view over a validator record.  The view holds the
address of the record it was built from. -/
structure ReadOnlyValidator where
  validator : Nat
deriving DecidableEq, Repr

/-! ## Validator index map -/

/-- Modelled from the spec: `stateutil.ValidatorMapHandler` is declared outside the
translated files; the spec describes a mapping from a 48-byte public key to a validator
index with the operations `get` and `is_nil`.  `valIdxMap` is `none` for a handler that
holds no map. -/
structure ValidatorMapHandler where
  valIdxMap : Option (List (Bytes × Nat))
deriving DecidableEq, Repr

/-- Modelled from the spec: `is_nil()` of the validator index map. -/
def ValidatorMapHandler.IsNil (m : ValidatorMapHandler) : Bool :=
  m.valIdxMap.isNone

/-- Modelled from the spec: `get(pubkey) -> (index, found)` of the validator index map; a
key that is not in the map gives the zero index and `false`. -/
def ValidatorMapHandler.Get (m : ValidatorMapHandler) (key : Bytes) : Nat × Bool :=
  match m.valIdxMap with
  | none => (0, false)
  | some kvs =>
    match kvs.lookup key with
    | some i => (i, true)
    | none => (0, false)

/-! ## State -/

/-- Modelled from the spec: the declaration of `State` is outside the translated files; the
fields are those of the data model of the spec, with the Go types visible in the
translated methods.  `sharedFieldReferences` gives the address of the counter of a field
(the spec: one entry per shareable composite field).  `validators`, `balances`,
`slashings` and `inactivityScores` are `none` for a nil slice and hold the content of the
slice otherwise; a slot of `validators` is the address of a record or `none` for nil.
`eth1DataVotes` is a slice header and `randaoMixes` a pointer to an array object, both
into the heap.  The lock is omitted. -/
structure State where
  version : Nat
  validators : Option (List (Option Nat))
  balances : Option (List Nat)
  slashings : Option (List Nat)
  inactivityScores : Option (List Nat)
  randaoMixes : Option Nat
  eth1Data : Option Eth1Data
  eth1DataVotes : Option Slice
  eth1DepositIndex : Nat
  currentSyncCommittee : Option SyncCommittee
  nextSyncCommittee : Option SyncCommittee
  nextWithdrawalIndex : Nat
  nextWithdrawalValidatorIndex : Nat
  valMapHandler : Option ValidatorMapHandler
  sharedFieldReferences : FieldIndex → Nat
  dirtyFields : List FieldIndex
  dirtyIndices : FieldIndex → List Nat
  rebuildTrie : FieldIndex → Bool

/-- Modelled from the spec: `markFieldAsDirty` is defined outside the translated files; the
spec says `mark_field_dirty(FieldId)` is idempotent and `dirtyFields` is a set. -/
def State.markFieldAsDirty (b : State) (f : FieldIndex) : State :=
  { b with dirtyFields := if f ∈ b.dirtyFields then b.dirtyFields else f :: b.dirtyFields }

/-- Modelled from the spec: `addDirtyIndices` is defined outside the translated files; the
spec says `add_dirty_indices(FieldId, indices)` is the union with the existing set. -/
def State.addDirtyIndices (b : State) (f : FieldIndex) (indices : List Nat) : State :=
  { b with dirtyIndices := Function.update b.dirtyIndices f (b.dirtyIndices f ∪ indices) }

/-- The outcome of a method that can stop with a run-time fault: either it returns `val`
or the Go program panics; both carry the state and the heap as the method left them. -/
inductive Outcome (α : Type)
  | ret (val : α) (b : State) (h : Heap)
  | fault (b : State) (h : Heap)

/-! ## Setters: `setters_eth1.go` -/

/-- Go: `State.SetEth1Data`. -/
def State.SetEth1Data (b : State) (val : Option Eth1Data) : Option Err × State :=
  let b1 := { b with eth1Data := val }
  let b2 := b1.markFieldAsDirty FieldIndex.Eth1Data
  (none, b2)

/-- Go: `State.SetEth1DataVotes`.  The slice header passed in is stored as it is. -/
def State.SetEth1DataVotes (b : State) (h : Heap) (val : Option Slice) :
    Option Err × State × Heap :=
  let h1 := MinusRef h (b.sharedFieldReferences FieldIndex.Eth1DataVotes)
  let (r, h2) := NewRef h1 1
  let b1 := { b with
    sharedFieldReferences := Function.update b.sharedFieldReferences FieldIndex.Eth1DataVotes r }
  let b2 := { b1 with eth1DataVotes := val }
  let b3 := b2.markFieldAsDirty FieldIndex.Eth1DataVotes
  let b4 := { b3 with rebuildTrie := Function.update b3.rebuildTrie FieldIndex.Eth1DataVotes true }
  (none, b4, h2)

/-- Go: `State.SetEth1DepositIndex`. -/
def State.SetEth1DepositIndex (b : State) (val : Nat) : Option Err × State :=
  let b1 := { b with eth1DepositIndex := val }
  let b2 := b1.markFieldAsDirty FieldIndex.Eth1DepositIndex
  (none, b2)

/-- Go: `State.AppendEth1DataVotes`.  `grow` is the capacity policy of `append`. -/
def State.AppendEth1DataVotes (grow : Nat → Nat) (b : State) (h : Heap) (val : Option Eth1Data) :
    Option Err × State × Heap :=
  -- votes := b.eth1DataVotes; if refs > 1 then make, copy, MinusRef, NewRef
  let (votes, b1, h1) :=
    if Refs h (b.sharedFieldReferences FieldIndex.Eth1DataVotes) > 1 then
      let (fresh, st1) := goMake none h.votes (sliceLen b.eth1DataVotes)
      let st2 := goCopy st1 (some fresh) b.eth1DataVotes
      let ha := { h with votes := st2 }
      let hb := MinusRef ha (b.sharedFieldReferences FieldIndex.Eth1DataVotes)
      let (r, hc) := NewRef hb 1
      (some fresh,
        { b with sharedFieldReferences :=
            Function.update b.sharedFieldReferences FieldIndex.Eth1DataVotes r },
        hc)
    else
      (b.eth1DataVotes, b, h)
  -- b.eth1DataVotes = append(votes, val)
  let (s, st3) := goAppend none grow h1.votes votes val
  let h2 := { h1 with votes := st3 }
  let b2 := { b1 with eth1DataVotes := some s }
  let b3 := b2.markFieldAsDirty FieldIndex.Eth1DataVotes
  let b4 := b3.addDirtyIndices FieldIndex.Eth1DataVotes [sliceLen b3.eth1DataVotes - 1]
  (none, b4, h2)

/-! ## Setters: `setters_randao.go` -/

/-- Go `copy(dst[:], src)` on value arrays: the first `min(len(dst), len(src))` elements of
`src` overwrite the first elements of `dst`. -/
def copyInto {α : Type} (dst src : List α) : List α :=
  src.take (min dst.length src.length) ++ dst.drop (min dst.length src.length)

/-- The zero value of `[32]byte`. -/
def zero32 : Bytes := List.replicate 32 0

/-- The loop of `SetRandaoMixes`: `for i := 0; i < len(mixesArr); i++ { copy(mixesArr[i][:],
val[i]) }`, started at `i` with `fuel` iterations left.  `none` is the index-out-of-range
fault of `val[i]`. -/
def SetRandaoMixes.loop (val : List Bytes) : (fuel : Nat) → (i : Nat) → List Bytes →
    Option (List Bytes)
  | 0, _, mixesArr => some mixesArr
  | fuel + 1, i, mixesArr =>
    match val[i]? with
    | none => none
    | some x => SetRandaoMixes.loop val fuel (i + 1) (mixesArr.set i (copyInto zero32 x))

/-- Go: `State.SetRandaoMixes`.  `RandaoMixesLength` is `fieldparams.RandaoMixesLength`,
declared outside the translated files. -/
def State.SetRandaoMixes (RandaoMixesLength : Nat) (b : State) (h : Heap) (val : List Bytes) :
    Outcome (Option Err) :=
  let h1 := MinusRef h (b.sharedFieldReferences FieldIndex.RandaoMixes)
  let (r, h2) := NewRef h1 1
  let b1 := { b with
    sharedFieldReferences := Function.update b.sharedFieldReferences FieldIndex.RandaoMixes r }
  match SetRandaoMixes.loop val RandaoMixesLength 0 (List.replicate RandaoMixesLength zero32) with
  | none => Outcome.fault b1 h2
  | some mixesArr =>
    -- mixes := customtypes.RandaoMixes(mixesArr); b.randaoMixes = &mixes
    let p := h2.mixes.length
    let h3 := { h2 with mixes := h2.mixes ++ [mixesArr] }
    let b2 := { b1 with randaoMixes := some p }
    let b3 := b2.markFieldAsDirty FieldIndex.RandaoMixes
    let b4 := { b3 with rebuildTrie := Function.update b3.rebuildTrie FieldIndex.RandaoMixes true }
    Outcome.ret none b4 h3

/-- Go: `State.UpdateRandaoMixesAtIndex`.  `RandaoMixesLength` is the length of the array
type behind `b.randaoMixes`, which is what `len(b.randaoMixes)` gives for a pointer to an
array, nil or not.  `ToBytes32` is `bytesutil.ToBytes32`, defined outside the translated
files. -/
def State.UpdateRandaoMixesAtIndex (RandaoMixesLength : Nat) (ToBytes32 : Bytes → Bytes)
    (b : State) (h : Heap) (idx : Nat) (val : Bytes) : Outcome (Option Err) :=
  if RandaoMixesLength ≤ idx then
    Outcome.ret (some (Err.invalidIndex idx)) b h
  else
    if Refs h (b.sharedFieldReferences FieldIndex.RandaoMixes) > 1 then
      -- m := *b.randaoMixes; mCopy := m; mixes = &mCopy
      match b.randaoMixes with
      | none => Outcome.fault b h
      | some p =>
        let q := h.mixes.length
        let h1 := { h with mixes := h.mixes ++ [h.mixes.getD p []] }
        let h2 := MinusRef h1 (b.sharedFieldReferences FieldIndex.RandaoMixes)
        let (r, h3) := NewRef h2 1
        let b1 := { b with
          sharedFieldReferences :=
            Function.update b.sharedFieldReferences FieldIndex.RandaoMixes r }
        -- mixes[idx] = bytesutil.ToBytes32(val)
        let h4 := { h3 with mixes := h3.mixes.set q ((h3.mixes.getD q []).set idx (ToBytes32 val)) }
        let b2 := { b1 with randaoMixes := some q }
        let b3 := b2.markFieldAsDirty FieldIndex.RandaoMixes
        let b4 := b3.addDirtyIndices FieldIndex.RandaoMixes [idx]
        Outcome.ret none b4 h4
    else
      match b.randaoMixes with
      | none => Outcome.fault b h
      | some p =>
        let h1 := { h with mixes := h.mixes.set p ((h.mixes.getD p []).set idx (ToBytes32 val)) }
        let b1 := { b with randaoMixes := some p }
        let b2 := b1.markFieldAsDirty FieldIndex.RandaoMixes
        let b3 := b2.addDirtyIndices FieldIndex.RandaoMixes [idx]
        Outcome.ret none b3 h1

/-! ## Setters: `setters_sync_committee.go` -/

/-- Go: `State.SetCurrentSyncCommittee`. -/
def State.SetCurrentSyncCommittee (b : State) (val : Option SyncCommittee) : Option Err × State :=
  if b.version = version.Phase0 then
    (some (Err.notSupported "SetCurrentSyncCommittee" b.version), b)
  else
    let b1 := { b with currentSyncCommittee := val }
    let b2 := b1.markFieldAsDirty FieldIndex.CurrentSyncCommittee
    (none, b2)

/-- Go: `State.SetNextSyncCommittee`. -/
def State.SetNextSyncCommittee (b : State) (val : Option SyncCommittee) : Option Err × State :=
  if b.version = version.Phase0 then
    (some (Err.notSupported "SetNextSyncCommittee" b.version), b)
  else
    let b1 := { b with nextSyncCommittee := val }
    let b2 := b1.markFieldAsDirty FieldIndex.NextSyncCommittee
    (none, b2)

/-! ## Setters: `setters_withdrawal.go` -/

/-- Go: `State.SetNextWithdrawalIndex`. -/
def State.SetNextWithdrawalIndex (b : State) (i : Nat) : Option Err × State :=
  if b.version < version.Capella then
    (some (Err.notSupported "SetNextWithdrawalIndex" b.version), b)
  else
    let b1 := { b with nextWithdrawalIndex := i }
    let b2 := b1.markFieldAsDirty FieldIndex.NextWithdrawalIndex
    (none, b2)

/-- Go: `State.SetNextWithdrawalValidatorIndex`. -/
def State.SetNextWithdrawalValidatorIndex (b : State) (i : Nat) : Option Err × State :=
  if b.version < version.Capella then
    (some (Err.notSupported "SetNextWithdrawalValidatorIndex" b.version), b)
  else
    let b1 := { b with nextWithdrawalValidatorIndex := i }
    let b2 := b1.markFieldAsDirty FieldIndex.NextWithdrawalValidatorIndex
    (none, b2)

/-! ## Getters: `getters_validator.go` -/

/-- Go: `NewValidatorIndexOutOfRangeError`; the message is `index %d out of range` with the
index. -/
def NewValidatorIndexOutOfRangeError (index : Nat) : Err :=
  Err.validatorIndexOutOfRange index

/-- Go: `State.ValidatorAtIndex`.  The result is the address of the returned record (or nil)
and the error.  The slot is passed to `ethpb.CopyValidator` as it is; `copyNil` is what that
function, defined outside the translated files, answers to a nil pointer. -/
def State.ValidatorAtIndex (copyNil : Heap → Option Nat × Heap) (b : State) (h : Heap)
    (idx : Nat) : (Option Nat × Option Err) × Heap :=
  match b.validators with
  | none =>
    -- return &ethpb.Validator{}, nil
    ((some h.validators.length, none), { h with validators := h.validators ++ [Validator.zero] })
  | some vs =>
    if vs.length ≤ idx then
      ((none, some (NewValidatorIndexOutOfRangeError idx)), h)
    else
      -- val := b.validators[idx]; return ethpb.CopyValidator(val), nil
      match vs.getD idx none with
      | none =>
        let (c, h1) := copyNil h
        ((c, none), h1)
      | some p =>
        let (c, h1) := CopyValidator h p
        ((some c, none), h1)

/-- Go: `State.ValidatorAtIndexReadOnly`.  `NewValidator` is the constructor of the
read-only view, defined outside the translated files; it receives the slot as stored. -/
def State.ValidatorAtIndexReadOnly
    (NewValidator : Option Nat → Option ReadOnlyValidator × Option Err)
    (b : State) (idx : Nat) : Option ReadOnlyValidator × Option Err :=
  match b.validators with
  | none => (none, some Err.nilValidatorsInState)
  | some vs =>
    if vs.length ≤ idx then
      (none, some (NewValidatorIndexOutOfRangeError idx))
    else
      NewValidator (vs.getD idx none)

/-- Go: `State.ValidatorIndexByPubkey`.  The receiver may be a nil pointer. -/
def State.ValidatorIndexByPubkey (b : Option State) (key : Bytes) : Nat × Bool :=
  match b with
  | none => (0, false)
  | some b =>
    match b.valMapHandler with
    | none => (0, false)
    | some m =>
      if m.IsNil then (0, false)
      else
        let numOfVals := (b.validators.getD []).length
        let (idx, ok) := m.Get key
        if ok && decide (numOfVals ≤ idx) then (0, false)
        else (idx, ok)

/-- Go: `State.inactivityScoresVal`: `res := make([]uint64, len(b.inactivityScores))`, then
`copy(res, b.inactivityScores)`, and `res` is returned. -/
def State.inactivityScoresVal (b : State) (h : Heap) : Option Uint64Slice × Heap :=
  match b.inactivityScores with
  | none => (none, h)
  | some inactivityScores =>
    let (res, st1) := goMake 0 h.u64s inactivityScores.length
    let st2 := goCopyFrom st1 res inactivityScores
    (some (Uint64Slice.buf res), { h with u64s := st2 })

/-- Go: `State.InactivityScores`. -/
def State.InactivityScores (b : State) (h : Heap) : (Option Uint64Slice × Option Err) × Heap :=
  if b.version = version.Phase0 then
    ((none, some (Err.notSupported "InactivityScores" b.version)), h)
  else
    match b.inactivityScores with
    | none => ((none, none), h)
    | some _ =>
      let (res, h1) := b.inactivityScoresVal h
      ((res, none), h1)

/-! ## Well-formedness of heap references -/

/-- A slice header is valid in a store when its backing array is allocated there and is at
least as long as the slice. -/
def sliceValid {α : Type} (st : List (List α)) (s : Option Slice) : Prop :=
  match s with
  | none => True
  | some d => d.ptr < st.length ∧ d.len ≤ (st.getD d.ptr []).length

instance sliceValid.instDecidable {α : Type} (st : List (List α)) :
    (s : Option Slice) → Decidable (sliceValid st s)
  | none => isTrue trivial
  | some d => inferInstanceAs (Decidable (d.ptr < st.length ∧ d.len ≤ (st.getD d.ptr []).length))

/-! ## Concrete states -/

/-- A state of version Altair whose `eth1DataVotes` has three elements and whose
`randaoMixes` is the array at address 0. -/
def exampleState : State :=
  { version := version.Altair
    validators := some [some 0, none, some 1]
    balances := some [32, 31, 30]
    slashings := some [0, 0]
    inactivityScores := some [5, 6, 7]
    randaoMixes := some 0
    eth1Data := none
    eth1DataVotes := some { ptr := 0, len := 3 }
    eth1DepositIndex := 0
    currentSyncCommittee := none
    nextSyncCommittee := none
    nextWithdrawalIndex := 0
    nextWithdrawalValidatorIndex := 0
    valMapHandler := some { valIdxMap := some [([1, 1], 0), ([2, 2], 2), ([3, 3], 6)] }
    sharedFieldReferences := fun f => if f = FieldIndex.Eth1DataVotes then 0 else 1
    dirtyFields := []
    dirtyIndices := fun _ => []
    rebuildTrie := fun _ => false }

/-- A heap in which both counters stand at 2: each field of `exampleState` is shared with
one other holder. -/
def exampleHeap : Heap :=
  { refs := [2, 2]
    votes := [[some { tag := 1 }, some { tag := 2 }, some { tag := 3 }, none]]
    mixes := [[[1], [2]]]
    validators := [{ PublicKey := [1, 1], rest := [7] }, { PublicKey := [2, 2], rest := [8] }]
    u64s := [[4, 4]] }

/-- The record a validator pointer refers to, `none` for a nil pointer. -/
def derefValidator (h : Heap) (v : Option Nat) : Option Validator :=
  v.map (fun p => h.validators.getD p Validator.zero)

/-- A constructor of read-only views that wraps the address it is given and rejects a nil
pointer; one possible `NewValidator`. -/
def exampleNewValidator (v : Option Nat) : Option ReadOnlyValidator × Option Err :=
  match v with
  | some p => (some { validator := p }, none)
  | none => (none, some (Err.other 0))

/-- One possible answer of `ethpb.CopyValidator` to a nil pointer: nil, nothing allocated. -/
def exampleCopyNil (h : Heap) : Option Nat × Heap := (none, h)

/-- The state `exampleState` with a nil `validators` slice. -/
def exampleNilValidators : State := { exampleState with validators := none }

/-- The state `exampleState` at version Capella. -/
def exampleCapella : State := { exampleState with version := version.Capella }

/-- The state `exampleState` at version Phase0. -/
def examplePhase0 : State := { exampleState with version := version.Phase0 }

/-! ## Further getters: `getters_validator.go` -/

/-- The zero value of `[fieldparams.BLSPubkeyLength]byte`, with `BLSPubkeyLength` the 48 of
the signature of `ValidatorIndexByPubkey` in the spec. -/
def zero48 : Bytes := List.replicate 48 0

/-- Go: `State.PubkeyAtIndex`.  `ToBytes48` is `bytesutil.ToBytes48`, defined outside the
translated files. -/
def State.PubkeyAtIndex (ToBytes48 : Bytes → Bytes) (b : State) (h : Heap) (idx : Nat) : Bytes :=
  if idx ≥ (b.validators.getD []).length then
    zero48
  else
    match (b.validators.getD []).getD idx none with
    | none => zero48
    | some p => ToBytes48 (h.validators.getD p Validator.zero).PublicKey

/-- Go: `State.NumValidators`. -/
def State.NumValidators (b : State) : Nat := (b.validators.getD []).length

/-- The loop of `ReadFromEveryValidator`: `for i, v := range validators`, at index `i` with
the slots `vs` still to visit.  The callback is a closure: what it answers may depend on the
invocations `calls` it has received so far, which the loop hands to it and extends.  The
result is the returned error and the invocations made, oldest first. -/
def ReadFromEveryValidator.loop
    (NewValidator : Option Nat → Option ReadOnlyValidator × Option Err)
    (f : List (Nat × Option ReadOnlyValidator) → Nat → Option ReadOnlyValidator → Option Err) :
    (vs : List (Option Nat)) → (i : Nat) → (calls : List (Nat × Option ReadOnlyValidator)) →
      Option Err × List (Nat × Option ReadOnlyValidator)
  | [], _, calls => (none, calls)
  | v :: vs, i, calls =>
    match NewValidator v with
    | (_, some err) => (some err, calls)
    | (view, none) =>
      match f calls i view with
      | some err => (some err, calls ++ [(i, view)])
      | none => ReadFromEveryValidator.loop NewValidator f vs (i + 1) (calls ++ [(i, view)])

/-- Go: `State.ReadFromEveryValidator`.  The result is the returned error and the list of
invocations of `f` that were made, in the order they were made. -/
def State.ReadFromEveryValidator
    (NewValidator : Option Nat → Option ReadOnlyValidator × Option Err)
    (f : List (Nat × Option ReadOnlyValidator) → Nat → Option ReadOnlyValidator → Option Err)
    (b : State) : Option Err × List (Nat × Option ReadOnlyValidator) :=
  match b.validators with
  | none => (some Err.nilValidators, [])
  | some validators => ReadFromEveryValidator.loop NewValidator f validators 0 []

/-- The loop of `validatorsVal`: `for i := 0; i < len(res); i++`, at index `i` with `fuel`
iterations left. -/
def State.validatorsVal.loop (vs : List (Option Nat)) :
    (fuel : Nat) → (i : Nat) → List (Option Nat) → Heap → List (Option Nat) × Heap
  | 0, _, res, h => (res, h)
  | fuel + 1, i, res, h =>
    match vs.getD i none with
    | none => State.validatorsVal.loop vs fuel (i + 1) res h
    | some p =>
      let (c, h1) := CopyValidator h p
      State.validatorsVal.loop vs fuel (i + 1) (res.set i (some c)) h1

/-- Go: `State.validatorsVal`. -/
def State.validatorsVal (b : State) (h : Heap) : Option (List (Option Nat)) × Heap :=
  match b.validators with
  | none => (none, h)
  | some vs =>
    let res := List.replicate vs.length none
    let (res1, h1) := State.validatorsVal.loop vs res.length 0 res h
    (some res1, h1)

/-- Go: `State.Validators`. -/
def State.Validators (b : State) (h : Heap) : Option (List (Option Nat)) × Heap :=
  match b.validators with
  | none => (none, h)
  | some _ => b.validatorsVal h

/-- Go: `State.balancesVal`: `res := make([]uint64, len(b.balances))`, then
`copy(res, b.balances)`, and `res` is returned. -/
def State.balancesVal (b : State) (h : Heap) : Option Uint64Slice × Heap :=
  match b.balances with
  | none => (none, h)
  | some balances =>
    let (res, st1) := goMake 0 h.u64s balances.length
    let st2 := goCopyFrom st1 res balances
    (some (Uint64Slice.buf res), { h with u64s := st2 })

/-- Go: `State.Balances`. -/
def State.Balances (b : State) (h : Heap) : Option Uint64Slice × Heap :=
  match b.balances with
  | none => (none, h)
  | some _ => b.balancesVal h

/-- Go: `State.BalanceAtIndex`. -/
def State.BalanceAtIndex (b : State) (idx : Nat) : Nat × Option Err :=
  match b.balances with
  | none => (0, none)
  | some balances =>
    if balances.length ≤ idx then
      (0, some (Err.indexDoesNotExist idx))
    else
      (balances.getD idx 0, none)

/-- Go: `State.slashingsVal`: `res := make([]uint64, len(b.slashings))`, then
`copy(res, b.slashings)`, and `res` is returned. -/
def State.slashingsVal (b : State) (h : Heap) : Option Uint64Slice × Heap :=
  match b.slashings with
  | none => (none, h)
  | some slashings =>
    let (res, st1) := goMake 0 h.u64s slashings.length
    let st2 := goCopyFrom st1 res slashings
    (some (Uint64Slice.buf res), { h with u64s := st2 })

/-- Go: `State.Slashings`. -/
def State.Slashings (b : State) (h : Heap) : Option Uint64Slice × Heap :=
  match b.slashings with
  | none => (none, h)
  | some _ => b.slashingsVal h

/-- The invocations `f(0, view of validators[0])`, ..., `f(n-1, view of validators[n-1])`,
in this order. -/
def viewCalls (NewValidator : Option Nat → Option ReadOnlyValidator × Option Err)
    (vs : List (Option Nat)) (n : Nat) : List (Nat × Option ReadOnlyValidator) :=
  (List.range n).map (fun i => (i, (NewValidator (vs.getD i none)).1))

/-- The error at position `i` when every earlier position was visited without one: the error
of wrapping the slot, or else the error `f(i, view)` returns after the invocations on the
positions before `i`. -/
def visitErr (NewValidator : Option Nat → Option ReadOnlyValidator × Option Err)
    (f : List (Nat × Option ReadOnlyValidator) → Nat → Option ReadOnlyValidator → Option Err)
    (vs : List (Option Nat)) (i : Nat) : Option Err :=
  match NewValidator (vs.getD i none) with
  | (_, some err) => some err
  | (view, none) => f (viewCalls NewValidator vs i) i view

/-- The pointer `res` is a copy, made in the heap `hc`, of what the slot `slot` held in the
heap `h`: nil for a nil slot, and otherwise the address of a record allocated after `h` that
equals the record of the slot. -/
def copiedSlot (h hc : Heap) (slot res : Option Nat) : Prop :=
  (res = none ↔ slot = none)
  ∧ derefValidator hc res = derefValidator h slot
  ∧ ∀ q, res = some q → h.validators.length ≤ q ∧ q < hc.validators.length

/-! ## Block factory: `blocks/factory.go`

The factory consumes decoded value objects through `interface{}` and hands them to
per-version initializers that are defined outside the translated file.  A pointer is an
`Option`: `none` is the nil pointer of that type, which is not the nil interface. -/

/-- Modelled from the spec: the block-body value objects are declared outside the translated
file and are opaque.  One Lean type stands for the body objects of all versions; the Go type
is given by the constructor of `Object` that wraps it. -/
structure BlockBodyPb where
  content : List Nat
deriving DecidableEq, Repr

/-- Modelled from the spec: the unsigned-block value objects are declared outside the
translated file; they hold a body.  One Lean type stands for the block objects of all
versions. -/
structure BlockPb where
  content : List Nat
  Body : Option BlockBodyPb
deriving DecidableEq, Repr

/-- The signed-block value objects, with the fields `Block` and `Signature` that
`BuildSignedBeaconBlock` fills.  One Lean type stands for the signed objects of all
versions. -/
structure SignedBlockPb where
  Block : Option BlockPb
  Signature : Bytes
deriving DecidableEq, Repr

/-- Go: `eth.GenericSignedBeaconBlock_Phase0`, the oneof wrapper with its field `Phase0`. -/
structure GenericSignedBeaconBlock_Phase0 where
  Phase0 : Option SignedBlockPb
deriving DecidableEq, Repr

/-- Go: `eth.GenericSignedBeaconBlock_Altair`, the oneof wrapper with its field `Altair`. -/
structure GenericSignedBeaconBlock_Altair where
  Altair : Option SignedBlockPb
deriving DecidableEq, Repr

/-- Go: `eth.GenericSignedBeaconBlock_Bellatrix`, the oneof wrapper with its field
`Bellatrix`. -/
structure GenericSignedBeaconBlock_Bellatrix where
  Bellatrix : Option SignedBlockPb
deriving DecidableEq, Repr

/-- Go: `eth.GenericSignedBeaconBlock_BlindedBellatrix`, the oneof wrapper with its field
`BlindedBellatrix`. -/
structure GenericSignedBeaconBlock_BlindedBellatrix where
  BlindedBellatrix : Option SignedBlockPb
deriving DecidableEq, Repr

/-- Go: `eth.GenericBeaconBlock_Phase0`, the oneof wrapper with its field `Phase0`. -/
structure GenericBeaconBlock_Phase0 where
  Phase0 : Option BlockPb
deriving DecidableEq, Repr

/-- Go: `eth.GenericBeaconBlock_Altair`, the oneof wrapper with its field `Altair`. -/
structure GenericBeaconBlock_Altair where
  Altair : Option BlockPb
deriving DecidableEq, Repr

/-- Go: `eth.GenericBeaconBlock_Bellatrix`, the oneof wrapper with its field `Bellatrix`. -/
structure GenericBeaconBlock_Bellatrix where
  Bellatrix : Option BlockPb
deriving DecidableEq, Repr

/-- Go: `eth.GenericBeaconBlock_BlindedBellatrix`, the oneof wrapper with its field
`BlindedBellatrix`. -/
structure GenericBeaconBlock_BlindedBellatrix where
  BlindedBellatrix : Option BlockPb
deriving DecidableEq, Repr

/-- The dynamic value of an `interface{}` or `proto.Message`: the nil interface, a pointer
of one of the types named in the type switches of the factory, or a value of any other
type, of which only the name that `%T` prints matters. -/
inductive Object
  | nil
  | GenericSignedBeaconBlock_Phase0 (b : Option GenericSignedBeaconBlock_Phase0)
  | SignedBeaconBlock (b : Option SignedBlockPb)
  | GenericSignedBeaconBlock_Altair (b : Option GenericSignedBeaconBlock_Altair)
  | SignedBeaconBlockAltair (b : Option SignedBlockPb)
  | GenericSignedBeaconBlock_Bellatrix (b : Option GenericSignedBeaconBlock_Bellatrix)
  | SignedBeaconBlockBellatrix (b : Option SignedBlockPb)
  | GenericSignedBeaconBlock_BlindedBellatrix
      (b : Option GenericSignedBeaconBlock_BlindedBellatrix)
  | SignedBlindedBeaconBlockBellatrix (b : Option SignedBlockPb)
  | GenericBeaconBlock_Phase0 (b : Option GenericBeaconBlock_Phase0)
  | BeaconBlock (b : Option BlockPb)
  | GenericBeaconBlock_Altair (b : Option GenericBeaconBlock_Altair)
  | BeaconBlockAltair (b : Option BlockPb)
  | GenericBeaconBlock_Bellatrix (b : Option GenericBeaconBlock_Bellatrix)
  | BeaconBlockBellatrix (b : Option BlockPb)
  | GenericBeaconBlock_BlindedBellatrix (b : Option GenericBeaconBlock_BlindedBellatrix)
  | BlindedBeaconBlockBellatrix (b : Option BlockPb)
  | BeaconBlockBody (b : Option BlockBodyPb)
  | BeaconBlockBodyAltair (b : Option BlockBodyPb)
  | BeaconBlockBodyBellatrix (b : Option BlockBodyPb)
  | BlindedBeaconBlockBodyBellatrix (b : Option BlockBodyPb)
  | other (typeName : String)
deriving DecidableEq, Repr

/-- What the verb `%T` prints for a value: the name of its dynamic type. -/
def Object.typeName : Object → String
  | Object.nil => "<nil>"
  | Object.GenericSignedBeaconBlock_Phase0 _ => "*eth.GenericSignedBeaconBlock_Phase0"
  | Object.SignedBeaconBlock _ => "*eth.SignedBeaconBlock"
  | Object.GenericSignedBeaconBlock_Altair _ => "*eth.GenericSignedBeaconBlock_Altair"
  | Object.SignedBeaconBlockAltair _ => "*eth.SignedBeaconBlockAltair"
  | Object.GenericSignedBeaconBlock_Bellatrix _ => "*eth.GenericSignedBeaconBlock_Bellatrix"
  | Object.SignedBeaconBlockBellatrix _ => "*eth.SignedBeaconBlockBellatrix"
  | Object.GenericSignedBeaconBlock_BlindedBellatrix _ =>
    "*eth.GenericSignedBeaconBlock_BlindedBellatrix"
  | Object.SignedBlindedBeaconBlockBellatrix _ => "*eth.SignedBlindedBeaconBlockBellatrix"
  | Object.GenericBeaconBlock_Phase0 _ => "*eth.GenericBeaconBlock_Phase0"
  | Object.BeaconBlock _ => "*eth.BeaconBlock"
  | Object.GenericBeaconBlock_Altair _ => "*eth.GenericBeaconBlock_Altair"
  | Object.BeaconBlockAltair _ => "*eth.BeaconBlockAltair"
  | Object.GenericBeaconBlock_Bellatrix _ => "*eth.GenericBeaconBlock_Bellatrix"
  | Object.BeaconBlockBellatrix _ => "*eth.BeaconBlockBellatrix"
  | Object.GenericBeaconBlock_BlindedBellatrix _ => "*eth.GenericBeaconBlock_BlindedBellatrix"
  | Object.BlindedBeaconBlockBellatrix _ => "*eth.BlindedBeaconBlockBellatrix"
  | Object.BeaconBlockBody _ => "*eth.BeaconBlockBody"
  | Object.BeaconBlockBodyAltair _ => "*eth.BeaconBlockBodyAltair"
  | Object.BeaconBlockBodyBellatrix _ => "*eth.BeaconBlockBodyBellatrix"
  | Object.BlindedBeaconBlockBodyBellatrix _ => "*eth.BlindedBeaconBlockBodyBellatrix"
  | Object.other typeName => typeName

/-- Go: `eth.GenericSignedBeaconBlock`, the envelope; its field `Block` is the oneof
interface value. -/
structure GenericSignedBeaconBlock where
  Block : Object
deriving DecidableEq, Repr

/-- The error values of `factory.go`.  The three unsupported errors carry the type name when
they are built with `errors.Wrapf(..., "unable to wrap ... of type %T", i)` and `none` when
the bare variable is returned. -/
inductive BlockErr
  /-- `errNilObjectWrapped` -/
  | errNilObjectWrapped
  /-- `errUnsupportedSignedBeaconBlock` -/
  | errUnsupportedSignedBeaconBlock (observed : Option String)
  /-- `errUnsupportedBeaconBlock` -/
  | errUnsupportedBeaconBlock (observed : Option String)
  /-- `errUnsupportedBeaconBlockBody` -/
  | errUnsupportedBeaconBlockBody (observed : Option String)
  /-- `errNilSignedBeaconBlock` -/
  | errNilSignedBeaconBlock
  /-- `errNilBeaconBlock` -/
  | errNilBeaconBlock
  /-- `errNilBeaconBlockBody` -/
  | errNilBeaconBlockBody
  /-- `errors.New("unable to access inner ... proto")` with its message -/
  | innerProto (message : String)
  /-- An error produced by a collaborator passed in as a parameter. -/
  | other (code : Nat)
deriving DecidableEq, Repr

/-- The outcome of a function of the factory: it returns `val` or the Go program panics. -/
inductive Run (α : Type)
  | ret (val : α)
  | fault
deriving DecidableEq, Repr

/-- The per-version initializers of `proto.go`, defined outside the translated file and
taken as parameters.  `S`, `B` and `D` are the types of the signed-block, block and
block-body views they build. -/
structure Initializers (S B D : Type) where
  initSignedBlockFromProtoPhase0 : Option SignedBlockPb → Run (Option S × Option BlockErr)
  initSignedBlockFromProtoAltair : Option SignedBlockPb → Run (Option S × Option BlockErr)
  initSignedBlockFromProtoBellatrix : Option SignedBlockPb → Run (Option S × Option BlockErr)
  initBlindedSignedBlockFromProtoBellatrix :
    Option SignedBlockPb → Run (Option S × Option BlockErr)
  initBlockFromProtoPhase0 : Option BlockPb → Run (Option B × Option BlockErr)
  initBlockFromProtoAltair : Option BlockPb → Run (Option B × Option BlockErr)
  initBlockFromProtoBellatrix : Option BlockPb → Run (Option B × Option BlockErr)
  initBlindedBlockFromProtoBellatrix : Option BlockPb → Run (Option B × Option BlockErr)
  initBlockBodyFromProtoPhase0 : Option BlockBodyPb → Run (Option D × Option BlockErr)
  initBlockBodyFromProtoAltair : Option BlockBodyPb → Run (Option D × Option BlockErr)
  initBlockBodyFromProtoBellatrix : Option BlockBodyPb → Run (Option D × Option BlockErr)
  initBlindedBlockBodyFromProtoBellatrix :
    Option BlockBodyPb → Run (Option D × Option BlockErr)

/-- Go: `NewSignedBeaconBlock`.  Reading the field of a nil wrapper pointer faults. -/
def NewSignedBeaconBlock {S B D : Type} (ini : Initializers S B D) (i : Object) :
    Run (Option S × Option BlockErr) :=
  match i with
  | Object.GenericSignedBeaconBlock_Phase0 b =>
    match b with
    | none => Run.fault
    | some b => ini.initSignedBlockFromProtoPhase0 b.Phase0
  | Object.SignedBeaconBlock b => ini.initSignedBlockFromProtoPhase0 b
  | Object.GenericSignedBeaconBlock_Altair b =>
    match b with
    | none => Run.fault
    | some b => ini.initSignedBlockFromProtoAltair b.Altair
  | Object.SignedBeaconBlockAltair b => ini.initSignedBlockFromProtoAltair b
  | Object.GenericSignedBeaconBlock_Bellatrix b =>
    match b with
    | none => Run.fault
    | some b => ini.initSignedBlockFromProtoBellatrix b.Bellatrix
  | Object.SignedBeaconBlockBellatrix b => ini.initSignedBlockFromProtoBellatrix b
  | Object.GenericSignedBeaconBlock_BlindedBellatrix b =>
    match b with
    | none => Run.fault
    | some b => ini.initBlindedSignedBlockFromProtoBellatrix b.BlindedBellatrix
  | Object.SignedBlindedBeaconBlockBellatrix b => ini.initBlindedSignedBlockFromProtoBellatrix b
  | Object.nil => Run.ret (none, some BlockErr.errNilObjectWrapped)
  | _ => Run.ret (none, some (BlockErr.errUnsupportedSignedBeaconBlock (some i.typeName)))

/-- Go: `NewBeaconBlock`.  Reading the field of a nil wrapper pointer faults. -/
def NewBeaconBlock {S B D : Type} (ini : Initializers S B D) (i : Object) :
    Run (Option B × Option BlockErr) :=
  match i with
  | Object.GenericBeaconBlock_Phase0 b =>
    match b with
    | none => Run.fault
    | some b => ini.initBlockFromProtoPhase0 b.Phase0
  | Object.BeaconBlock b => ini.initBlockFromProtoPhase0 b
  | Object.GenericBeaconBlock_Altair b =>
    match b with
    | none => Run.fault
    | some b => ini.initBlockFromProtoAltair b.Altair
  | Object.BeaconBlockAltair b => ini.initBlockFromProtoAltair b
  | Object.GenericBeaconBlock_Bellatrix b =>
    match b with
    | none => Run.fault
    | some b => ini.initBlockFromProtoBellatrix b.Bellatrix
  | Object.BeaconBlockBellatrix b => ini.initBlockFromProtoBellatrix b
  | Object.GenericBeaconBlock_BlindedBellatrix b =>
    match b with
    | none => Run.fault
    | some b => ini.initBlindedBlockFromProtoBellatrix b.BlindedBellatrix
  | Object.BlindedBeaconBlockBellatrix b => ini.initBlindedBlockFromProtoBellatrix b
  | Object.nil => Run.ret (none, some BlockErr.errNilObjectWrapped)
  | _ => Run.ret (none, some (BlockErr.errUnsupportedBeaconBlock (some i.typeName)))

/-- Go: `NewBeaconBlockBody`. -/
def NewBeaconBlockBody {S B D : Type} (ini : Initializers S B D) (i : Object) :
    Run (Option D × Option BlockErr) :=
  match i with
  | Object.BeaconBlockBody b => ini.initBlockBodyFromProtoPhase0 b
  | Object.BeaconBlockBodyAltair b => ini.initBlockBodyFromProtoAltair b
  | Object.BeaconBlockBodyBellatrix b => ini.initBlockBodyFromProtoBellatrix b
  | Object.BlindedBeaconBlockBodyBellatrix b => ini.initBlindedBlockBodyFromProtoBellatrix b
  | Object.nil => Run.ret (none, some BlockErr.errNilObjectWrapped)
  | _ => Run.ret (none, some (BlockErr.errUnsupportedBeaconBlockBody (some i.typeName)))

/-- Modelled from the spec: `interfaces.BeaconBlockBody` is declared outside the translated
file; of the capability set of a view only `is_nil()` is used here.  An interface value is
given by what its methods return. -/
structure BeaconBlockBodyHandle where
  IsNil : Bool
deriving DecidableEq, Repr

/-- Modelled from the spec: `interfaces.BeaconBlock` is declared outside the translated file;
the capability set of a view has `version()`, `is_nil()`, `body()` and `proto()`.  An
interface value is given by what its methods return; `Body` is `none` when calling `Body()`
and using its result faults. -/
structure BeaconBlockHandle where
  IsNil : Bool
  Version : Nat
  Proto : Object × Option BlockErr
  Body : Option BeaconBlockBodyHandle
deriving DecidableEq, Repr

/-- Modelled from the spec: `interfaces.SignedBeaconBlock` is declared outside the translated
file; of the capability set of a signed view `is_nil()` and `block()` are used here.
`Block` is `none` when calling `Block()` and using its result faults. -/
structure SignedBeaconBlockHandle where
  IsNil : Bool
  Block : Option BeaconBlockHandle
deriving DecidableEq, Repr

/-- Go: `BuildSignedBeaconBlock`.  A nil interface `blk` faults at `blk.Proto()`. -/
def BuildSignedBeaconBlock {S B D : Type} (ini : Initializers S B D)
    (blk : Option BeaconBlockHandle) (signature : Bytes) : Run (Option S × Option BlockErr) :=
  match blk with
  | none => Run.fault
  | some blk =>
    match blk.Proto with
    | (_, some err) => Run.ret (none, some err)
    | (pb, none) =>
      if blk.Version = version.Phase0 then
        match pb with
        | Object.BeaconBlock pb =>
          NewSignedBeaconBlock ini
            (Object.SignedBeaconBlock (some { Block := pb, Signature := signature }))
        | _ => Run.ret (none, some (BlockErr.innerProto "unable to access inner phase0 proto"))
      else if blk.Version = version.Altair then
        match pb with
        | Object.BeaconBlockAltair pb =>
          NewSignedBeaconBlock ini
            (Object.SignedBeaconBlockAltair (some { Block := pb, Signature := signature }))
        | _ => Run.ret (none, some (BlockErr.innerProto "unable to access inner altair proto"))
      else if blk.Version = version.Bellatrix then
        match pb with
        | Object.BeaconBlockBellatrix pb =>
          NewSignedBeaconBlock ini
            (Object.SignedBeaconBlockBellatrix (some { Block := pb, Signature := signature }))
        | _ =>
          Run.ret (none, some (BlockErr.innerProto "unable to access inner bellatrix proto"))
      else if blk.Version = version.BellatrixBlind then
        match pb with
        | Object.BlindedBeaconBlockBellatrix pb =>
          NewSignedBeaconBlock ini
            (Object.SignedBlindedBeaconBlockBellatrix
              (some { Block := pb, Signature := signature }))
        | _ =>
          Run.ret (none, some (BlockErr.innerProto "unable to access inner bellatrix proto"))
      else
        Run.ret (none, some (BlockErr.errUnsupportedBeaconBlockBody none))

/-- What `%T` prints for the envelope pointer `gb`. -/
def GenericSignedBeaconBlock.typeName : String := "*eth.GenericSignedBeaconBlock"

/-- Go: `NewSignedBeaconBlockFromGeneric`.  The field of the variant is passed on as an
interface value of its pointer type. -/
def NewSignedBeaconBlockFromGeneric {S B D : Type} (ini : Initializers S B D)
    (gb : Option GenericSignedBeaconBlock) : Run (Option S × Option BlockErr) :=
  match gb with
  | none => Run.ret (none, some BlockErr.errNilObjectWrapped)
  | some gb =>
    match gb.Block with
    | Object.GenericSignedBeaconBlock_Phase0 bb =>
      match bb with
      | none => Run.fault
      | some bb => NewSignedBeaconBlock ini (Object.SignedBeaconBlock bb.Phase0)
    | Object.GenericSignedBeaconBlock_Altair bb =>
      match bb with
      | none => Run.fault
      | some bb => NewSignedBeaconBlock ini (Object.SignedBeaconBlockAltair bb.Altair)
    | Object.GenericSignedBeaconBlock_Bellatrix bb =>
      match bb with
      | none => Run.fault
      | some bb => NewSignedBeaconBlock ini (Object.SignedBeaconBlockBellatrix bb.Bellatrix)
    | Object.GenericSignedBeaconBlock_BlindedBellatrix bb =>
      match bb with
      | none => Run.fault
      | some bb =>
        NewSignedBeaconBlock ini (Object.SignedBlindedBeaconBlockBellatrix bb.BlindedBellatrix)
    | _ =>
      Run.ret (none, some (BlockErr.errUnsupportedSignedBeaconBlock
        (some GenericSignedBeaconBlock.typeName)))

/-- Go: `BeaconBlockIsNil`.  The conditions are evaluated in the order of the source, so an
accessor that would fault is reached only when every check before it has passed. -/
def BeaconBlockIsNil (b : Option SignedBeaconBlockHandle) : Run (Option BlockErr) :=
  match b with
  | none => Run.ret (some BlockErr.errNilSignedBeaconBlock)
  | some b =>
    if b.IsNil then Run.ret (some BlockErr.errNilSignedBeaconBlock)
    else
      match b.Block with
      | none => Run.fault
      | some blk =>
        if blk.IsNil then Run.ret (some BlockErr.errNilBeaconBlock)
        else
          match blk.Body with
          | none => Run.fault
          | some body =>
            if body.IsNil then Run.ret (some BlockErr.errNilBeaconBlockBody)
            else Run.ret none

/-- The input shapes `NewSignedBeaconBlock` recognizes: the cases of its type switch before
`nil` and `default`. -/
def Object.isSignedShape : Object → Bool
  | Object.GenericSignedBeaconBlock_Phase0 _ => true
  | Object.SignedBeaconBlock _ => true
  | Object.GenericSignedBeaconBlock_Altair _ => true
  | Object.SignedBeaconBlockAltair _ => true
  | Object.GenericSignedBeaconBlock_Bellatrix _ => true
  | Object.SignedBeaconBlockBellatrix _ => true
  | Object.GenericSignedBeaconBlock_BlindedBellatrix _ => true
  | Object.SignedBlindedBeaconBlockBellatrix _ => true
  | _ => false

/-- The input shapes `NewBeaconBlock` recognizes. -/
def Object.isBlockShape : Object → Bool
  | Object.GenericBeaconBlock_Phase0 _ => true
  | Object.BeaconBlock _ => true
  | Object.GenericBeaconBlock_Altair _ => true
  | Object.BeaconBlockAltair _ => true
  | Object.GenericBeaconBlock_Bellatrix _ => true
  | Object.BeaconBlockBellatrix _ => true
  | Object.GenericBeaconBlock_BlindedBellatrix _ => true
  | Object.BlindedBeaconBlockBellatrix _ => true
  | _ => false

/-- The input shapes `NewBeaconBlockBody` recognizes. -/
def Object.isBodyShape : Object → Bool
  | Object.BeaconBlockBody _ => true
  | Object.BeaconBlockBodyAltair _ => true
  | Object.BeaconBlockBodyBellatrix _ => true
  | Object.BlindedBeaconBlockBodyBellatrix _ => true
  | _ => false

/-- The variants of the envelope `NewSignedBeaconBlockFromGeneric` recognizes. -/
def Object.isSignedVariant : Object → Bool
  | Object.GenericSignedBeaconBlock_Phase0 _ => true
  | Object.GenericSignedBeaconBlock_Altair _ => true
  | Object.GenericSignedBeaconBlock_Bellatrix _ => true
  | Object.GenericSignedBeaconBlock_BlindedBellatrix _ => true
  | _ => false

/-- An initializer never answers with one of the three unsupported errors.  The spec lists
these errors as what the constructors themselves report for an unrecognized shape. -/
def neverUnsupported {α V : Type} (init : α → Run (Option V × Option BlockErr)) : Prop :=
  ∀ x v o, init x ≠ Run.ret (v, some (BlockErr.errUnsupportedSignedBeaconBlock o))
    ∧ init x ≠ Run.ret (v, some (BlockErr.errUnsupportedBeaconBlock o))
    ∧ init x ≠ Run.ret (v, some (BlockErr.errUnsupportedBeaconBlockBody o))

/-- Every initializer of `ini` never answers with an unsupported error. -/
def Initializers.neverUnsupported {S B D : Type} (ini : Initializers S B D) : Prop :=
  Prysm.neverUnsupported ini.initSignedBlockFromProtoPhase0
  ∧ Prysm.neverUnsupported ini.initSignedBlockFromProtoAltair
  ∧ Prysm.neverUnsupported ini.initSignedBlockFromProtoBellatrix
  ∧ Prysm.neverUnsupported ini.initBlindedSignedBlockFromProtoBellatrix
  ∧ Prysm.neverUnsupported ini.initBlockFromProtoPhase0
  ∧ Prysm.neverUnsupported ini.initBlockFromProtoAltair
  ∧ Prysm.neverUnsupported ini.initBlockFromProtoBellatrix
  ∧ Prysm.neverUnsupported ini.initBlindedBlockFromProtoBellatrix
  ∧ Prysm.neverUnsupported ini.initBlockBodyFromProtoPhase0
  ∧ Prysm.neverUnsupported ini.initBlockBodyFromProtoAltair
  ∧ Prysm.neverUnsupported ini.initBlockBodyFromProtoBellatrix
  ∧ Prysm.neverUnsupported ini.initBlindedBlockBodyFromProtoBellatrix

/-- Modelled from the spec: the methods of a signed-block view are defined outside the
translated file; the spec lists `version()`, `proto()` returning the underlying value
object, `signature()` and `block()`.  `BlockProto` is `block().proto()`. -/
structure SignedViewMethods (S : Type) where
  Version : S → Nat
  Proto : S → Object × Option BlockErr
  Signature : S → Bytes
  BlockProto : S → Object × Option BlockErr

/-- The view `v` presents the signed value object `x` of the given version: its version is
`ver`, `proto()` returns `x` under its Go type, and for a non-nil `x` the signature and
`block().proto()` are the fields of `x`. -/
def presents {S : Type} (m : SignedViewMethods S) (ver : Nat)
    (signedType : Option SignedBlockPb → Object) (blockType : Option BlockPb → Object)
    (x : Option SignedBlockPb) (v : S) : Prop :=
  m.Version v = ver
  ∧ m.Proto v = (signedType x, none)
  ∧ ∀ pb, x = some pb →
      m.Signature v = pb.Signature ∧ m.BlockProto v = (blockType pb.Block, none)

/-- Modelled from the spec: the per-version initializers are defined outside the translated
file; the spec says each builds a view of its version over the value object it is given,
whose `proto()` returns that object. -/
def Initializers.buildsViews {S B D : Type} (ini : Initializers S B D)
    (m : SignedViewMethods S) : Prop :=
  (∀ x v, ini.initSignedBlockFromProtoPhase0 x = Run.ret (some v, none) →
      presents m version.Phase0 Object.SignedBeaconBlock Object.BeaconBlock x v)
  ∧ (∀ x v, ini.initSignedBlockFromProtoAltair x = Run.ret (some v, none) →
      presents m version.Altair Object.SignedBeaconBlockAltair Object.BeaconBlockAltair x v)
  ∧ (∀ x v, ini.initSignedBlockFromProtoBellatrix x = Run.ret (some v, none) →
      presents m version.Bellatrix Object.SignedBeaconBlockBellatrix
        Object.BeaconBlockBellatrix x v)
  ∧ (∀ x v, ini.initBlindedSignedBlockFromProtoBellatrix x = Run.ret (some v, none) →
      presents m version.BellatrixBlind Object.SignedBlindedBeaconBlockBellatrix
        Object.BlindedBeaconBlockBellatrix x v)

/-- A view that records its version and the value object it wraps. -/
structure ExampleView (α : Type) where
  version : Nat
  object : α
deriving DecidableEq, Repr

/-- An initializer that wraps a non-nil object of the given version and rejects a nil
pointer; one possible initializer. -/
def exampleInit {α : Type} (ver : Nat) (x : Option α) :
    Run (Option (ExampleView α) × Option BlockErr) :=
  match x with
  | some pb => Run.ret (some { version := ver, object := pb }, none)
  | none => Run.ret (none, some (BlockErr.other 0))

/-- One possible set of initializers. -/
def exampleInitializers :
    Initializers (ExampleView SignedBlockPb) (ExampleView BlockPb) (ExampleView BlockBodyPb) :=
  { initSignedBlockFromProtoPhase0 := exampleInit version.Phase0
    initSignedBlockFromProtoAltair := exampleInit version.Altair
    initSignedBlockFromProtoBellatrix := exampleInit version.Bellatrix
    initBlindedSignedBlockFromProtoBellatrix := exampleInit version.BellatrixBlind
    initBlockFromProtoPhase0 := exampleInit version.Phase0
    initBlockFromProtoAltair := exampleInit version.Altair
    initBlockFromProtoBellatrix := exampleInit version.Bellatrix
    initBlindedBlockFromProtoBellatrix := exampleInit version.BellatrixBlind
    initBlockBodyFromProtoPhase0 := exampleInit version.Phase0
    initBlockBodyFromProtoAltair := exampleInit version.Altair
    initBlockBodyFromProtoBellatrix := exampleInit version.Bellatrix
    initBlindedBlockBodyFromProtoBellatrix := exampleInit version.BellatrixBlind }

/-- The Go type under which a signed object of a version is handed out. -/
def signedObjectOf (ver : Nat) (x : Option SignedBlockPb) : Object :=
  if ver = version.Phase0 then Object.SignedBeaconBlock x
  else if ver = version.Altair then Object.SignedBeaconBlockAltair x
  else if ver = version.Bellatrix then Object.SignedBeaconBlockBellatrix x
  else Object.SignedBlindedBeaconBlockBellatrix x

/-- The Go type under which a block object of a version is handed out. -/
def blockObjectOf (ver : Nat) (x : Option BlockPb) : Object :=
  if ver = version.Phase0 then Object.BeaconBlock x
  else if ver = version.Altair then Object.BeaconBlockAltair x
  else if ver = version.Bellatrix then Object.BeaconBlockBellatrix x
  else Object.BlindedBeaconBlockBellatrix x

/-- The methods of `ExampleView` as a signed-block view. -/
def exampleMethods : SignedViewMethods (ExampleView SignedBlockPb) :=
  { Version := fun v => v.version
    Proto := fun v => (signedObjectOf v.version (some v.object), none)
    Signature := fun v => v.object.Signature
    BlockProto := fun v => (blockObjectOf v.version v.object.Block, none) }

/-- A signed Altair block with a block and a body. -/
def exampleSigned : SignedBlockPb :=
  { Block := some { content := [1], Body := some { content := [2] } }, Signature := [9, 9] }

/-- A signed-block handle with all three layers non-nil. -/
def exampleHandle : SignedBeaconBlockHandle :=
  { IsNil := false
    Block := some
      { IsNil := false
        Version := version.Bellatrix
        Proto := (Object.BeaconBlockBellatrix (some { content := [1], Body := none }), none)
        Body := some { IsNil := false } } }

/-- A signed-block handle that is nil inside and whose `Block()` must not be used. -/
def exampleNilHandle : SignedBeaconBlockHandle := { IsNil := true, Block := none }

/-- A Bellatrix block view, as `BuildSignedBeaconBlock` receives it. -/
def exampleBlockHandle : BeaconBlockHandle :=
  { IsNil := false
    Version := version.Bellatrix
    Proto := (Object.BeaconBlockBellatrix (some { content := [1], Body := none }), none)
    Body := some { IsNil := false } }

/-- A callback that reports an error on position 2 and none elsewhere, whatever it was
invoked on before. -/
def exampleCallback (_calls : List (Nat × Option ReadOnlyValidator)) (idx : Nat)
    (_val : Option ReadOnlyValidator) : Option Err :=
  if idx = 2 then some (Err.other 7) else none

/-- The state `exampleState` with validators in all three slots. -/
def exampleFullValidators : State :=
  { exampleState with validators := some [some 0, some 1, some 0] }

/-- The envelope holding the Altair variant of `exampleSigned`. -/
def exampleAltairEnvelope : GenericSignedBeaconBlock :=
  { Block := Object.GenericSignedBeaconBlock_Altair (some { Altair := some exampleSigned }) }

/-- The signed Bellatrix view over the block of `exampleBlockHandle` with signature
`[7, 7]`. -/
def exampleAssembled : ExampleView SignedBlockPb :=
  { version := version.Bellatrix
    object := { Block := some { content := [1], Body := none }, Signature := [7, 7] } }

/-! # Theorems -/

/-! ## Lists, counters and slices -/

theorem getD_append_lt {α : Type} (st : List α) (x d : α) (p : Nat) (hp : p < st.length) :
    (st ++ [x]).getD p d = st.getD p d := by
  simp [List.getD_eq_getElem?_getD, List.getElem?_append_left hp]

theorem getD_append_self {α : Type} (st : List α) (x d : α) :
    (st ++ [x]).getD st.length d = x := by
  simp [List.getD_eq_getElem?_getD]

theorem getD_set_self {α : Type} (st : List α) (x d : α) (p : Nat) (hp : p < st.length) :
    (st.set p x).getD p d = x := by
  simp [List.getD_eq_getElem?_getD, hp]

theorem getD_set_ne {α : Type} (st : List α) (x d : α) (p q : Nat) (hpq : p ≠ q) :
    (st.set p x).getD q d = st.getD q d := by
  simp [List.getD_eq_getElem?_getD, List.getElem?_set_ne hpq]

theorem take_succ_set {α : Type} (v : α) :
    ∀ (l : List α) (n : Nat), n < l.length → (l.set n v).take (n + 1) = l.take n ++ [v]
  | [], n, hn => by simp at hn
  | x :: l, 0, _ => by simp
  | x :: l, n + 1, hn => by
    have ih := take_succ_set v l n (by simpa using hn)
    simp [ih]

theorem take_set_ge {α : Type} (v : α) :
    ∀ (l : List α) (n m : Nat), m ≤ n → (l.set n v).take m = l.take m
  | [], n, m, _ => by simp
  | x :: l, 0, m, hm => by
    have : m = 0 := by omega
    subst this; simp
  | x :: l, n + 1, 0, _ => by simp
  | x :: l, n + 1, m + 1, hm => by
    have ih := take_set_ge v l n m (by omega)
    simp [ih]

theorem take_append_pad {α : Type} (l pad : List α) (v : α) (n : Nat) (hn : n ≤ l.length) :
    (l.take n ++ [v] ++ pad).take (n + 1) = l.take n ++ [v] := by
  have hlen : (l.take n ++ [v]).length = n + 1 := by simp [Nat.min_eq_left hn]
  rw [← hlen, List.take_left']
  rfl

theorem goAppend_len {α : Type} (zero : α) (grow : Nat → Nat) (st : List (List α))
    (s : Option Slice) (v : α) :
    (goAppend zero grow st s v).1.len = sliceLen s + 1 := by
  unfold goAppend sliceLen
  cases s with
  | none => rfl
  | some d => dsimp only; split <;> rfl

theorem goAppend_elems {α : Type} (zero : α) (grow : Nat → Nat) (st : List (List α))
    (s : Option Slice) (v : α) (hv : sliceValid st s) :
    sliceElems (goAppend zero grow st s v).2 (some (goAppend zero grow st s v).1)
      = sliceElems st s ++ [v] := by
  unfold goAppend sliceElems
  cases s with
  | none => simp [getD_append_self]
  | some d =>
    obtain ⟨hp, hl⟩ := hv
    dsimp only
    split
    · rename_i hlt
      dsimp only
      rw [getD_set_self _ _ _ _ hp]
      exact take_succ_set v _ _ hlt
    · rename_i hge
      have hlen : d.len = (st.getD d.ptr []).length := by omega
      dsimp only
      rw [getD_append_self]
      exact take_append_pad _ _ v _ hl


theorem Refs_MinusRef_NewRef (h : Heap) (r n : Nat) (hr : r < h.refs.length) :
    Refs (NewRef (MinusRef h r) n).2 r = Refs h r - 1 := by
  simp [Refs, NewRef, MinusRef, List.getD_eq_getElem?_getD, List.getElem?_append_left, hr]

theorem Refs_NewRef_fresh (h : Heap) (r n : Nat) :
    Refs (NewRef (MinusRef h r) n).2 (NewRef (MinusRef h r) n).1 = n := by
  simp [Refs, NewRef, MinusRef, List.getD_eq_getElem?_getD]

theorem goAppend_frame {α : Type} (zero : α) (grow : Nat → Nat) (st : List (List α))
    (s : Option Slice) (v : α) (p : Nat) (hp : p < st.length)
    (hne : ∀ d, s = some d → d.ptr ≠ p) :
    (goAppend zero grow st s v).2.getD p [] = st.getD p [] := by
  unfold goAppend
  cases s with
  | none => exact getD_append_lt _ _ _ _ hp
  | some d =>
    dsimp only
    split
    · exact getD_set_ne _ _ _ _ _ (hne d rfl)
    · exact getD_append_lt _ _ _ _ hp

theorem cow_store {α : Type} (zero : α) (st : List (List α)) (s : Option Slice)
    (hv : sliceValid st s) :
    goCopy (goMake zero st (sliceLen s)).2 (some (goMake zero st (sliceLen s)).1) s
      = st ++ [sliceElems st s] := by
  cases s with
  | none => simp [goCopy, goMake, sliceLen, sliceElems]
  | some d =>
    obtain ⟨hp, hl⟩ := hv
    simp only [goCopy, goMake, sliceLen, sliceElems, Nat.min_self]
    rw [getD_append_lt _ _ _ _ hp, getD_append_self]
    simp [List.take_take]

theorem sliceElems_length {α : Type} (st : List (List α)) (s : Option Slice)
    (hv : sliceValid st s) : (sliceElems st s).length = sliceLen s := by
  cases s with
  | none => rfl
  | some d => simpa [sliceElems, sliceLen] using hv.2

theorem AppendEth1DataVotes_votes_shared (grow : Nat → Nat) (b : State) (h : Heap)
    (val : Option Eth1Data)
    (hgt : 1 < Refs h (b.sharedFieldReferences FieldIndex.Eth1DataVotes)) :
    (b.AppendEth1DataVotes grow h val).2.1.eth1DataVotes
      = some (goAppend none grow
          (goCopy (goMake none h.votes (sliceLen b.eth1DataVotes)).2
            (some (goMake none h.votes (sliceLen b.eth1DataVotes)).1) b.eth1DataVotes)
          (some (goMake none h.votes (sliceLen b.eth1DataVotes)).1) val).1
    ∧ (b.AppendEth1DataVotes grow h val).2.2.votes
      = (goAppend none grow
          (goCopy (goMake none h.votes (sliceLen b.eth1DataVotes)).2
            (some (goMake none h.votes (sliceLen b.eth1DataVotes)).1) b.eth1DataVotes)
          (some (goMake none h.votes (sliceLen b.eth1DataVotes)).1) val).2
    ∧ (b.AppendEth1DataVotes grow h val).2.2.refs
      = (NewRef (MinusRef h (b.sharedFieldReferences FieldIndex.Eth1DataVotes)) 1).2.refs
    ∧ (b.AppendEth1DataVotes grow h val).2.1.sharedFieldReferences
      = Function.update b.sharedFieldReferences FieldIndex.Eth1DataVotes h.refs.length := by
  simp only [State.AppendEth1DataVotes, gt_iff_lt, hgt, if_true]
  refine ⟨rfl, rfl, rfl, ?_⟩
  simp [State.addDirtyIndices, State.markFieldAsDirty, NewRef, MinusRef]

theorem AppendEth1DataVotes_votes_owned (grow : Nat → Nat) (b : State) (h : Heap)
    (val : Option Eth1Data)
    (hle : Refs h (b.sharedFieldReferences FieldIndex.Eth1DataVotes) ≤ 1) :
    (b.AppendEth1DataVotes grow h val).2.1.eth1DataVotes
      = some (goAppend none grow h.votes b.eth1DataVotes val).1
    ∧ (b.AppendEth1DataVotes grow h val).2.2.votes
      = (goAppend none grow h.votes b.eth1DataVotes val).2
    ∧ (b.AppendEth1DataVotes grow h val).2.2.refs = h.refs
    ∧ (b.AppendEth1DataVotes grow h val).2.1.sharedFieldReferences
      = b.sharedFieldReferences := by
  have hn : ¬ 1 < Refs h (b.sharedFieldReferences FieldIndex.Eth1DataVotes) := by omega
  simp [State.AppendEth1DataVotes, hn, State.addDirtyIndices, State.markFieldAsDirty]


/-- C1. `AppendEth1DataVotes(v)` returns no error and this state then holds the old list
followed by `v` (one element longer).  If the counter of the field was above one, no backing
array that existed before is written, a holder of the old slice header still observes the
old list, the old counter is one lower, and this state's counter is a newly allocated one
with value 1; if the counter was at most one, the state keeps its counter and no counter
changes. -/
theorem AppendEth1DataVotes_copy_on_write (grow : Nat → Nat) (b : State) (h : Heap)
    (val : Option Eth1Data)
    (hr : b.sharedFieldReferences FieldIndex.Eth1DataVotes < h.refs.length)
    (hs : sliceValid h.votes b.eth1DataVotes) :
    (b.AppendEth1DataVotes grow h val).1 = none
    ∧ sliceElems (b.AppendEth1DataVotes grow h val).2.2.votes
        (b.AppendEth1DataVotes grow h val).2.1.eth1DataVotes
        = sliceElems h.votes b.eth1DataVotes ++ [val]
    ∧ sliceLen (b.AppendEth1DataVotes grow h val).2.1.eth1DataVotes
        = sliceLen b.eth1DataVotes + 1
    ∧ (1 < Refs h (b.sharedFieldReferences FieldIndex.Eth1DataVotes) →
        (∀ p, p < h.votes.length →
          (b.AppendEth1DataVotes grow h val).2.2.votes.getD p [] = h.votes.getD p [])
        ∧ sliceElems (b.AppendEth1DataVotes grow h val).2.2.votes b.eth1DataVotes
            = sliceElems h.votes b.eth1DataVotes
        ∧ Refs (b.AppendEth1DataVotes grow h val).2.2
              (b.sharedFieldReferences FieldIndex.Eth1DataVotes) + 1
            = Refs h (b.sharedFieldReferences FieldIndex.Eth1DataVotes)
        ∧ (b.AppendEth1DataVotes grow h val).2.1.sharedFieldReferences FieldIndex.Eth1DataVotes
            = h.refs.length
        ∧ Refs (b.AppendEth1DataVotes grow h val).2.2
              ((b.AppendEth1DataVotes grow h val).2.1.sharedFieldReferences
                FieldIndex.Eth1DataVotes) = 1)
    ∧ (Refs h (b.sharedFieldReferences FieldIndex.Eth1DataVotes) ≤ 1 →
        (b.AppendEth1DataVotes grow h val).2.1.sharedFieldReferences = b.sharedFieldReferences
        ∧ (b.AppendEth1DataVotes grow h val).2.2.refs = h.refs) := by
  have herr : (b.AppendEth1DataVotes grow h val).1 = none := by
    simp only [State.AppendEth1DataVotes]
  -- the store after the copy-on-write step
  have hcow := cow_store (none : Option Eth1Data) h.votes b.eth1DataVotes hs
  have hfreshValid : sliceValid (h.votes ++ [sliceElems h.votes b.eth1DataVotes])
      (some (goMake (none : Option Eth1Data) h.votes (sliceLen b.eth1DataVotes)).1) := by
    refine ⟨by simp [goMake], ?_⟩
    simp only [goMake]
    rw [getD_append_self, sliceElems_length _ _ hs]
  have hfreshElems : sliceElems (h.votes ++ [sliceElems h.votes b.eth1DataVotes])
      (some (goMake (none : Option Eth1Data) h.votes (sliceLen b.eth1DataVotes)).1)
      = sliceElems h.votes b.eth1DataVotes := by
    simp only [sliceElems, goMake]
    rw [getD_append_self]
    have := sliceElems_length _ _ hs
    simp only [sliceElems] at this
    rw [← this, List.take_length]
  have hold : ∀ p, p < h.votes.length →
      (goAppend none grow (h.votes ++ [sliceElems h.votes b.eth1DataVotes])
        (some (goMake (none : Option Eth1Data) h.votes (sliceLen b.eth1DataVotes)).1)
        val).2.getD p [] = h.votes.getD p [] := by
    intro p hp
    rw [goAppend_frame _ _ _ _ _ p (by simp; omega)]
    · exact getD_append_lt _ _ _ _ hp
    · intro d hd
      cases hd
      simp only [goMake]
      omega
  by_cases hgt : 1 < Refs h (b.sharedFieldReferences FieldIndex.Eth1DataVotes)
  · obtain ⟨e1, e2, e3, e4⟩ := AppendEth1DataVotes_votes_shared grow b h val hgt
    rw [hcow] at e1 e2
    refine ⟨herr, ?_, ?_, fun _ => ⟨?_, ?_, ?_, ?_, ?_⟩, fun hle => absurd hgt (by omega)⟩
    · rw [e1, e2, goAppend_elems _ _ _ _ _ hfreshValid, hfreshElems]
    · rw [e1]
      simp only [sliceLen]
      rw [goAppend_len]
      rfl
    · intro p hp
      rw [e2]
      exact hold p hp
    · rw [e2]
      cases hb : b.eth1DataVotes with
      | none => rfl
      | some d =>
        rw [hb] at hs hold
        have hd := hold d.ptr hs.1
        simp only [sliceElems] at hd ⊢
        rw [hd]
    · have := Refs_MinusRef_NewRef h _ 1 hr
      simp only [Refs] at this hgt ⊢
      rw [e3, this]
      omega
    · rw [e4]
      simp
    · rw [e4]
      simp only [Function.update_same]
      have := Refs_NewRef_fresh h (b.sharedFieldReferences FieldIndex.Eth1DataVotes) 1
      simp only [Refs] at this ⊢
      rw [e3]
      simp [NewRef, MinusRef]
  · have hle : Refs h (b.sharedFieldReferences FieldIndex.Eth1DataVotes) ≤ 1 := by omega
    obtain ⟨e1, e2, e3, e4⟩ := AppendEth1DataVotes_votes_owned grow b h val hle
    refine ⟨herr, ?_, ?_, fun h1 => absurd h1 hgt, fun _ => ⟨e4, e3⟩⟩
    · rw [e1, e2, goAppend_elems _ _ _ _ _ hs]
    · rw [e1]
      simp only [sliceLen]
      rw [goAppend_len]
      rfl

/-- Scenario S1 on `exampleState`: the counter stands at 2 and the list has three elements;
after the append this holder observes four elements, the other holder still three. -/
theorem AppendEth1DataVotes_copy_on_write_witness :
    exampleState.sharedFieldReferences FieldIndex.Eth1DataVotes < exampleHeap.refs.length
    ∧ sliceValid exampleHeap.votes exampleState.eth1DataVotes
    ∧ 1 < Refs exampleHeap (exampleState.sharedFieldReferences FieldIndex.Eth1DataVotes)
    ∧ sliceElems
        (exampleState.AppendEth1DataVotes (fun c => 2 * c) exampleHeap (some { tag := 9 })).2.2.votes
        (exampleState.AppendEth1DataVotes
          (fun c => 2 * c) exampleHeap (some { tag := 9 })).2.1.eth1DataVotes
        = [some { tag := 1 }, some { tag := 2 }, some { tag := 3 }, some { tag := 9 }]
    ∧ sliceElems
        (exampleState.AppendEth1DataVotes (fun c => 2 * c) exampleHeap (some { tag := 9 })).2.2.votes
        exampleState.eth1DataVotes
        = [some { tag := 1 }, some { tag := 2 }, some { tag := 3 }] :=
  ⟨by decide, by decide, by decide,
    (AppendEth1DataVotes_copy_on_write (fun c => 2 * c) exampleState exampleHeap
      (some { tag := 9 }) (by decide) (by decide)).2.1,
    ((AppendEth1DataVotes_copy_on_write (fun c => 2 * c) exampleState exampleHeap
      (some { tag := 9 }) (by decide) (by decide)).2.2.2.1 (by decide)).2.1⟩

theorem mixes_allocated (h : Heap) (p idx N : Nat) (hlen : (h.mixes.getD p []).length = N)
    (hidx : idx < N) : p < h.mixes.length := by
  by_contra hge
  have : h.mixes.getD p [] = [] := by
    simp [List.getD_eq_getElem?_getD, List.getElem?_eq_none (Nat.le_of_not_lt hge)]
  rw [this] at hlen
  simp at hlen
  omega

/-- C2. With `randaoMixes` present and `idx` below the length of the array,
`UpdateRandaoMixesAtIndex(idx, val)` returns no error and this state then holds the old
array with entry `idx` replaced by `ToBytes32(val)`, every other entry unchanged.  If the
counter of the field was above one, no array that existed before is written, the old counter
is one lower, and this state's counter is a newly allocated one with value 1. -/
theorem UpdateRandaoMixesAtIndex_copy_on_write (RandaoMixesLength : Nat)
    (ToBytes32 : Bytes → Bytes) (b : State) (h : Heap) (idx : Nat) (val : Bytes) (p : Nat)
    (hp : b.randaoMixes = some p)
    (hlen : (h.mixes.getD p []).length = RandaoMixesLength)
    (hr : b.sharedFieldReferences FieldIndex.RandaoMixes < h.refs.length)
    (hidx : idx < RandaoMixesLength) :
    ∃ b' h' q,
      b.UpdateRandaoMixesAtIndex RandaoMixesLength ToBytes32 h idx val = Outcome.ret none b' h'
      ∧ b'.randaoMixes = some q
      ∧ h'.mixes.getD q [] = (h.mixes.getD p []).set idx (ToBytes32 val)
      ∧ (h'.mixes.getD q [])[idx]? = some (ToBytes32 val)
      ∧ (∀ j, j ≠ idx → (h'.mixes.getD q [])[j]? = (h.mixes.getD p [])[j]?)
      ∧ (1 < Refs h (b.sharedFieldReferences FieldIndex.RandaoMixes) →
          (∀ a, a < h.mixes.length → h'.mixes.getD a [] = h.mixes.getD a [])
          ∧ Refs h' (b.sharedFieldReferences FieldIndex.RandaoMixes) + 1
              = Refs h (b.sharedFieldReferences FieldIndex.RandaoMixes)
          ∧ b'.sharedFieldReferences FieldIndex.RandaoMixes = h.refs.length
          ∧ Refs h' (b'.sharedFieldReferences FieldIndex.RandaoMixes) = 1) := by
  have hpv := mixes_allocated h p idx RandaoMixesLength hlen hidx
  have hset : ((h.mixes.getD p []).set idx (ToBytes32 val))[idx]? = some (ToBytes32 val) := by
    exact List.getElem?_set_self (by omega)
  have hother : ∀ j, j ≠ idx →
      ((h.mixes.getD p []).set idx (ToBytes32 val))[j]? = (h.mixes.getD p [])[j]? := by
    intro j hj
    exact List.getElem?_set_ne (Ne.symm hj)
  unfold State.UpdateRandaoMixesAtIndex
  rw [if_neg (by omega)]
  by_cases hgt : 1 < Refs h (b.sharedFieldReferences FieldIndex.RandaoMixes)
  · rw [if_pos hgt]
    simp only [hp]
    have hnew : ∀ x : List Bytes,
        ((h.mixes ++ [h.mixes.getD p []]).set h.mixes.length x).getD h.mixes.length [] = x := by
      intro x
      exact getD_set_self _ _ _ _ (by simp)
    have hcopy : (h.mixes ++ [h.mixes.getD p []]).getD h.mixes.length [] = h.mixes.getD p [] :=
      getD_append_self _ _ _
    refine ⟨_, _, h.mixes.length, rfl, ?_, ?_, ?_, ?_, fun _ => ⟨?_, ?_, ?_, ?_⟩⟩
    · simp [State.addDirtyIndices, State.markFieldAsDirty]
    · simp only [NewRef, MinusRef]
      rw [hnew, hcopy]
    · simp only [NewRef, MinusRef]
      rw [hnew, hcopy]
      exact hset
    · intro j hj
      simp only [NewRef, MinusRef]
      rw [hnew, hcopy]
      exact hother j hj
    · intro a ha
      simp only [NewRef, MinusRef]
      rw [getD_set_ne _ _ _ _ _ (by omega)]
      exact getD_append_lt _ _ _ _ ha
    · have := Refs_MinusRef_NewRef { h with mixes := h.mixes ++ [h.mixes.getD p []] } _ 1 hr
      simp only [Refs, NewRef, MinusRef] at this hgt ⊢
      rw [this]
      omega
    · simp [State.addDirtyIndices, State.markFieldAsDirty, NewRef, MinusRef]
    · simp [State.addDirtyIndices, State.markFieldAsDirty, NewRef, MinusRef, Refs,
        List.getD_eq_getElem?_getD]
  · rw [if_neg hgt]
    simp only [hp]
    refine ⟨_, _, p, rfl, ?_, ?_, ?_, ?_, fun h1 => absurd h1 hgt⟩
    · simp [State.addDirtyIndices, State.markFieldAsDirty]
    · exact getD_set_self _ _ _ _ hpv
    · dsimp only
      rw [getD_set_self _ _ _ _ hpv]
      exact hset
    · intro j hj
      dsimp only
      rw [getD_set_self _ _ _ _ hpv]
      exact hother j hj

theorem SetRandaoMixes_loop_some (val : List Bytes) :
    ∀ (fuel i : Nat) (arr : List Bytes), i + fuel ≤ val.length →
      ∃ r, SetRandaoMixes.loop val fuel i arr = some r
  | 0, _, arr, _ => ⟨arr, rfl⟩
  | fuel + 1, i, arr, hle => by
    have hi : i < val.length := by omega
    obtain ⟨r, hr⟩ := SetRandaoMixes_loop_some val fuel (i + 1)
      (arr.set i (copyInto zero32 val[i])) (by omega)
    exact ⟨r, by simp [SetRandaoMixes.loop, List.getElem?_eq_getElem hi, hr]⟩

theorem mem_markFieldAsDirty (b : State) (f : FieldIndex) :
    f ∈ (b.markFieldAsDirty f).dirtyFields := by
  unfold State.markFieldAsDirty
  by_cases hf : f ∈ b.dirtyFields <;> simp [hf]

/-- C3. `SetEth1DataVotes` and, on an input with at least `RandaoMixesLength` entries,
`SetRandaoMixes` return no error and leave the replaced field in `dirtyFields` with its
`rebuildTrie` flag set; this state's counter for the field is a newly allocated one with
value 1 whatever the previous count was, and the previous counter, when it was positive, is
one lower. -/
theorem whole_field_setters_replace_counter (RandaoMixesLength : Nat) (b : State) (h : Heap)
    (votes : Option Slice) (mixes : List Bytes)
    (hv : b.sharedFieldReferences FieldIndex.Eth1DataVotes < h.refs.length)
    (hm : b.sharedFieldReferences FieldIndex.RandaoMixes < h.refs.length)
    (hlen : RandaoMixesLength ≤ mixes.length) :
    ((b.SetEth1DataVotes h votes).1 = none
      ∧ FieldIndex.Eth1DataVotes ∈ (b.SetEth1DataVotes h votes).2.1.dirtyFields
      ∧ (b.SetEth1DataVotes h votes).2.1.rebuildTrie FieldIndex.Eth1DataVotes = true
      ∧ (0 < Refs h (b.sharedFieldReferences FieldIndex.Eth1DataVotes) →
          Refs (b.SetEth1DataVotes h votes).2.2 (b.sharedFieldReferences FieldIndex.Eth1DataVotes)
            + 1 = Refs h (b.sharedFieldReferences FieldIndex.Eth1DataVotes))
      ∧ (b.SetEth1DataVotes h votes).2.1.sharedFieldReferences FieldIndex.Eth1DataVotes
          = h.refs.length
      ∧ Refs (b.SetEth1DataVotes h votes).2.2
          ((b.SetEth1DataVotes h votes).2.1.sharedFieldReferences FieldIndex.Eth1DataVotes) = 1)
    ∧ ∃ b' h', b.SetRandaoMixes RandaoMixesLength h mixes = Outcome.ret none b' h'
      ∧ FieldIndex.RandaoMixes ∈ b'.dirtyFields
      ∧ b'.rebuildTrie FieldIndex.RandaoMixes = true
      ∧ (0 < Refs h (b.sharedFieldReferences FieldIndex.RandaoMixes) →
          Refs h' (b.sharedFieldReferences FieldIndex.RandaoMixes) + 1
            = Refs h (b.sharedFieldReferences FieldIndex.RandaoMixes))
      ∧ b'.sharedFieldReferences FieldIndex.RandaoMixes = h.refs.length
      ∧ Refs h' (b'.sharedFieldReferences FieldIndex.RandaoMixes) = 1 := by
  constructor
  · refine ⟨rfl, ?_, ?_, ?_, ?_, ?_⟩
    · exact mem_markFieldAsDirty _ _
    · simp [State.SetEth1DataVotes]
    · intro hpos
      have := Refs_MinusRef_NewRef h _ 1 hv
      simp only [State.SetEth1DataVotes]
      rw [this]
      omega
    · simp [State.SetEth1DataVotes, NewRef, MinusRef, State.markFieldAsDirty]
    · simp [State.SetEth1DataVotes, NewRef, MinusRef, State.markFieldAsDirty, Refs,
        List.getD_eq_getElem?_getD]
  · obtain ⟨r, hr⟩ := SetRandaoMixes_loop_some mixes RandaoMixesLength 0
      (List.replicate RandaoMixesLength zero32) (by omega)
    unfold State.SetRandaoMixes
    simp only [hr]
    refine ⟨_, _, rfl, ?_, ?_, ?_, ?_, ?_⟩
    · exact mem_markFieldAsDirty _ _
    · simp
    · intro hpos
      have := Refs_MinusRef_NewRef h _ 1 hm
      simp only [Refs, NewRef, MinusRef] at this hpos ⊢
      rw [this]
      omega
    · simp [NewRef, MinusRef, State.markFieldAsDirty]
    · simp [NewRef, MinusRef, State.markFieldAsDirty, Refs, List.getD_eq_getElem?_getD]

theorem addDirtyIndices_mem (b : State) (f : FieldIndex) (idx i : Nat) :
    i ∈ (b.addDirtyIndices f [idx]).dirtyIndices f ↔ i ∈ b.dirtyIndices f ∨ i = idx := by
  simp [State.addDirtyIndices]

theorem addDirtyIndices_other (b : State) (f g : FieldIndex) (l : List Nat) (hg : g ≠ f) :
    (b.addDirtyIndices f l).dirtyIndices g = b.dirtyIndices g := by
  simp [State.addDirtyIndices, Function.update_noteq hg]

theorem AppendEth1DataVotes_dirty (grow : Nat → Nat) (b : State) (h : Heap)
    (v : Option Eth1Data) :
    ∃ b2 : State, (b.AppendEth1DataVotes grow h v).2.1
          = (b2.markFieldAsDirty FieldIndex.Eth1DataVotes).addDirtyIndices
              FieldIndex.Eth1DataVotes [sliceLen b2.eth1DataVotes - 1]
      ∧ b2.dirtyFields = b.dirtyFields ∧ b2.dirtyIndices = b.dirtyIndices
      ∧ b2.rebuildTrie = b.rebuildTrie := by
  by_cases hgt : 1 < Refs h (b.sharedFieldReferences FieldIndex.Eth1DataVotes)
  · simp only [State.AppendEth1DataVotes, gt_iff_lt, hgt, if_true]
    exact ⟨_, rfl, rfl, rfl, rfl⟩
  · simp only [State.AppendEth1DataVotes, gt_iff_lt, hgt, if_false]
    exact ⟨_, rfl, rfl, rfl, rfl⟩

theorem UpdateRandaoMixesAtIndex_dirty (RandaoMixesLength : Nat) (ToBytes32 : Bytes → Bytes)
    (b : State) (h : Heap) (idx : Nat) (val : Bytes)
    (hidx : idx < RandaoMixesLength) (hp : b.randaoMixes ≠ none) :
    ∃ (b2 : State) (h' : Heap),
      b.UpdateRandaoMixesAtIndex RandaoMixesLength ToBytes32 h idx val
          = Outcome.ret none
              ((b2.markFieldAsDirty FieldIndex.RandaoMixes).addDirtyIndices
                FieldIndex.RandaoMixes [idx]) h'
      ∧ b2.dirtyFields = b.dirtyFields
      ∧ b2.dirtyIndices = b.dirtyIndices ∧ b2.rebuildTrie = b.rebuildTrie := by
  obtain ⟨p, hp⟩ := Option.ne_none_iff_exists'.mp hp
  unfold State.UpdateRandaoMixesAtIndex
  rw [if_neg (by omega)]
  split <;> simp only [hp] <;> exact ⟨_, _, rfl, rfl, rfl, rfl⟩

/-- C4. After `AppendEth1DataVotes(v)` the field is dirty and its dirty indices are the
previous ones together with the old length, which is the new length minus one and the index
of the new element; after `UpdateRandaoMixesAtIndex(idx, val)` with `idx` in range on a
state whose mixes are present the field is dirty and its dirty indices are the previous ones
together with `idx`.  In both cases the dirty indices of every other field and the
`rebuildTrie` flags of all fields are unchanged. -/
theorem element_setters_record_index (grow : Nat → Nat) (RandaoMixesLength : Nat)
    (ToBytes32 : Bytes → Bytes) (b : State) (h : Heap) (v : Option Eth1Data) (idx : Nat)
    (val : Bytes) :
    (FieldIndex.Eth1DataVotes ∈ (b.AppendEth1DataVotes grow h v).2.1.dirtyFields
      ∧ (∀ i, i ∈ (b.AppendEth1DataVotes grow h v).2.1.dirtyIndices FieldIndex.Eth1DataVotes
          ↔ i ∈ b.dirtyIndices FieldIndex.Eth1DataVotes ∨ i = sliceLen b.eth1DataVotes)
      ∧ sliceLen b.eth1DataVotes = sliceLen (b.AppendEth1DataVotes grow h v).2.1.eth1DataVotes - 1
      ∧ (∀ f, f ≠ FieldIndex.Eth1DataVotes →
          (b.AppendEth1DataVotes grow h v).2.1.dirtyIndices f = b.dirtyIndices f)
      ∧ (b.AppendEth1DataVotes grow h v).2.1.rebuildTrie = b.rebuildTrie)
    ∧ (idx < RandaoMixesLength → b.randaoMixes ≠ none →
        ∃ b' h', b.UpdateRandaoMixesAtIndex RandaoMixesLength ToBytes32 h idx val
            = Outcome.ret none b' h'
          ∧ FieldIndex.RandaoMixes ∈ b'.dirtyFields
          ∧ (∀ i, i ∈ b'.dirtyIndices FieldIndex.RandaoMixes
              ↔ i ∈ b.dirtyIndices FieldIndex.RandaoMixes ∨ i = idx)
          ∧ (∀ f, f ≠ FieldIndex.RandaoMixes → b'.dirtyIndices f = b.dirtyIndices f)
          ∧ b'.rebuildTrie = b.rebuildTrie) := by
  constructor
  · have hlen : sliceLen (b.AppendEth1DataVotes grow h v).2.1.eth1DataVotes
        = sliceLen b.eth1DataVotes + 1 := by
      by_cases hgt : 1 < Refs h (b.sharedFieldReferences FieldIndex.Eth1DataVotes)
      · rw [(AppendEth1DataVotes_votes_shared grow b h v hgt).1]
        simp only [sliceLen]
        rw [goAppend_len]
        rfl
      · rw [(AppendEth1DataVotes_votes_owned grow b h v (by omega)).1]
        simp only [sliceLen]
        rw [goAppend_len]
        rfl
    obtain ⟨b2, hout, hf, hi, ht⟩ := AppendEth1DataVotes_dirty grow b h v
    have hb2 : sliceLen b2.eth1DataVotes - 1 = sliceLen b.eth1DataVotes := by
      have : (b.AppendEth1DataVotes grow h v).2.1.eth1DataVotes = b2.eth1DataVotes := by
        rw [hout]
        rfl
      rw [← this, hlen]
      omega
    rw [hb2] at hout
    refine ⟨?_, ?_, by omega, ?_, ?_⟩
    · rw [hout]
      exact mem_markFieldAsDirty _ _
    · intro i
      rw [hout, addDirtyIndices_mem]
      simp only [State.markFieldAsDirty, hi]
    · intro f hf'
      rw [hout, addDirtyIndices_other _ _ _ _ hf']
      simp only [State.markFieldAsDirty, hi]
    · rw [hout]
      simp only [State.addDirtyIndices, State.markFieldAsDirty, ht]
  · intro hidx hp
    obtain ⟨b2, h', hout, hf, hi, ht⟩ :=
      UpdateRandaoMixesAtIndex_dirty RandaoMixesLength ToBytes32 b h idx val hidx hp
    refine ⟨_, h', hout, ?_, ?_, ?_, ?_⟩
    · exact mem_markFieldAsDirty _ _
    · intro i
      rw [addDirtyIndices_mem]
      simp only [State.markFieldAsDirty, hi]
    · intro f hf'
      rw [addDirtyIndices_other _ _ _ _ hf']
      simp only [State.markFieldAsDirty, hi]
    · simp only [State.addDirtyIndices, State.markFieldAsDirty, ht]

theorem UpdateRandaoMixesAtIndex_in_range (RandaoMixesLength : Nat) (ToBytes32 : Bytes → Bytes)
    (b : State) (h : Heap) (idx : Nat) (val : Bytes) (hidx : idx < RandaoMixesLength) :
    (b.randaoMixes = none
      ∧ b.UpdateRandaoMixesAtIndex RandaoMixesLength ToBytes32 h idx val = Outcome.fault b h)
    ∨ (b.randaoMixes ≠ none
      ∧ ∃ b' h', b.UpdateRandaoMixesAtIndex RandaoMixesLength ToBytes32 h idx val
          = Outcome.ret none b' h') := by
  unfold State.UpdateRandaoMixesAtIndex
  rw [if_neg (by omega)]
  cases hp : b.randaoMixes with
  | none =>
    left
    refine ⟨rfl, ?_⟩
    split <;> rfl
  | some p =>
    right
    refine ⟨by simp, ?_⟩
    split <;> exact ⟨_, _, rfl⟩

/-- C5. On a state whose `randaoMixes` is present and whose counter for the field is
allocated, `UpdateRandaoMixesAtIndex(idx, val)` returns the invalid-index error carrying
`idx` exactly when `idx` is at or above the length of the mixes array; it then hands back
the state and the heap as they were, so the mixes, the counters, `dirtyFields` and
`dirtyIndices` are unchanged; no other error is ever returned; and when `idx` is in range
it returns no error. -/
theorem UpdateRandaoMixesAtIndex_invalid_index (RandaoMixesLength : Nat)
    (ToBytes32 : Bytes → Bytes) (b : State) (h : Heap) (idx : Nat) (val : Bytes) (p : Nat)
    (hp : b.randaoMixes = some p)
    (hr : b.sharedFieldReferences FieldIndex.RandaoMixes < h.refs.length) :
    ((∃ b' h', b.UpdateRandaoMixesAtIndex RandaoMixesLength ToBytes32 h idx val
        = Outcome.ret (some (Err.invalidIndex idx)) b' h') ↔ RandaoMixesLength ≤ idx)
    ∧ (∀ e b' h', b.UpdateRandaoMixesAtIndex RandaoMixesLength ToBytes32 h idx val
        = Outcome.ret (some e) b' h' →
          e = Err.invalidIndex idx ∧ RandaoMixesLength ≤ idx ∧ b' = b ∧ h' = h)
    ∧ (RandaoMixesLength ≤ idx → b.UpdateRandaoMixesAtIndex RandaoMixesLength ToBytes32 h idx val
        = Outcome.ret (some (Err.invalidIndex idx)) b h)
    ∧ (idx < RandaoMixesLength →
        ∃ b' h', b.UpdateRandaoMixesAtIndex RandaoMixesLength ToBytes32 h idx val
          = Outcome.ret none b' h') := by
  have _hcounter := hr
  have hout : RandaoMixesLength ≤ idx →
      b.UpdateRandaoMixesAtIndex RandaoMixesLength ToBytes32 h idx val
        = Outcome.ret (some (Err.invalidIndex idx)) b h := by
    intro hle
    unfold State.UpdateRandaoMixesAtIndex
    rw [if_pos hle]
  have hin : ∀ e b' h', b.UpdateRandaoMixesAtIndex RandaoMixesLength ToBytes32 h idx val
      = Outcome.ret (some e) b' h' → RandaoMixesLength ≤ idx := by
    intro e b' h' hx
    by_contra hlt
    rcases UpdateRandaoMixesAtIndex_in_range RandaoMixesLength ToBytes32 b h idx val
      (by omega) with ⟨_, hf⟩ | ⟨_, b2, h2, hr⟩
    · rw [hf] at hx
      cases hx
    · rw [hr] at hx
      cases hx
  refine ⟨⟨fun ⟨b', h', hx⟩ => hin _ b' h' hx, fun hle => ⟨b, h, hout hle⟩⟩, ?_, hout, ?_⟩
  · intro e b' h' hx
    have hle := hin e b' h' hx
    rw [hout hle] at hx
    cases hx
    exact ⟨rfl, hle, rfl, rfl⟩
  · intro hidx
    rcases UpdateRandaoMixesAtIndex_in_range RandaoMixesLength ToBytes32 b h idx val hidx
      with ⟨hn, _⟩ | ⟨_, hok⟩
    · rw [hp] at hn
      cases hn
    · exact hok

theorem version_below_Capella (v : Nat) :
    v < version.Capella ↔ v = version.Phase0 ∨ v = version.Altair ∨ v = version.Bellatrix
      ∨ v = version.BellatrixBlind := by
  simp only [version.Capella, version.Phase0, version.Altair, version.Bellatrix,
    version.BellatrixBlind]
  omega

/-- C6. `SetNextWithdrawalIndex` and `SetNextWithdrawalValidatorIndex` return an error
exactly when the version of the state is below Capella, that is Phase0, Altair, Bellatrix or
BellatrixBlind; the error is NotSupported with the name of the method and the version; the
state is then returned as it was.  Otherwise they return no error, the field holds the
argument and is in `dirtyFields`. -/
theorem withdrawal_setters_version_gate (b : State) (i : Nat) :
    (b.version < version.Capella ↔ b.version = version.Phase0 ∨ b.version = version.Altair
      ∨ b.version = version.Bellatrix ∨ b.version = version.BellatrixBlind)
    ∧ ((b.SetNextWithdrawalIndex i).1 ≠ none ↔ b.version < version.Capella)
    ∧ ((b.SetNextWithdrawalIndex i).1 = some (Err.notSupported "SetNextWithdrawalIndex" b.version)
        ↔ b.version < version.Capella)
    ∧ (b.version < version.Capella → (b.SetNextWithdrawalIndex i).2 = b)
    ∧ (¬ b.version < version.Capella →
        (b.SetNextWithdrawalIndex i).1 = none
        ∧ (b.SetNextWithdrawalIndex i).2.nextWithdrawalIndex = i
        ∧ FieldIndex.NextWithdrawalIndex ∈ (b.SetNextWithdrawalIndex i).2.dirtyFields)
    ∧ ((b.SetNextWithdrawalValidatorIndex i).1 ≠ none ↔ b.version < version.Capella)
    ∧ ((b.SetNextWithdrawalValidatorIndex i).1
          = some (Err.notSupported "SetNextWithdrawalValidatorIndex" b.version)
        ↔ b.version < version.Capella)
    ∧ (b.version < version.Capella → (b.SetNextWithdrawalValidatorIndex i).2 = b)
    ∧ (¬ b.version < version.Capella →
        (b.SetNextWithdrawalValidatorIndex i).1 = none
        ∧ (b.SetNextWithdrawalValidatorIndex i).2.nextWithdrawalValidatorIndex = i
        ∧ FieldIndex.NextWithdrawalValidatorIndex
            ∈ (b.SetNextWithdrawalValidatorIndex i).2.dirtyFields) := by
  refine ⟨version_below_Capella b.version, ?_, ?_, ?_, ?_, ?_, ?_, ?_, ?_⟩
  · unfold State.SetNextWithdrawalIndex
    by_cases hv : b.version < version.Capella <;> simp [hv]
  · unfold State.SetNextWithdrawalIndex
    by_cases hv : b.version < version.Capella <;> simp [hv]
  · intro hv
    simp [State.SetNextWithdrawalIndex, hv]
  · intro hv
    simp only [State.SetNextWithdrawalIndex, hv, if_false]
    exact ⟨trivial, rfl, mem_markFieldAsDirty _ _⟩
  · unfold State.SetNextWithdrawalValidatorIndex
    by_cases hv : b.version < version.Capella <;> simp [hv]
  · unfold State.SetNextWithdrawalValidatorIndex
    by_cases hv : b.version < version.Capella <;> simp [hv]
  · intro hv
    simp [State.SetNextWithdrawalValidatorIndex, hv]
  · intro hv
    simp only [State.SetNextWithdrawalValidatorIndex, hv, if_false]
    exact ⟨trivial, rfl, mem_markFieldAsDirty _ _⟩

theorem make_copy_from {α : Type} (zero : α) (st : List (List α)) (l : List α) :
    goCopyFrom (goMake zero st l.length).2 (goMake zero st l.length).1 l = st ++ [l] := by
  simp [goCopyFrom, goMake]

theorem sliceElems_fresh {α : Type} (st : List (List α)) (l : List α) :
    sliceElems (st ++ [l]) (some { ptr := st.length, len := l.length }) = l := by
  simp only [sliceElems]
  rw [getD_append_self, List.take_length]

/-- C7. `SetCurrentSyncCommittee`, `SetNextSyncCommittee` and `InactivityScores` return an
error exactly when the version of the state is Phase0, and the error is NotSupported with
the name of the method and the version.  On Phase0 the setters return the state as it was;
on any other version they return no error, the committee holds the argument and the field
is in `dirtyFields`, and `InactivityScores` returns no error and a copy of the stored
scores: nil for a nil backing, and otherwise a slice over a newly allocated array that holds
the stored scores, the heap being otherwise as before. -/
theorem phase0_gated_fields (b : State) (h : Heap) (val : Option SyncCommittee) :
    ((b.SetCurrentSyncCommittee val).1 ≠ none ↔ b.version = version.Phase0)
    ∧ ((b.SetCurrentSyncCommittee val).1
          = some (Err.notSupported "SetCurrentSyncCommittee" b.version)
        ↔ b.version = version.Phase0)
    ∧ (b.version = version.Phase0 → (b.SetCurrentSyncCommittee val).2 = b)
    ∧ (b.version ≠ version.Phase0 →
        (b.SetCurrentSyncCommittee val).1 = none
        ∧ (b.SetCurrentSyncCommittee val).2.currentSyncCommittee = val
        ∧ FieldIndex.CurrentSyncCommittee ∈ (b.SetCurrentSyncCommittee val).2.dirtyFields)
    ∧ ((b.SetNextSyncCommittee val).1 ≠ none ↔ b.version = version.Phase0)
    ∧ ((b.SetNextSyncCommittee val).1 = some (Err.notSupported "SetNextSyncCommittee" b.version)
        ↔ b.version = version.Phase0)
    ∧ (b.version = version.Phase0 → (b.SetNextSyncCommittee val).2 = b)
    ∧ (b.version ≠ version.Phase0 →
        (b.SetNextSyncCommittee val).1 = none
        ∧ (b.SetNextSyncCommittee val).2.nextSyncCommittee = val
        ∧ FieldIndex.NextSyncCommittee ∈ (b.SetNextSyncCommittee val).2.dirtyFields)
    ∧ ((b.InactivityScores h).1.2 ≠ none ↔ b.version = version.Phase0)
    ∧ ((b.InactivityScores h).1.2 = some (Err.notSupported "InactivityScores" b.version)
        ↔ b.version = version.Phase0)
    ∧ (b.version = version.Phase0 →
        b.InactivityScores h
          = ((none, some (Err.notSupported "InactivityScores" b.version)), h))
    ∧ (b.version ≠ version.Phase0 →
        (b.InactivityScores h).1.2 = none
        ∧ (b.inactivityScores = none → b.InactivityScores h = ((none, none), h))
        ∧ (∀ scores, b.inactivityScores = some scores →
            b.InactivityScores h
              = ((some (Uint64Slice.buf { ptr := h.u64s.length, len := scores.length }), none),
                  { h with u64s := h.u64s ++ [scores] })
            ∧ sliceElems (h.u64s ++ [scores]) (some { ptr := h.u64s.length, len := scores.length })
                = scores)) := by
  refine ⟨?_, ?_, ?_, ?_, ?_, ?_, ?_, ?_, ?_, ?_, ?_, ?_⟩
  · unfold State.SetCurrentSyncCommittee
    by_cases hv : b.version = version.Phase0 <;> simp [hv]
  · unfold State.SetCurrentSyncCommittee
    by_cases hv : b.version = version.Phase0 <;> simp [hv]
  · intro hv
    simp [State.SetCurrentSyncCommittee, hv]
  · intro hv
    simp only [State.SetCurrentSyncCommittee, hv, if_false]
    exact ⟨trivial, rfl, mem_markFieldAsDirty _ _⟩
  · unfold State.SetNextSyncCommittee
    by_cases hv : b.version = version.Phase0 <;> simp [hv]
  · unfold State.SetNextSyncCommittee
    by_cases hv : b.version = version.Phase0 <;> simp [hv]
  · intro hv
    simp [State.SetNextSyncCommittee, hv]
  · intro hv
    simp only [State.SetNextSyncCommittee, hv, if_false]
    exact ⟨trivial, rfl, mem_markFieldAsDirty _ _⟩
  · unfold State.InactivityScores
    by_cases hv : b.version = version.Phase0
    · simp [hv]
    · simp only [hv, if_false]
      cases b.inactivityScores <;> simp
  · unfold State.InactivityScores
    by_cases hv : b.version = version.Phase0
    · simp [hv]
    · simp only [hv, if_false]
      cases b.inactivityScores <;> simp
  · intro hv
    simp [State.InactivityScores, hv]
  · intro hv
    unfold State.InactivityScores
    simp only [hv, if_false]
    refine ⟨?_, fun hs => by simp [hs], fun scores hs => ⟨?_, sliceElems_fresh _ _⟩⟩
    · cases b.inactivityScores <;> rfl
    · simp only [hs, State.inactivityScoresVal, make_copy_from]
      rfl

/-- C8. `ValidatorAtIndex(i)` returns the index-out-of-range error carrying `i` exactly when
the validators backing is non-nil and `i` is at or above its length, and never any other
error.  On a nil backing it returns, for every `i`, a newly allocated zero Validator and no
error.  Otherwise it returns no error and what `ethpb.CopyValidator` makes of the slot: for a
slot that holds a record, the address of a newly allocated record equal in value to it, the
records that existed before being untouched; for a nil slot, the answer of that function to
a nil pointer. -/
theorem ValidatorAtIndex_spec (copyNil : Heap → Option Nat × Heap) (b : State) (h : Heap)
    (i : Nat) :
    ((b.ValidatorAtIndex copyNil h i).1.2 ≠ none
        ↔ ∃ vs, b.validators = some vs ∧ vs.length ≤ i)
    ∧ ((b.ValidatorAtIndex copyNil h i).1.2 = some (NewValidatorIndexOutOfRangeError i)
        ↔ ∃ vs, b.validators = some vs ∧ vs.length ≤ i)
    ∧ (∀ vs, b.validators = some vs → vs.length ≤ i →
        (b.ValidatorAtIndex copyNil h i).1.1 = none ∧ (b.ValidatorAtIndex copyNil h i).2 = h)
    ∧ (b.validators = none →
        (b.ValidatorAtIndex copyNil h i).1.2 = none
        ∧ (b.ValidatorAtIndex copyNil h i).1.1 = some h.validators.length
        ∧ derefValidator (b.ValidatorAtIndex copyNil h i).2
            (b.ValidatorAtIndex copyNil h i).1.1 = some Validator.zero
        ∧ ∀ q, q < h.validators.length →
            (b.ValidatorAtIndex copyNil h i).2.validators.getD q Validator.zero
              = h.validators.getD q Validator.zero)
    ∧ (∀ vs p, b.validators = some vs → ∀ hi : i < vs.length, vs[i] = some p →
        (b.ValidatorAtIndex copyNil h i).1.2 = none
        ∧ (b.ValidatorAtIndex copyNil h i).1.1 = some h.validators.length
        ∧ derefValidator (b.ValidatorAtIndex copyNil h i).2
            (b.ValidatorAtIndex copyNil h i).1.1 = derefValidator h (some p)
        ∧ ∀ q, q < h.validators.length →
            (b.ValidatorAtIndex copyNil h i).2.validators.getD q Validator.zero
              = h.validators.getD q Validator.zero)
    ∧ (∀ vs, b.validators = some vs → ∀ hi : i < vs.length, vs[i] = none →
        b.ValidatorAtIndex copyNil h i = (((copyNil h).1, none), (copyNil h).2)) := by
  unfold State.ValidatorAtIndex
  cases hv : b.validators with
  | none =>
    refine ⟨by simp, by simp, by simp, fun _ => ⟨rfl, rfl, ?_, ?_⟩, by simp, by simp⟩
    · simp [derefValidator, List.getD_eq_getElem?_getD]
    · intro q hq
      exact getD_append_lt _ _ _ _ hq
  | some vs =>
    by_cases hi : vs.length ≤ i
    · simp only [hi, if_true]
      refine ⟨by simp [hi], by simp [hi], fun _ _ _ => ⟨by trivial, by trivial⟩, by simp,
        fun vs' p h1 h2 => ?_, fun vs' h1 h2 => ?_⟩
      · cases h1
        omega
      · cases h1
        omega
    · simp only [hi, if_false]
      have hlt : i < vs.length := Nat.lt_of_not_le hi
      have hget : vs.getD i none = vs[i] := by
        simp [List.getD_eq_getElem?_getD, List.getElem?_eq_getElem hlt]
      rw [hget]
      cases hslot : vs[i] with
      | none =>
        refine ⟨by simp [hi], by simp [hi], fun vs' h1 h2 => ?_, by simp,
          fun vs' p h1 hi' hp => ?_, fun vs' h1 _ _ => by trivial⟩
        · cases h1
          omega
        · cases h1
          rw [hslot] at hp
          cases hp
      | some p =>
        refine ⟨by simp [hi, CopyValidator], by simp [hi, CopyValidator],
          fun vs' h1 h2 => ?_, by simp, fun vs' p' h1 hi' hp => ?_,
          fun vs' h1 hi' hn => ?_⟩
        · cases h1
          omega
        · cases h1
          rw [hslot] at hp
          cases hp
          refine ⟨by trivial, by simp [CopyValidator], ?_, fun q hq => ?_⟩
          · simp [derefValidator, CopyValidator, List.getD_eq_getElem?_getD]
          · simp only [CopyValidator]
            exact getD_append_lt _ _ _ _ hq
        · cases h1
          rw [hslot] at hn
          cases hn

/-- C9. `ValidatorAtIndexReadOnly(i)` returns NilValidatorsInState on a nil backing whatever
`i` is, the index-out-of-range error carrying `i` on a non-nil backing with `i` at or above
its length, and otherwise exactly what the view constructor makes of the stored slot
itself; no record is allocated.  `ValidatorAtIndex` on a nil backing returns no error. -/
theorem ValidatorAtIndexReadOnly_spec
    (NewValidator : Option Nat → Option ReadOnlyValidator × Option Err)
    (copyNil : Heap → Option Nat × Heap) (b : State) (h : Heap) (i : Nat) :
    (b.validators = none →
        b.ValidatorAtIndexReadOnly NewValidator i = (none, some Err.nilValidatorsInState)
        ∧ (b.ValidatorAtIndex copyNil h i).1.2 = none
        ∧ (b.ValidatorAtIndex copyNil h i).1.1 ≠ none)
    ∧ (∀ vs, b.validators = some vs → vs.length ≤ i →
        b.ValidatorAtIndexReadOnly NewValidator i
          = (none, some (NewValidatorIndexOutOfRangeError i)))
    ∧ (∀ vs, b.validators = some vs → ∀ hi : i < vs.length,
        b.ValidatorAtIndexReadOnly NewValidator i = NewValidator vs[i]) := by
  unfold State.ValidatorAtIndexReadOnly State.ValidatorAtIndex
  refine ⟨fun hv => ?_, fun vs hv hi => ?_, fun vs hv hi => ?_⟩
  · simp [hv]
  · simp [hv, hi]
  · simp only [hv, if_neg (Nat.not_le.mpr hi)]
    congr 1
    simp [List.getD_eq_getElem?_getD, List.getElem?_eq_getElem hi]

theorem ValidatorIndexByPubkey_some (s : State) (m : ValidatorMapHandler) (key : Bytes)
    (hm : s.valMapHandler = some m) :
    State.ValidatorIndexByPubkey (some s) key
      = if (m.Get key).2 = true ∧ (m.Get key).1 < (s.validators.getD []).length
        then ((m.Get key).1, true) else (0, false) := by
  unfold State.ValidatorIndexByPubkey
  simp only [hm]
  cases hk : m.valIdxMap with
  | none => simp [ValidatorMapHandler.IsNil, ValidatorMapHandler.Get, hk]
  | some kvs =>
    simp only [ValidatorMapHandler.IsNil, ValidatorMapHandler.Get, hk, Option.isNone_some]
    cases kvs.lookup key with
    | none => simp
    | some i =>
      by_cases hi : i < (s.validators.getD []).length
      · simp [hi]
      · simp [hi, Nat.le_of_not_lt hi]

/-- C10. `ValidatorIndexByPubkey(k)` returns `(i, true)` exactly when the state is non-nil,
its map handler is non-nil and holds `k -> i`, and `i` is below the number of validators;
in every other case it returns `(0, false)`.  An index returned with `true` is therefore a
position of `validators`. -/
theorem ValidatorIndexByPubkey_spec (b : Option State) (key : Bytes) :
    (∀ i, State.ValidatorIndexByPubkey b key = (i, true)
        ↔ ∃ s m, b = some s ∧ s.valMapHandler = some m ∧ m.Get key = (i, true)
            ∧ i < (s.validators.getD []).length)
    ∧ ((¬ ∃ i s m, b = some s ∧ s.valMapHandler = some m ∧ m.Get key = (i, true)
            ∧ i < (s.validators.getD []).length) →
        State.ValidatorIndexByPubkey b key = (0, false))
    ∧ (∀ i s, b = some s → State.ValidatorIndexByPubkey b key = (i, true) →
        i < (s.validators.getD []).length) := by
  have hiff : ∀ i, State.ValidatorIndexByPubkey b key = (i, true)
      ↔ ∃ s m, b = some s ∧ s.valMapHandler = some m ∧ m.Get key = (i, true)
          ∧ i < (s.validators.getD []).length := by
    intro i
    constructor
    · intro hres
      cases b with
      | none => simp [State.ValidatorIndexByPubkey] at hres
      | some s =>
        cases hm : s.valMapHandler with
        | none => simp [State.ValidatorIndexByPubkey, hm] at hres
        | some m =>
          rw [ValidatorIndexByPubkey_some s m key hm] at hres
          split at hres
          · rename_i hc
            have h1 : (m.Get key).1 = i := congrArg Prod.fst hres
            refine ⟨s, m, rfl, hm, ?_, h1 ▸ hc.2⟩
            exact Prod.ext h1 hc.1
          · simp at hres
    · rintro ⟨s, m, rfl, hm, hg, hi⟩
      rw [ValidatorIndexByPubkey_some s m key hm, hg]
      simp [hi]
  refine ⟨hiff, ?_, ?_⟩
  · intro hno
    cases b with
    | none => rfl
    | some s =>
      cases hm : s.valMapHandler with
      | none => simp [State.ValidatorIndexByPubkey, hm]
      | some m =>
        rw [ValidatorIndexByPubkey_some s m key hm]
        split
        · rename_i hc
          exact absurd ⟨(m.Get key).1, s, m, rfl, hm, Prod.ext rfl hc.1, hc.2⟩ hno
        · rfl
  · intro i s hb hres
    obtain ⟨s', m, hs, _, _, hi⟩ := (hiff i).mp hres
    rw [hb] at hs
    cases hs
    exact hi

/-! ## Instances on concrete states -/

/-- Scenario S2 on `exampleState`: the counter stands at 2; after the update this holder
observes the new entry at index 1 in a new array and the array at address 0 is as before. -/
theorem UpdateRandaoMixesAtIndex_copy_on_write_witness :
    exampleState.randaoMixes = some 0
    ∧ (exampleHeap.mixes.getD 0 []).length = 2
    ∧ exampleState.sharedFieldReferences FieldIndex.RandaoMixes < exampleHeap.refs.length
    ∧ 1 < 2
    ∧ ∃ b' h' q,
        exampleState.UpdateRandaoMixesAtIndex 2 (copyInto zero32) exampleHeap 1 [170, 170]
          = Outcome.ret none b' h'
        ∧ b'.randaoMixes = some q
        ∧ (h'.mixes.getD q [])[1]? = some (copyInto zero32 [170, 170])
        ∧ h'.mixes.getD 0 [] = [[1], [2]] :=
  ⟨rfl, by decide, by decide, by decide, by
    obtain ⟨b', h', q, h1, h2, _, h4, _, h6⟩ :=
      UpdateRandaoMixesAtIndex_copy_on_write 2 (copyInto zero32) exampleState exampleHeap 1
        [170, 170] 0 rfl (by decide) (by decide) (by decide)
    exact ⟨b', h', q, h1, h2, h4, (h6 (by decide)).1 0 (by decide)⟩⟩

/-- On `exampleState`, whose counters stand at 2, both whole-field setters leave the old
counter at 1 and install the counter at the next free address 2. -/
theorem whole_field_setters_replace_counter_witness :
    exampleState.sharedFieldReferences FieldIndex.Eth1DataVotes < exampleHeap.refs.length
    ∧ exampleState.sharedFieldReferences FieldIndex.RandaoMixes < exampleHeap.refs.length
    ∧ 2 ≤ [[1], [2], [3]].length
    ∧ (exampleState.SetEth1DataVotes exampleHeap none).2.1.sharedFieldReferences
        FieldIndex.Eth1DataVotes = 2
    ∧ ∃ b' h', exampleState.SetRandaoMixes 2 exampleHeap [[1], [2], [3]] = Outcome.ret none b' h'
        ∧ b'.rebuildTrie FieldIndex.RandaoMixes = true :=
  ⟨by decide, by decide, by decide,
    (whole_field_setters_replace_counter 2 exampleState exampleHeap none [[1], [2], [3]]
      (by decide) (by decide) (by decide)).1.2.2.2.2.1,
    by
      obtain ⟨b', h', h1, _, h3, _⟩ :=
        (whole_field_setters_replace_counter 2 exampleState exampleHeap none [[1], [2], [3]]
          (by decide) (by decide) (by decide)).2
      exact ⟨b', h', h1, h3⟩⟩

/-- On `exampleState` the update at index 1 succeeds and records exactly index 1. -/
theorem element_setters_record_index_witness :
    1 < 2 ∧ exampleState.randaoMixes ≠ none
    ∧ ∃ b' h', exampleState.UpdateRandaoMixesAtIndex 2 (copyInto zero32) exampleHeap 1 [7]
          = Outcome.ret none b' h'
        ∧ (∀ i, i ∈ b'.dirtyIndices FieldIndex.RandaoMixes
            ↔ i ∈ exampleState.dirtyIndices FieldIndex.RandaoMixes ∨ i = 1)
        ∧ b'.rebuildTrie = exampleState.rebuildTrie :=
  ⟨by decide, by decide, by
    obtain ⟨b', h', h1, _, h3, _, h5⟩ :=
      (element_setters_record_index (fun c => 2 * c) 2 (copyInto zero32) exampleState exampleHeap
        none 1 [7]).2 (by decide) (by decide)
    exact ⟨b', h', h1, h3, h5⟩⟩

/-- On `exampleState` the index 5 is out of range for an array of length 2: the error
carries 5 and the state and the heap come back as they were; the index 1 is in range and
no error is returned. -/
theorem UpdateRandaoMixesAtIndex_invalid_index_witness :
    exampleState.randaoMixes = some 0
    ∧ exampleState.sharedFieldReferences FieldIndex.RandaoMixes < exampleHeap.refs.length
    ∧ 2 ≤ 5
    ∧ exampleState.UpdateRandaoMixesAtIndex 2 (copyInto zero32) exampleHeap 5 [7]
        = Outcome.ret (some (Err.invalidIndex 5)) exampleState exampleHeap
    ∧ 1 < 2
    ∧ ∃ b' h', exampleState.UpdateRandaoMixesAtIndex 2 (copyInto zero32) exampleHeap 1 [7]
        = Outcome.ret none b' h' :=
  ⟨rfl, by decide, by decide,
    (UpdateRandaoMixesAtIndex_invalid_index 2 (copyInto zero32) exampleState exampleHeap 5
      [7] 0 rfl (by decide)).2.2.1 (by decide),
    by decide,
    (UpdateRandaoMixesAtIndex_invalid_index 2 (copyInto zero32) exampleState exampleHeap 1
      [7] 0 rfl (by decide)).2.2.2 (by decide)⟩

/-- The Altair state `exampleState` is rejected unchanged and the Capella state
`exampleCapella` is updated. -/
theorem withdrawal_setters_version_gate_witness :
    exampleState.version < version.Capella
    ∧ (exampleState.SetNextWithdrawalIndex 9).2 = exampleState
    ∧ ¬ exampleCapella.version < version.Capella
    ∧ (exampleCapella.SetNextWithdrawalIndex 9).2.nextWithdrawalIndex = 9 :=
  ⟨by decide, (withdrawal_setters_version_gate exampleState 9).2.2.2.1 (by decide), by decide,
    ((withdrawal_setters_version_gate exampleCapella 9).2.2.2.2.1 (by decide)).2.1⟩

/-- The Phase0 state `examplePhase0` is rejected unchanged; on the Altair state
`exampleState` the scores are copied into a new array at the next free address 1 of
`exampleHeap`, whose array at address 0 stays as it was. -/
theorem phase0_gated_fields_witness :
    examplePhase0.version = version.Phase0
    ∧ (examplePhase0.SetCurrentSyncCommittee (some { tag := 4 })).2 = examplePhase0
    ∧ exampleState.version ≠ version.Phase0
    ∧ exampleState.inactivityScores = some [5, 6, 7]
    ∧ exampleState.InactivityScores exampleHeap
        = ((some (Uint64Slice.buf { ptr := 1, len := 3 }), none),
            { exampleHeap with u64s := [[4, 4], [5, 6, 7]] }) :=
  ⟨rfl, (phase0_gated_fields examplePhase0 exampleHeap (some { tag := 4 })).2.2.1 rfl,
    by decide, rfl,
    (((phase0_gated_fields exampleState exampleHeap none).2.2.2.2.2.2.2.2.2.2.2
      (by decide)).2.2 _ rfl).1⟩

/-- On `exampleState`, which has three validators, index 3 is out of range and index 0
gives a copy at the next free address 2. -/
theorem ValidatorAtIndex_spec_witness :
    (exampleState.ValidatorAtIndex exampleCopyNil exampleHeap 3).1.2
      = some (NewValidatorIndexOutOfRangeError 3)
    ∧ exampleState.validators = some [some 0, none, some 1]
    ∧ 0 < [some 0, none, some 1].length
    ∧ (exampleState.ValidatorAtIndex exampleCopyNil exampleHeap 0).1.1 = some 2
    ∧ derefValidator (exampleState.ValidatorAtIndex exampleCopyNil exampleHeap 0).2
        (exampleState.ValidatorAtIndex exampleCopyNil exampleHeap 0).1.1
        = some { PublicKey := [1, 1], rest := [7] } :=
  ⟨(ValidatorAtIndex_spec exampleCopyNil exampleState exampleHeap 3).2.1.mpr
      ⟨_, rfl, by decide⟩,
    rfl, by decide,
    ((ValidatorAtIndex_spec exampleCopyNil exampleState exampleHeap 0).2.2.2.2.1 _ 0 rfl
      (by decide) rfl).2.1,
    ((ValidatorAtIndex_spec exampleCopyNil exampleState exampleHeap 0).2.2.2.2.1 _ 0 rfl
      (by decide) rfl).2.2.1⟩

/-- On `exampleState` the view at index 2 is built from the stored address 1; on a nil
backing the error is NilValidatorsInState. -/
theorem ValidatorAtIndexReadOnly_spec_witness :
    exampleState.validators = some [some 0, none, some 1]
    ∧ 2 < [some 0, none, some 1].length
    ∧ exampleState.ValidatorAtIndexReadOnly exampleNewValidator 2
        = (some { validator := 1 }, none)
    ∧ exampleNilValidators.validators = none
    ∧ exampleNilValidators.ValidatorAtIndexReadOnly exampleNewValidator 2
        = (none, some Err.nilValidatorsInState) :=
  ⟨rfl, by decide,
    (ValidatorAtIndexReadOnly_spec exampleNewValidator exampleCopyNil exampleState exampleHeap
      2).2.2 _ rfl
      (by decide),
    rfl,
    ((ValidatorAtIndexReadOnly_spec exampleNewValidator exampleCopyNil exampleNilValidators
      exampleHeap 2).1
      rfl).1⟩

/-- Scenario S6 on `exampleState`, which has three validators: the key `[1, 1]` is found at
index 0, a position of `validators`; the stale entry `[3, 3] -> 6` is not found. -/
theorem ValidatorIndexByPubkey_spec_witness :
    State.ValidatorIndexByPubkey (some exampleState) [1, 1] = (0, true)
    ∧ 0 < (exampleState.validators.getD []).length
    ∧ State.ValidatorIndexByPubkey (some exampleState) [3, 3] = (0, false) :=
  ⟨by decide,
    (ValidatorIndexByPubkey_spec (some exampleState) [1, 1]).2.2 0 exampleState rfl (by decide),
    by decide⟩

/-! ## Further getters -/

/-- C11. `PubkeyAtIndex(i)` always returns a key: the all-zero 48-byte key when `i` is at or
above the number of validators (a nil backing has none) or when the slot `i` is nil, and
otherwise `ToBytes48` of the `PublicKey` of the record in slot `i`. -/
theorem PubkeyAtIndex_spec (ToBytes48 : Bytes → Bytes) (b : State) (h : Heap) (i : Nat) :
    ((b.validators.getD []).length ≤ i → b.PubkeyAtIndex ToBytes48 h i = List.replicate 48 0)
    ∧ (b.validators = none → b.PubkeyAtIndex ToBytes48 h i = List.replicate 48 0)
    ∧ (∀ vs, b.validators = some vs → ∀ hi : i < vs.length, vs[i] = none →
        b.PubkeyAtIndex ToBytes48 h i = List.replicate 48 0)
    ∧ (∀ vs p, b.validators = some vs → ∀ hi : i < vs.length, vs[i] = some p →
        b.PubkeyAtIndex ToBytes48 h i
          = ToBytes48 (h.validators.getD p Validator.zero).PublicKey) := by
  unfold State.PubkeyAtIndex
  refine ⟨fun hle => ?_, fun hv => ?_, fun vs hv hi hslot => ?_, fun vs p hv hi hslot => ?_⟩
  · rw [if_pos hle]
    rfl
  · rw [if_pos (by simp [hv])]
    rfl
  · have hget : vs.getD i none = none := by
      simp [List.getD_eq_getElem?_getD, List.getElem?_eq_getElem hi, hslot]
    simp only [hv, Option.getD_some, ge_iff_le, if_neg (Nat.not_le.mpr hi), hget]
    rfl
  · have hget : vs.getD i none = some p := by
      simp [List.getD_eq_getElem?_getD, List.getElem?_eq_getElem hi, hslot]
    simp only [hv, Option.getD_some, ge_iff_le, if_neg (Nat.not_le.mpr hi), hget]

/-- C12. `BalanceAtIndex(i)` returns 0 and no error on a nil backing; it returns an error
exactly when the backing is non-nil and `i` is at or above its length, and the error is the
index-does-not-exist error carrying `i`; otherwise it returns `balances[i]` and no error. -/
theorem BalanceAtIndex_spec (b : State) (i : Nat) :
    (b.balances = none → b.BalanceAtIndex i = (0, none))
    ∧ ((b.BalanceAtIndex i).2 ≠ none ↔ ∃ bs, b.balances = some bs ∧ bs.length ≤ i)
    ∧ ((b.BalanceAtIndex i).2 = some (Err.indexDoesNotExist i)
        ↔ ∃ bs, b.balances = some bs ∧ bs.length ≤ i)
    ∧ (∀ bs, b.balances = some bs → ∀ hi : i < bs.length, b.BalanceAtIndex i = (bs[i], none)) := by
  unfold State.BalanceAtIndex
  cases hb : b.balances with
  | none => simp
  | some bs =>
    by_cases hi : bs.length ≤ i
    · simp [hi]
    · simp only [hi, if_false]
      refine ⟨by simp, by simp [hi], by simp [hi], fun bs' hbs hi' => ?_⟩
      cases hbs
      simp [List.getD_eq_getElem?_getD, List.getElem?_eq_getElem hi']

theorem viewCalls_succ (NewValidator : Option Nat → Option ReadOnlyValidator × Option Err)
    (vs : List (Option Nat)) (n : Nat) :
    viewCalls NewValidator vs (n + 1)
      = viewCalls NewValidator vs n ++ [(n, (NewValidator (vs.getD n none)).1)] := by
  simp [viewCalls, List.range_succ]

theorem ReadFromEveryValidator_loop_spec
    (NewValidator : Option Nat → Option ReadOnlyValidator × Option Err)
    (f : List (Nat × Option ReadOnlyValidator) → Nat → Option ReadOnlyValidator → Option Err)
    (vs : List (Option Nat)) :
    ∀ (rest : List (Option Nat)) (i : Nat), vs.drop i = rest → i ≤ vs.length →
      (∀ k e, i ≤ k → k < vs.length →
        (∀ j, i ≤ j → j < k → visitErr NewValidator f vs j = none) →
        visitErr NewValidator f vs k = some e →
        ReadFromEveryValidator.loop NewValidator f rest i (viewCalls NewValidator vs i)
          = (some e, viewCalls NewValidator vs k
              ++ if (NewValidator (vs.getD k none)).2 = none
                 then [(k, (NewValidator (vs.getD k none)).1)] else []))
      ∧ ((∀ j, i ≤ j → j < vs.length → visitErr NewValidator f vs j = none) →
        ReadFromEveryValidator.loop NewValidator f rest i (viewCalls NewValidator vs i)
          = (none, viewCalls NewValidator vs vs.length)) := by
  intro rest
  induction rest with
  | nil =>
    intro i hdrop hle
    have hlen : vs.length ≤ i := List.drop_eq_nil_iff.mp hdrop
    have hi : i = vs.length := by omega
    refine ⟨fun k e hik hk => by omega, fun _ => ?_⟩
    rw [hi]
    rfl
  | cons v rest ih =>
    intro i hdrop hle
    have hi : i < vs.length := by
      by_contra hge
      rw [List.drop_eq_nil_of_le (by omega)] at hdrop
      cases hdrop
    have hv : vs.getD i none = v := by
      have h0 : (vs.drop i)[0]? = some v := by rw [hdrop]; simp
      rw [List.getElem?_drop] at h0
      simpa [List.getD_eq_getElem?_getD] using congrArg (fun o => Option.getD o none) h0
    have hrest : vs.drop (i + 1) = rest := by
      have h1 := congrArg (List.drop 1) hdrop
      simpa [List.drop_drop, Nat.add_comm] using h1
    obtain ⟨ih1, ih2⟩ := ih (i + 1) hrest (by omega)
    have hstep : viewCalls NewValidator vs i ++ [(i, (NewValidator v).1)]
        = viewCalls NewValidator vs (i + 1) := by
      rw [viewCalls_succ, hv]
    -- what the visit of position `i` answers
    cases hnv : NewValidator v with
    | mk view werr =>
      cases werr with
      | some err =>
        have hvis : visitErr NewValidator f vs i = some err := by
          unfold visitErr
          rw [hv, hnv]
        have hloop : ReadFromEveryValidator.loop NewValidator f (v :: rest) i
            (viewCalls NewValidator vs i) = (some err, viewCalls NewValidator vs i) := by
          simp [ReadFromEveryValidator.loop, hnv]
        refine ⟨fun k e hik hk hbefore hk' => ?_, fun hall => ?_⟩
        · rcases Nat.eq_or_lt_of_le hik with heq | hlt
          · subst heq
            rw [hvis] at hk'
            cases hk'
            rw [hloop, hv, hnv]
            simp
          · have := hbefore i (le_refl i) hlt
            rw [hvis] at this
            cases this
        · have := hall i (le_refl i) hi
          rw [hvis] at this
          cases this
      | none =>
        have hvis : visitErr NewValidator f vs i
            = f (viewCalls NewValidator vs i) i view := by
          unfold visitErr
          rw [hv, hnv]
        cases hf : f (viewCalls NewValidator vs i) i view with
        | some err =>
          have hloop : ReadFromEveryValidator.loop NewValidator f (v :: rest) i
              (viewCalls NewValidator vs i)
              = (some err, viewCalls NewValidator vs i ++ [(i, view)]) := by
            simp [ReadFromEveryValidator.loop, hnv, hf]
          rw [hf] at hvis
          refine ⟨fun k e hik hk hbefore hk' => ?_, fun hall => ?_⟩
          · rcases Nat.eq_or_lt_of_le hik with heq | hlt
            · subst heq
              rw [hvis] at hk'
              cases hk'
              rw [hloop, hv, hnv]
              simp
            · have := hbefore i (le_refl i) hlt
              rw [hvis] at this
              cases this
          · have := hall i (le_refl i) hi
            rw [hvis] at this
            cases this
        | none =>
          have hloop : ReadFromEveryValidator.loop NewValidator f (v :: rest) i
              (viewCalls NewValidator vs i)
              = ReadFromEveryValidator.loop NewValidator f rest (i + 1)
                  (viewCalls NewValidator vs (i + 1)) := by
            rw [← hstep, hnv]
            simp [ReadFromEveryValidator.loop, hnv, hf]
          rw [hf] at hvis
          refine ⟨fun k e hik hk hbefore hk' => ?_, fun hall => ?_⟩
          · rcases Nat.eq_or_lt_of_le hik with heq | hlt
            · subst heq
              rw [hvis] at hk'
              cases hk'
            · rw [hloop]
              exact ih1 k e hlt hk (fun j hj1 hj2 => hbefore j (by omega) hj2) hk'
          · rw [hloop]
            exact ih2 (fun j hj1 hj2 => hall j (by omega) hj2)

/-- C13. On a nil backing `ReadFromEveryValidator(f)` returns the nil-validators error and
makes no invocation of `f`.  Otherwise, if `k` is the first position whose visit gives an
error (from wrapping the slot or from `f`), that error is returned and the invocations made
are exactly those on the positions `0, 1, ..., k-1` in ascending order, each with the view
of its slot, followed by the one on `k` when the error came from `f`; if no position gives
an error, no error is returned and `f` was invoked on all `len(validators)` positions in
ascending order. -/
theorem ReadFromEveryValidator_spec
    (NewValidator : Option Nat → Option ReadOnlyValidator × Option Err)
    (f : List (Nat × Option ReadOnlyValidator) → Nat → Option ReadOnlyValidator → Option Err)
    (b : State) :
    (b.validators = none →
        b.ReadFromEveryValidator NewValidator f = (some Err.nilValidators, []))
    ∧ (∀ vs, b.validators = some vs →
        (∀ k e, k < vs.length →
          (∀ j, j < k → visitErr NewValidator f vs j = none) →
          visitErr NewValidator f vs k = some e →
          b.ReadFromEveryValidator NewValidator f
            = (some e, viewCalls NewValidator vs k
                ++ if (NewValidator (vs.getD k none)).2 = none
                   then [(k, (NewValidator (vs.getD k none)).1)] else []))
        ∧ ((∀ j, j < vs.length → visitErr NewValidator f vs j = none) →
          b.ReadFromEveryValidator NewValidator f
            = (none, viewCalls NewValidator vs vs.length))) := by
  unfold State.ReadFromEveryValidator
  refine ⟨fun hv => by rw [hv], fun vs hv => ?_⟩
  rw [hv]
  obtain ⟨h1, h2⟩ := ReadFromEveryValidator_loop_spec NewValidator f vs vs 0 rfl (Nat.zero_le _)
  exact ⟨fun k e hk hbefore hk' => h1 k e (Nat.zero_le _) hk (fun j _ hj => hbefore j hj) hk',
    fun hall => h2 (fun j _ hj => hall j hj)⟩

theorem copiedSlot_extend (h hc : Heap) (slot res : Option Nat) (x : Validator)
    (hcs : copiedSlot h hc slot res) :
    copiedSlot h { hc with validators := hc.validators ++ [x] } slot res := by
  obtain ⟨h1, h2, h3⟩ := hcs
  refine ⟨h1, ?_, fun q hq => ?_⟩
  · cases res with
    | none => exact h2
    | some q =>
      rw [← h2]
      simp only [derefValidator, Option.map_some']
      rw [getD_append_lt _ _ _ _ (h3 q rfl).2]
  · have := h3 q hq
    simp only [List.length_append, List.length_singleton]
    omega

theorem validatorsVal_loop_spec (vs : List (Option Nat)) (h : Heap)
    (hvalid : ∀ i p, vs.getD i none = some p → p < h.validators.length) :
    ∀ (fuel i : Nat) (res : List (Option Nat)) (hc : Heap),
      i + fuel = vs.length → res.length = vs.length →
      (∃ ext, hc.validators = h.validators ++ ext) →
      (∀ j, j < i → copiedSlot h hc (vs.getD j none) (res.getD j none)) →
      (∀ j, i ≤ j → res.getD j none = none) →
      (State.validatorsVal.loop vs fuel i res hc).1.length = vs.length
      ∧ (∃ ext, (State.validatorsVal.loop vs fuel i res hc).2.validators = h.validators ++ ext)
      ∧ ∀ j, j < vs.length →
          copiedSlot h (State.validatorsVal.loop vs fuel i res hc).2 (vs.getD j none)
            ((State.validatorsVal.loop vs fuel i res hc).1.getD j none) := by
  intro fuel
  induction fuel with
  | zero =>
    intro i res hc hif hlen hext hdone _
    exact ⟨hlen, hext, fun j hj => hdone j (by omega)⟩
  | succ fuel ih =>
    intro i res hc hif hlen hext hdone htodo
    cases hslot : vs.getD i none with
    | none =>
      have hloop : State.validatorsVal.loop vs (fuel + 1) i res hc
          = State.validatorsVal.loop vs fuel (i + 1) res hc := by
        rw [State.validatorsVal.loop, hslot]
      rw [hloop]
      refine ih (i + 1) res hc (by omega) hlen hext (fun j hj => ?_) (fun j hj => htodo j (by omega))
      rcases Nat.lt_succ_iff_lt_or_eq.mp hj with hlt | heq
      · exact hdone j hlt
      · subst heq
        rw [hslot, htodo j (le_refl j)]
        exact ⟨by simp, rfl, fun q hq => by cases hq⟩
    | some p =>
      have hloop : State.validatorsVal.loop vs (fuel + 1) i res hc
          = State.validatorsVal.loop vs fuel (i + 1) (res.set i (some hc.validators.length))
              { hc with validators := hc.validators ++ [hc.validators.getD p Validator.zero] } := by
        rw [State.validatorsVal.loop, hslot]
        rfl
      rw [hloop]
      obtain ⟨ext, hext'⟩ := hext
      have hp := hvalid i p hslot
      have hrec : hc.validators.getD p Validator.zero = h.validators.getD p Validator.zero := by
        rw [hext']
        simp only [List.getD_eq_getElem?_getD, List.getElem?_append_left hp]
      refine ih (i + 1) _ _ (by omega) (by simpa using hlen) ⟨ext ++ [hc.validators.getD p Validator.zero], by simp [hext']⟩
        (fun j hj => ?_) (fun j hj => ?_)
      · rcases Nat.lt_succ_iff_lt_or_eq.mp hj with hlt | heq
        · rw [getD_set_ne _ _ _ _ _ (by omega)]
          exact copiedSlot_extend _ _ _ _ _ (hdone j hlt)
        · subst heq
          rw [hslot, getD_set_self _ _ _ _ (by omega)]
          refine ⟨by simp, ?_, fun q hq => ?_⟩
          · simp only [derefValidator, Option.map_some']
            rw [getD_append_self, hrec]
          · cases hq
            simp only [List.length_append, List.length_singleton]
            rw [hext']
            simp
      · rw [getD_set_ne _ _ _ _ _ (by omega)]
        exact htodo j (by omega)

/-- C14. `Validators()` returns as many entries as there are validators; entry `i` is nil
exactly when slot `i` is nil and otherwise addresses a newly allocated record equal in value
to the record of slot `i`, the records that existed before being untouched.  `Balances()`
and `Slashings()` return a slice over a newly allocated array that holds the stored
sequence, element for element and of the same length, the heap being otherwise as before.
Each getter returns nil when its backing is nil. -/
theorem copying_getters_spec (b : State) (h : Heap) :
    (b.validators = none → b.Validators h = (none, h))
    ∧ (∀ vs, b.validators = some vs →
        (∀ i p, vs.getD i none = some p → p < h.validators.length) →
        ∃ res h', b.Validators h = (some res, h')
          ∧ res.length = vs.length
          ∧ (∀ i, i < vs.length →
              (res.getD i none = none ↔ vs.getD i none = none)
              ∧ derefValidator h' (res.getD i none) = derefValidator h (vs.getD i none)
              ∧ ∀ q, res.getD i none = some q → h.validators.length ≤ q)
          ∧ ∀ q, q < h.validators.length →
              h'.validators.getD q Validator.zero = h.validators.getD q Validator.zero)
    ∧ (b.balances = none → b.Balances h = (none, h))
    ∧ (∀ bs, b.balances = some bs →
        b.Balances h
          = (some (Uint64Slice.buf { ptr := h.u64s.length, len := bs.length }),
              { h with u64s := h.u64s ++ [bs] })
        ∧ sliceElems (h.u64s ++ [bs]) (some { ptr := h.u64s.length, len := bs.length }) = bs)
    ∧ (b.slashings = none → b.Slashings h = (none, h))
    ∧ (∀ ss, b.slashings = some ss →
        b.Slashings h
          = (some (Uint64Slice.buf { ptr := h.u64s.length, len := ss.length }),
              { h with u64s := h.u64s ++ [ss] })
        ∧ sliceElems (h.u64s ++ [ss]) (some { ptr := h.u64s.length, len := ss.length }) = ss) := by
  refine ⟨fun hv => ?_, fun vs hv hvalid => ?_, fun hb => ?_, fun bs hb => ⟨?_, ?_⟩,
    fun hb => ?_, fun ss hb => ⟨?_, ?_⟩⟩
  · simp [State.Validators, hv]
  · obtain ⟨h1, ⟨ext, h2⟩, h3⟩ := validatorsVal_loop_spec vs h hvalid vs.length 0
      (List.replicate vs.length none) h (by omega) (by simp) ⟨[], by simp⟩
      (fun j hj => by omega) (fun j _ => by simp [List.getD_eq_getElem?_getD])
    refine ⟨(State.validatorsVal.loop vs vs.length 0 (List.replicate vs.length none) h).1,
      (State.validatorsVal.loop vs vs.length 0 (List.replicate vs.length none) h).2,
      ?_, h1, fun i hi => ?_, fun q hq => ?_⟩
    · simp [State.Validators, State.validatorsVal, hv]
    · obtain ⟨c1, c2, c3⟩ := h3 i hi
      exact ⟨c1, c2, fun q hq => (c3 q hq).1⟩
    · rw [h2]
      simp only [List.getD_eq_getElem?_getD, List.getElem?_append_left hq]
  · simp [State.Balances, hb]
  · simp only [State.Balances, State.balancesVal, hb, make_copy_from]
    rfl
  · exact sliceElems_fresh _ _
  · simp [State.Slashings, hb]
  · simp only [State.Slashings, State.slashingsVal, hb, make_copy_from]
    rfl
  · exact sliceElems_fresh _ _

/-! ## `SetRandaoMixes` -/

theorem copyInto_zero32 (x : Bytes) :
    copyInto zero32 x
      = x.take (min 32 x.length) ++ List.replicate (32 - min 32 x.length) 0 := by
  simp only [copyInto, zero32, List.length_replicate, List.drop_replicate]

theorem copyInto_zero32_length (x : Bytes) : (copyInto zero32 x).length = 32 := by
  rw [copyInto_zero32]
  simp only [List.length_append, List.length_take, List.length_replicate]
  omega

theorem SetRandaoMixes_loop_eq (val : List Bytes) :
    ∀ (fuel i : Nat) (arr : List Bytes), i + fuel ≤ val.length → arr.length = i + fuel →
      SetRandaoMixes.loop val fuel i arr
        = some (arr.take i ++ ((val.drop i).take fuel).map (copyInto zero32))
  | 0, i, arr, _, hlen => by
    have h1 : arr.take i = arr := List.take_of_length_le (by omega)
    simp [SetRandaoMixes.loop, h1]
  | fuel + 1, i, arr, hle, hlen => by
    have hi : i < val.length := by omega
    have ih := SetRandaoMixes_loop_eq val fuel (i + 1) (arr.set i (copyInto zero32 val[i]))
      (by omega) (by simp; omega)
    have hdrop : (val.drop i).take (fuel + 1) = val[i] :: (val.drop (i + 1)).take fuel := by
      rw [List.drop_eq_getElem_cons hi]
      rfl
    rw [SetRandaoMixes.loop, List.getElem?_eq_getElem hi]
    simp only
    rw [ih, take_succ_set _ _ _ (by omega), hdrop]
    simp

theorem SetRandaoMixes_loop_none (val : List Bytes) :
    ∀ (fuel i : Nat) (arr : List Bytes), val.length < i + fuel → i ≤ val.length →
      SetRandaoMixes.loop val fuel i arr = none
  | 0, i, arr, hlt, hle => by omega
  | fuel + 1, i, arr, hlt, hle => by
    rw [SetRandaoMixes.loop]
    by_cases hi : i < val.length
    · rw [List.getElem?_eq_getElem hi]
      exact SetRandaoMixes_loop_none val fuel (i + 1) _ (by omega) (by omega)
    · rw [List.getElem?_eq_none (by omega)]

/-- C19. On an input with at least `RandaoMixesLength` entries `SetRandaoMixes(val)` returns
no error and this state then points at a newly allocated array of exactly
`RandaoMixesLength` digests of 32 bytes each, digest `i` being the first
`min(32, len(val[i]))` bytes of `val[i]` followed by zero bytes; no array that existed before
is written, and an input that agrees with `val` on the first `RandaoMixesLength` entries
gives the same outcome. -/
theorem SetRandaoMixes_stores_digests (RandaoMixesLength : Nat) (b : State) (h : Heap)
    (val : List Bytes) (hlen : RandaoMixesLength ≤ val.length) :
    (∃ b' h', b.SetRandaoMixes RandaoMixesLength h val = Outcome.ret none b' h'
      ∧ b'.randaoMixes = some h.mixes.length
      ∧ (h'.mixes.getD h.mixes.length []).length = RandaoMixesLength
      ∧ (∀ i, ∀ hi : i < RandaoMixesLength,
          (h'.mixes.getD h.mixes.length [])[i]?
            = some (val[i].take
                  (min 32 val[i].length)
                ++ List.replicate
                  (32 - min 32 val[i].length) 0))
      ∧ (∀ d, d ∈ h'.mixes.getD h.mixes.length [] → d.length = 32)
      ∧ (∀ a, a < h.mixes.length → h'.mixes.getD a [] = h.mixes.getD a []))
    ∧ (∀ val', val'.take RandaoMixesLength = val.take RandaoMixesLength →
        b.SetRandaoMixes RandaoMixesLength h val' = b.SetRandaoMixes RandaoMixesLength h val) := by
  have hloop : ∀ v : List Bytes, RandaoMixesLength ≤ v.length →
      SetRandaoMixes.loop v RandaoMixesLength 0 (List.replicate RandaoMixesLength zero32)
        = some ((v.take RandaoMixesLength).map (copyInto zero32)) := by
    intro v hv
    rw [SetRandaoMixes_loop_eq v RandaoMixesLength 0 _ (by omega) (by simp)]
    simp
  constructor
  · unfold State.SetRandaoMixes
    simp only [hloop val hlen]
    have hnew : ({ (NewRef (MinusRef h (b.sharedFieldReferences FieldIndex.RandaoMixes)) 1).2 with
          mixes := (NewRef (MinusRef h (b.sharedFieldReferences FieldIndex.RandaoMixes)) 1).2.mixes
            ++ [(val.take RandaoMixesLength).map (copyInto zero32)] } : Heap).mixes
        = h.mixes ++ [(val.take RandaoMixesLength).map (copyInto zero32)] := rfl
    refine ⟨_, _, rfl, ?_, ?_, ?_, ?_, ?_⟩
    · simp [State.markFieldAsDirty, NewRef, MinusRef]
    · rw [hnew, getD_append_self]
      simp [Nat.min_eq_left hlen]
    · intro i hi
      rw [hnew, getD_append_self, List.getElem?_map, List.getElem?_take_of_lt hi,
        List.getElem?_eq_getElem (Nat.lt_of_lt_of_le hi hlen)]
      simp only [Option.map_some']
      rw [copyInto_zero32]
    · intro d hd
      rw [hnew, getD_append_self] at hd
      obtain ⟨x, _, rfl⟩ := List.mem_map.mp hd
      exact copyInto_zero32_length x
    · intro a ha
      rw [hnew]
      exact getD_append_lt _ _ _ _ ha
  · intro val' htake
    have hlen' : RandaoMixesLength ≤ val'.length := by
      have h1 := congrArg List.length htake
      simp only [List.length_take] at h1
      omega
    unfold State.SetRandaoMixes
    simp only [hloop val hlen, hloop val' hlen', htake]

/-- C20 fails on the code: with `RandaoMixesLength` 2 and an empty `val` the read `val[0]` is
out of range and the call faults.  By then the counter of the field has been replaced: the
old counter went from 2 to 1 and the state holds a new counter of value 1, while
`randaoMixes` still points at the old array, which the other holder also uses. -/
theorem SetRandaoMixes_short_input_faults :
    ∃ b' h', exampleState.SetRandaoMixes 2 exampleHeap [] = Outcome.fault b' h'
      ∧ b'.randaoMixes = exampleState.randaoMixes
      ∧ Refs exampleHeap (exampleState.sharedFieldReferences FieldIndex.RandaoMixes) = 2
      ∧ Refs h' (exampleState.sharedFieldReferences FieldIndex.RandaoMixes) = 1
      ∧ b'.sharedFieldReferences FieldIndex.RandaoMixes = 2
      ∧ Refs h' (b'.sharedFieldReferences FieldIndex.RandaoMixes) = 1 :=
  ⟨_, _, rfl, rfl, rfl, rfl, rfl, rfl⟩

/-! ## Block factory -/

theorem NewSignedBeaconBlock_recognized {S B D : Type} (ini : Initializers S B D) (i : Object)
    (hs : i.isSignedShape = true) :
    NewSignedBeaconBlock ini i = Run.fault
    ∨ (∃ x, NewSignedBeaconBlock ini i = ini.initSignedBlockFromProtoPhase0 x)
    ∨ (∃ x, NewSignedBeaconBlock ini i = ini.initSignedBlockFromProtoAltair x)
    ∨ (∃ x, NewSignedBeaconBlock ini i = ini.initSignedBlockFromProtoBellatrix x)
    ∨ (∃ x, NewSignedBeaconBlock ini i = ini.initBlindedSignedBlockFromProtoBellatrix x) := by
  cases i <;> simp [Object.isSignedShape] at hs
  case GenericSignedBeaconBlock_Phase0 b =>
    cases b with
    | none => exact Or.inl rfl
    | some w => exact Or.inr (Or.inl ⟨w.Phase0, rfl⟩)
  case SignedBeaconBlock b => exact Or.inr (Or.inl ⟨b, rfl⟩)
  case GenericSignedBeaconBlock_Altair b =>
    cases b with
    | none => exact Or.inl rfl
    | some w => exact Or.inr (Or.inr (Or.inl ⟨w.Altair, rfl⟩))
  case SignedBeaconBlockAltair b => exact Or.inr (Or.inr (Or.inl ⟨b, rfl⟩))
  case GenericSignedBeaconBlock_Bellatrix b =>
    cases b with
    | none => exact Or.inl rfl
    | some w => exact Or.inr (Or.inr (Or.inr (Or.inl ⟨w.Bellatrix, rfl⟩)))
  case SignedBeaconBlockBellatrix b => exact Or.inr (Or.inr (Or.inr (Or.inl ⟨b, rfl⟩)))
  case GenericSignedBeaconBlock_BlindedBellatrix b =>
    cases b with
    | none => exact Or.inl rfl
    | some w => exact Or.inr (Or.inr (Or.inr (Or.inr ⟨w.BlindedBellatrix, rfl⟩)))
  case SignedBlindedBeaconBlockBellatrix b =>
    exact Or.inr (Or.inr (Or.inr (Or.inr ⟨b, rfl⟩)))

theorem NewBeaconBlock_recognized {S B D : Type} (ini : Initializers S B D) (i : Object)
    (hs : i.isBlockShape = true) :
    NewBeaconBlock ini i = Run.fault
    ∨ (∃ x, NewBeaconBlock ini i = ini.initBlockFromProtoPhase0 x)
    ∨ (∃ x, NewBeaconBlock ini i = ini.initBlockFromProtoAltair x)
    ∨ (∃ x, NewBeaconBlock ini i = ini.initBlockFromProtoBellatrix x)
    ∨ (∃ x, NewBeaconBlock ini i = ini.initBlindedBlockFromProtoBellatrix x) := by
  cases i <;> simp [Object.isBlockShape] at hs
  case GenericBeaconBlock_Phase0 b =>
    cases b with
    | none => exact Or.inl rfl
    | some w => exact Or.inr (Or.inl ⟨w.Phase0, rfl⟩)
  case BeaconBlock b => exact Or.inr (Or.inl ⟨b, rfl⟩)
  case GenericBeaconBlock_Altair b =>
    cases b with
    | none => exact Or.inl rfl
    | some w => exact Or.inr (Or.inr (Or.inl ⟨w.Altair, rfl⟩))
  case BeaconBlockAltair b => exact Or.inr (Or.inr (Or.inl ⟨b, rfl⟩))
  case GenericBeaconBlock_Bellatrix b =>
    cases b with
    | none => exact Or.inl rfl
    | some w => exact Or.inr (Or.inr (Or.inr (Or.inl ⟨w.Bellatrix, rfl⟩)))
  case BeaconBlockBellatrix b => exact Or.inr (Or.inr (Or.inr (Or.inl ⟨b, rfl⟩)))
  case GenericBeaconBlock_BlindedBellatrix b =>
    cases b with
    | none => exact Or.inl rfl
    | some w => exact Or.inr (Or.inr (Or.inr (Or.inr ⟨w.BlindedBellatrix, rfl⟩)))
  case BlindedBeaconBlockBellatrix b =>
    exact Or.inr (Or.inr (Or.inr (Or.inr ⟨b, rfl⟩)))

theorem NewBeaconBlockBody_recognized {S B D : Type} (ini : Initializers S B D) (i : Object)
    (hs : i.isBodyShape = true) :
    (∃ x, NewBeaconBlockBody ini i = ini.initBlockBodyFromProtoPhase0 x)
    ∨ (∃ x, NewBeaconBlockBody ini i = ini.initBlockBodyFromProtoAltair x)
    ∨ (∃ x, NewBeaconBlockBody ini i = ini.initBlockBodyFromProtoBellatrix x)
    ∨ (∃ x, NewBeaconBlockBody ini i = ini.initBlindedBlockBodyFromProtoBellatrix x) := by
  cases i <;> simp [Object.isBodyShape] at hs
  case BeaconBlockBody b => exact Or.inl ⟨b, rfl⟩
  case BeaconBlockBodyAltair b => exact Or.inr (Or.inl ⟨b, rfl⟩)
  case BeaconBlockBodyBellatrix b => exact Or.inr (Or.inr (Or.inl ⟨b, rfl⟩))
  case BlindedBeaconBlockBodyBellatrix b => exact Or.inr (Or.inr (Or.inr ⟨b, rfl⟩))

/-- C15. Each of `NewSignedBeaconBlock`, `NewBeaconBlock` and `NewBeaconBlockBody` answers
the nil interface with NilObjectWrapped and no view, and a non-nil input outside its
recognized shapes with its own unsupported error, which carries the type name of the input;
the three unsupported errors are different errors.  On a recognized shape the constructor
hands the object to an initializer, so with initializers that report no unsupported error
none is returned.  `NewSignedBeaconBlockFromGeneric` answers a nil envelope with
NilObjectWrapped and an envelope whose variant is none of the four recognized ones with
the unsupported-signed-block error, which carries the type name of the envelope. -/
theorem factory_failure_modes {S B D : Type} (ini : Initializers S B D) (i : Object)
    (gb : GenericSignedBeaconBlock) :
    NewSignedBeaconBlock ini Object.nil = Run.ret (none, some BlockErr.errNilObjectWrapped)
    ∧ NewBeaconBlock ini Object.nil = Run.ret (none, some BlockErr.errNilObjectWrapped)
    ∧ NewBeaconBlockBody ini Object.nil = Run.ret (none, some BlockErr.errNilObjectWrapped)
    ∧ (i ≠ Object.nil → i.isSignedShape = false →
        NewSignedBeaconBlock ini i
          = Run.ret (none, some (BlockErr.errUnsupportedSignedBeaconBlock (some i.typeName))))
    ∧ (i ≠ Object.nil → i.isBlockShape = false →
        NewBeaconBlock ini i
          = Run.ret (none, some (BlockErr.errUnsupportedBeaconBlock (some i.typeName))))
    ∧ (i ≠ Object.nil → i.isBodyShape = false →
        NewBeaconBlockBody ini i
          = Run.ret (none, some (BlockErr.errUnsupportedBeaconBlockBody (some i.typeName))))
    ∧ (∀ o1 o2 o3, BlockErr.errUnsupportedSignedBeaconBlock o1 ≠ BlockErr.errUnsupportedBeaconBlock o2
        ∧ BlockErr.errUnsupportedSignedBeaconBlock o1 ≠ BlockErr.errUnsupportedBeaconBlockBody o3
        ∧ BlockErr.errUnsupportedBeaconBlock o2 ≠ BlockErr.errUnsupportedBeaconBlockBody o3)
    ∧ (ini.neverUnsupported → i.isSignedShape = true → ∀ v o,
        NewSignedBeaconBlock ini i
            ≠ Run.ret (v, some (BlockErr.errUnsupportedSignedBeaconBlock o))
        ∧ NewSignedBeaconBlock ini i ≠ Run.ret (v, some (BlockErr.errUnsupportedBeaconBlock o))
        ∧ NewSignedBeaconBlock ini i
            ≠ Run.ret (v, some (BlockErr.errUnsupportedBeaconBlockBody o)))
    ∧ (ini.neverUnsupported → i.isBlockShape = true → ∀ v o,
        NewBeaconBlock ini i ≠ Run.ret (v, some (BlockErr.errUnsupportedSignedBeaconBlock o))
        ∧ NewBeaconBlock ini i ≠ Run.ret (v, some (BlockErr.errUnsupportedBeaconBlock o))
        ∧ NewBeaconBlock ini i ≠ Run.ret (v, some (BlockErr.errUnsupportedBeaconBlockBody o)))
    ∧ (ini.neverUnsupported → i.isBodyShape = true → ∀ v o,
        NewBeaconBlockBody ini i
            ≠ Run.ret (v, some (BlockErr.errUnsupportedSignedBeaconBlock o))
        ∧ NewBeaconBlockBody ini i ≠ Run.ret (v, some (BlockErr.errUnsupportedBeaconBlock o))
        ∧ NewBeaconBlockBody ini i
            ≠ Run.ret (v, some (BlockErr.errUnsupportedBeaconBlockBody o)))
    ∧ NewSignedBeaconBlockFromGeneric ini none
        = Run.ret (none, some BlockErr.errNilObjectWrapped)
    ∧ (gb.Block.isSignedVariant = false →
        NewSignedBeaconBlockFromGeneric ini (some gb)
          = Run.ret (none, some (BlockErr.errUnsupportedSignedBeaconBlock
              (some GenericSignedBeaconBlock.typeName)))) := by
  refine ⟨rfl, rfl, rfl, ?_, ?_, ?_, ?_, ?_, ?_, ?_, rfl, ?_⟩
  · intro hn hs
    cases i <;> simp [Object.isSignedShape] at hs hn ⊢ <;> rfl
  · intro hn hs
    cases i <;> simp [Object.isBlockShape] at hs hn ⊢ <;> rfl
  · intro hn hs
    cases i <;> simp [Object.isBodyShape] at hs hn ⊢ <;> rfl
  · intro o1 o2 o3
    exact ⟨by simp, by simp, by simp⟩
  · intro hnu hs v o
    obtain ⟨n1, n2, n3, n4, _⟩ := hnu
    rcases NewSignedBeaconBlock_recognized ini i hs with h | ⟨x, h⟩ | ⟨x, h⟩ | ⟨x, h⟩ | ⟨x, h⟩
    · rw [h]
      exact ⟨by simp, by simp, by simp⟩
    · rw [h]
      exact n1 x v o
    · rw [h]
      exact n2 x v o
    · rw [h]
      exact n3 x v o
    · rw [h]
      exact n4 x v o
  · intro hnu hs v o
    obtain ⟨_, _, _, _, n1, n2, n3, n4, _⟩ := hnu
    rcases NewBeaconBlock_recognized ini i hs with h | ⟨x, h⟩ | ⟨x, h⟩ | ⟨x, h⟩ | ⟨x, h⟩
    · rw [h]
      exact ⟨by simp, by simp, by simp⟩
    · rw [h]
      exact n1 x v o
    · rw [h]
      exact n2 x v o
    · rw [h]
      exact n3 x v o
    · rw [h]
      exact n4 x v o
  · intro hnu hs v o
    obtain ⟨_, _, _, _, _, _, _, _, n1, n2, n3, n4⟩ := hnu
    rcases NewBeaconBlockBody_recognized ini i hs with ⟨x, h⟩ | ⟨x, h⟩ | ⟨x, h⟩ | ⟨x, h⟩
    · rw [h]
      exact n1 x v o
    · rw [h]
      exact n2 x v o
    · rw [h]
      exact n3 x v o
    · rw [h]
      exact n4 x v o
  · intro hs
    unfold NewSignedBeaconBlockFromGeneric
    cases hb : gb.Block <;> simp [Object.isSignedVariant, hb] at hs ⊢

/-- C16. For each of the four versions and every signed-block pointer `x`, the envelope
holding the variant of `x`, the variant wrapper of `x` and `x` itself give the same result,
that of the initializer of the version on `x`; likewise the variant wrapper of a block
pointer `y` and `y` itself under `NewBeaconBlock`.  With initializers that build views as the
spec describes, a view built from an envelope has the version of its variant, its `proto()`
is the inner object, and `NewSignedBeaconBlock` of that `proto()` gives the same view
again. -/
theorem generic_and_direct_forms_agree {S B D : Type} (ini : Initializers S B D)
    (m : SignedViewMethods S) (x : Option SignedBlockPb) (y : Option BlockPb) :
    (NewSignedBeaconBlockFromGeneric ini
          (some { Block := Object.GenericSignedBeaconBlock_Phase0 (some { Phase0 := x }) })
        = NewSignedBeaconBlock ini (Object.GenericSignedBeaconBlock_Phase0 (some { Phase0 := x }))
      ∧ NewSignedBeaconBlock ini (Object.GenericSignedBeaconBlock_Phase0 (some { Phase0 := x }))
        = NewSignedBeaconBlock ini (Object.SignedBeaconBlock x)
      ∧ NewSignedBeaconBlock ini (Object.SignedBeaconBlock x)
        = ini.initSignedBlockFromProtoPhase0 x)
    ∧ (NewSignedBeaconBlockFromGeneric ini
          (some { Block := Object.GenericSignedBeaconBlock_Altair (some { Altair := x }) })
        = NewSignedBeaconBlock ini (Object.GenericSignedBeaconBlock_Altair (some { Altair := x }))
      ∧ NewSignedBeaconBlock ini (Object.GenericSignedBeaconBlock_Altair (some { Altair := x }))
        = NewSignedBeaconBlock ini (Object.SignedBeaconBlockAltair x)
      ∧ NewSignedBeaconBlock ini (Object.SignedBeaconBlockAltair x)
        = ini.initSignedBlockFromProtoAltair x)
    ∧ (NewSignedBeaconBlockFromGeneric ini
          (some { Block :=
            Object.GenericSignedBeaconBlock_Bellatrix (some { Bellatrix := x }) })
        = NewSignedBeaconBlock ini
            (Object.GenericSignedBeaconBlock_Bellatrix (some { Bellatrix := x }))
      ∧ NewSignedBeaconBlock ini
            (Object.GenericSignedBeaconBlock_Bellatrix (some { Bellatrix := x }))
        = NewSignedBeaconBlock ini (Object.SignedBeaconBlockBellatrix x)
      ∧ NewSignedBeaconBlock ini (Object.SignedBeaconBlockBellatrix x)
        = ini.initSignedBlockFromProtoBellatrix x)
    ∧ (NewSignedBeaconBlockFromGeneric ini
          (some { Block :=
            Object.GenericSignedBeaconBlock_BlindedBellatrix (some { BlindedBellatrix := x }) })
        = NewSignedBeaconBlock ini
            (Object.GenericSignedBeaconBlock_BlindedBellatrix (some { BlindedBellatrix := x }))
      ∧ NewSignedBeaconBlock ini
            (Object.GenericSignedBeaconBlock_BlindedBellatrix (some { BlindedBellatrix := x }))
        = NewSignedBeaconBlock ini (Object.SignedBlindedBeaconBlockBellatrix x)
      ∧ NewSignedBeaconBlock ini (Object.SignedBlindedBeaconBlockBellatrix x)
        = ini.initBlindedSignedBlockFromProtoBellatrix x)
    ∧ (NewBeaconBlock ini (Object.GenericBeaconBlock_Phase0 (some { Phase0 := y }))
        = NewBeaconBlock ini (Object.BeaconBlock y)
      ∧ NewBeaconBlock ini (Object.GenericBeaconBlock_Altair (some { Altair := y }))
        = NewBeaconBlock ini (Object.BeaconBlockAltair y)
      ∧ NewBeaconBlock ini (Object.GenericBeaconBlock_Bellatrix (some { Bellatrix := y }))
        = NewBeaconBlock ini (Object.BeaconBlockBellatrix y)
      ∧ NewBeaconBlock ini
            (Object.GenericBeaconBlock_BlindedBellatrix (some { BlindedBellatrix := y }))
        = NewBeaconBlock ini (Object.BlindedBeaconBlockBellatrix y))
    ∧ (ini.buildsViews m →
        (∀ v, NewSignedBeaconBlockFromGeneric ini
              (some { Block := Object.GenericSignedBeaconBlock_Phase0 (some { Phase0 := x }) })
            = Run.ret (some v, none) →
          m.Version v = version.Phase0
          ∧ m.Proto v = (Object.SignedBeaconBlock x, none)
          ∧ NewSignedBeaconBlock ini (m.Proto v).1 = Run.ret (some v, none))
        ∧ (∀ v, NewSignedBeaconBlockFromGeneric ini
              (some { Block := Object.GenericSignedBeaconBlock_Altair (some { Altair := x }) })
            = Run.ret (some v, none) →
          m.Version v = version.Altair
          ∧ m.Proto v = (Object.SignedBeaconBlockAltair x, none)
          ∧ NewSignedBeaconBlock ini (m.Proto v).1 = Run.ret (some v, none))
        ∧ (∀ v, NewSignedBeaconBlockFromGeneric ini
              (some { Block :=
                Object.GenericSignedBeaconBlock_Bellatrix (some { Bellatrix := x }) })
            = Run.ret (some v, none) →
          m.Version v = version.Bellatrix
          ∧ m.Proto v = (Object.SignedBeaconBlockBellatrix x, none)
          ∧ NewSignedBeaconBlock ini (m.Proto v).1 = Run.ret (some v, none))
        ∧ (∀ v, NewSignedBeaconBlockFromGeneric ini
              (some { Block :=
                Object.GenericSignedBeaconBlock_BlindedBellatrix (some { BlindedBellatrix := x }) })
            = Run.ret (some v, none) →
          m.Version v = version.BellatrixBlind
          ∧ m.Proto v = (Object.SignedBlindedBeaconBlockBellatrix x, none)
          ∧ NewSignedBeaconBlock ini (m.Proto v).1 = Run.ret (some v, none))) := by
  refine ⟨⟨rfl, rfl, rfl⟩, ⟨rfl, rfl, rfl⟩, ⟨rfl, rfl, rfl⟩, ⟨rfl, rfl, rfl⟩,
    ⟨rfl, rfl, rfl, rfl⟩, fun hb => ?_⟩
  obtain ⟨b1, b2, b3, b4⟩ := hb
  refine ⟨fun v hv => ?_, fun v hv => ?_, fun v hv => ?_, fun v hv => ?_⟩
  · obtain ⟨p1, p2, _⟩ := b1 x v hv
    exact ⟨p1, p2, by rw [p2]; exact hv⟩
  · obtain ⟨p1, p2, _⟩ := b2 x v hv
    exact ⟨p1, p2, by rw [p2]; exact hv⟩
  · obtain ⟨p1, p2, _⟩ := b3 x v hv
    exact ⟨p1, p2, by rw [p2]; exact hv⟩
  · obtain ⟨p1, p2, _⟩ := b4 x v hv
    exact ⟨p1, p2, by rw [p2]; exact hv⟩

/-- C17. An error of `blk.proto()` is returned as it is.  If `blk.version()` is Phase0,
Altair, Bellatrix or BellatrixBlind and `blk.proto()` has the block type of that version,
`BuildSignedBeaconBlock(blk, sig)` is `NewSignedBeaconBlock` of the signed object of that
version with `Block = blk.proto()` and `Signature = sig`; if `blk.proto()` has any other
type the shape-mismatch error of that version is returned; if the version is none of the
four the bare unsupported-block-body error is returned.  With initializers that build views
as the spec describes, a view that is returned has signature `sig` and `block().proto()`
equal to `blk.proto()`. -/
theorem BuildSignedBeaconBlock_spec {S B D : Type} (ini : Initializers S B D)
    (m : SignedViewMethods S) (blk : BeaconBlockHandle) (sig : Bytes) :
    (∀ pb err, blk.Proto = (pb, some err) →
        BuildSignedBeaconBlock ini (some blk) sig = Run.ret (none, some err))
    ∧ (∀ pb, blk.Version = version.Phase0 → blk.Proto = (Object.BeaconBlock pb, none) →
        BuildSignedBeaconBlock ini (some blk) sig
          = NewSignedBeaconBlock ini
              (Object.SignedBeaconBlock (some { Block := pb, Signature := sig })))
    ∧ (∀ pb, blk.Version = version.Altair → blk.Proto = (Object.BeaconBlockAltair pb, none) →
        BuildSignedBeaconBlock ini (some blk) sig
          = NewSignedBeaconBlock ini
              (Object.SignedBeaconBlockAltair (some { Block := pb, Signature := sig })))
    ∧ (∀ pb, blk.Version = version.Bellatrix →
        blk.Proto = (Object.BeaconBlockBellatrix pb, none) →
        BuildSignedBeaconBlock ini (some blk) sig
          = NewSignedBeaconBlock ini
              (Object.SignedBeaconBlockBellatrix (some { Block := pb, Signature := sig })))
    ∧ (∀ pb, blk.Version = version.BellatrixBlind →
        blk.Proto = (Object.BlindedBeaconBlockBellatrix pb, none) →
        BuildSignedBeaconBlock ini (some blk) sig
          = NewSignedBeaconBlock ini
              (Object.SignedBlindedBeaconBlockBellatrix
                (some { Block := pb, Signature := sig })))
    ∧ (∀ o, blk.Proto = (o, none) →
        (blk.Version = version.Phase0 → (∀ pb, o ≠ Object.BeaconBlock pb) →
          BuildSignedBeaconBlock ini (some blk) sig
            = Run.ret (none, some (BlockErr.innerProto "unable to access inner phase0 proto")))
        ∧ (blk.Version = version.Altair → (∀ pb, o ≠ Object.BeaconBlockAltair pb) →
          BuildSignedBeaconBlock ini (some blk) sig
            = Run.ret (none, some (BlockErr.innerProto "unable to access inner altair proto")))
        ∧ (blk.Version = version.Bellatrix → (∀ pb, o ≠ Object.BeaconBlockBellatrix pb) →
          BuildSignedBeaconBlock ini (some blk) sig
            = Run.ret (none,
                some (BlockErr.innerProto "unable to access inner bellatrix proto")))
        ∧ (blk.Version = version.BellatrixBlind →
          (∀ pb, o ≠ Object.BlindedBeaconBlockBellatrix pb) →
          BuildSignedBeaconBlock ini (some blk) sig
            = Run.ret (none,
                some (BlockErr.innerProto "unable to access inner bellatrix proto")))
        ∧ (blk.Version ≠ version.Phase0 → blk.Version ≠ version.Altair →
          blk.Version ≠ version.Bellatrix → blk.Version ≠ version.BellatrixBlind →
          BuildSignedBeaconBlock ini (some blk) sig
            = Run.ret (none, some (BlockErr.errUnsupportedBeaconBlockBody none))))
    ∧ (ini.buildsViews m → ∀ v,
        BuildSignedBeaconBlock ini (some blk) sig = Run.ret (some v, none) →
        m.Signature v = sig ∧ m.BlockProto v = blk.Proto) := by
  refine ⟨fun pb err hp => ?_, fun pb hv hp => ?_, fun pb hv hp => ?_, fun pb hv hp => ?_,
    fun pb hv hp => ?_, fun o hp => ⟨fun hv hne => ?_, fun hv hne => ?_, fun hv hne => ?_,
      fun hv hne => ?_, fun h1 h2 h3 h4 => ?_⟩, fun hb v hres => ?_⟩
  · simp [BuildSignedBeaconBlock, hp]
  · simp [BuildSignedBeaconBlock, hp, hv]
  · simp [BuildSignedBeaconBlock, hp, hv, version.Altair, version.Phase0]
  · simp [BuildSignedBeaconBlock, hp, hv, version.Altair, version.Phase0, version.Bellatrix]
  · simp [BuildSignedBeaconBlock, hp, hv, version.Altair, version.Phase0, version.Bellatrix,
      version.BellatrixBlind]
  · simp only [BuildSignedBeaconBlock, hp, hv, if_true]
  · simp [BuildSignedBeaconBlock, hp, hv, version.Altair, version.Phase0]
  · simp [BuildSignedBeaconBlock, hp, hv, version.Altair, version.Phase0, version.Bellatrix]
  · simp [BuildSignedBeaconBlock, hp, hv, version.Altair, version.Phase0, version.Bellatrix,
      version.BellatrixBlind]
  · simp [BuildSignedBeaconBlock, hp, h1, h2, h3, h4]
  · obtain ⟨b1, b2, b3, b4⟩ := hb
    cases hp : blk.Proto with
    | mk o e =>
      cases e with
      | some err => simp [BuildSignedBeaconBlock, hp] at hres
      | none =>
        by_cases h1 : blk.Version = version.Phase0
        · cases o <;> simp [BuildSignedBeaconBlock, hp, h1] at hres
          obtain ⟨_, _, p3⟩ := b1 _ v hres
          exact p3 _ rfl
        by_cases h2 : blk.Version = version.Altair
        · cases o <;> simp [BuildSignedBeaconBlock, hp, h1, h2,
            version.Phase0, version.Altair, version.Bellatrix, version.BellatrixBlind] at hres
          obtain ⟨_, _, p3⟩ := b2 _ v hres
          exact p3 _ rfl
        by_cases h3 : blk.Version = version.Bellatrix
        · cases o <;> simp [BuildSignedBeaconBlock, hp, h1, h2, h3,
            version.Phase0, version.Altair, version.Bellatrix, version.BellatrixBlind] at hres
          obtain ⟨_, _, p3⟩ := b3 _ v hres
          exact p3 _ rfl
        by_cases h4 : blk.Version = version.BellatrixBlind
        · cases o <;> simp [BuildSignedBeaconBlock, hp, h1, h2, h3, h4,
            version.Phase0, version.Altair, version.Bellatrix, version.BellatrixBlind] at hres
          obtain ⟨_, _, p3⟩ := b4 _ v hres
          exact p3 _ rfl
        simp [BuildSignedBeaconBlock, hp, h1, h2, h3, h4] at hres

/-- C18. `BeaconBlockIsNil(b)` returns NilSignedBeaconBlock for a nil handle and for a handle
whose `IsNil()` holds, without using `Block()`; otherwise NilBeaconBlock when
`b.Block().IsNil()` holds, without using `Body()`; otherwise NilBeaconBlockBody when
`b.Block().Body().IsNil()` holds; otherwise no error.  No error is returned exactly when
the handle is non-nil and all three layers answer that they are not nil. -/
theorem BeaconBlockIsNil_spec (b : Option SignedBeaconBlockHandle) :
    (b = none → BeaconBlockIsNil b = Run.ret (some BlockErr.errNilSignedBeaconBlock))
    ∧ (∀ s, b = some s → s.IsNil = true →
        BeaconBlockIsNil b = Run.ret (some BlockErr.errNilSignedBeaconBlock))
    ∧ (∀ s blk, b = some s → s.IsNil = false → s.Block = some blk → blk.IsNil = true →
        BeaconBlockIsNil b = Run.ret (some BlockErr.errNilBeaconBlock))
    ∧ (∀ s blk body, b = some s → s.IsNil = false → s.Block = some blk → blk.IsNil = false →
        blk.Body = some body → body.IsNil = true →
        BeaconBlockIsNil b = Run.ret (some BlockErr.errNilBeaconBlockBody))
    ∧ (BeaconBlockIsNil b = Run.ret none
        ↔ ∃ s blk body, b = some s ∧ s.IsNil = false ∧ s.Block = some blk ∧ blk.IsNil = false
            ∧ blk.Body = some body ∧ body.IsNil = false) := by
  refine ⟨fun hb => ?_, fun s hb h1 => ?_, fun s blk hb h1 h2 h3 => ?_,
    fun s blk body hb h1 h2 h3 h4 h5 => ?_, ?_⟩
  · simp [BeaconBlockIsNil, hb]
  · simp [BeaconBlockIsNil, hb, h1]
  · simp [BeaconBlockIsNil, hb, h1, h2, h3]
  · simp [BeaconBlockIsNil, hb, h1, h2, h3, h4, h5]
  · constructor
    · intro hres
      cases b with
      | none => simp [BeaconBlockIsNil] at hres
      | some s =>
        cases h1 : s.IsNil with
        | true => simp [BeaconBlockIsNil, h1] at hres
        | false =>
          cases h2 : s.Block with
          | none => simp [BeaconBlockIsNil, h1, h2] at hres
          | some blk =>
            cases h3 : blk.IsNil with
            | true => simp [BeaconBlockIsNil, h1, h2, h3] at hres
            | false =>
              cases h4 : blk.Body with
              | none => simp [BeaconBlockIsNil, h1, h2, h3, h4] at hres
              | some body =>
                cases h5 : body.IsNil with
                | true => simp [BeaconBlockIsNil, h1, h2, h3, h4, h5] at hres
                | false => exact ⟨s, blk, body, rfl, h1, h2, h3, h4, h5⟩
    · rintro ⟨s, blk, body, rfl, h1, h2, h3, h4, h5⟩
      simp [BeaconBlockIsNil, h1, h2, h3, h4, h5]

/-! ## Further instances on concrete states -/

theorem exampleInit_neverUnsupported {α : Type} (ver : Nat) :
    neverUnsupported (exampleInit ver : Option α → _) := by
  intro x v o
  cases x <;> simp [exampleInit]

theorem exampleInitializers_neverUnsupported : exampleInitializers.neverUnsupported :=
  ⟨exampleInit_neverUnsupported _, exampleInit_neverUnsupported _,
    exampleInit_neverUnsupported _, exampleInit_neverUnsupported _,
    exampleInit_neverUnsupported _, exampleInit_neverUnsupported _,
    exampleInit_neverUnsupported _, exampleInit_neverUnsupported _,
    exampleInit_neverUnsupported _, exampleInit_neverUnsupported _,
    exampleInit_neverUnsupported _, exampleInit_neverUnsupported _⟩

theorem exampleInitializers_buildsViews : exampleInitializers.buildsViews exampleMethods := by
  refine ⟨fun x v hv => ?_, fun x v hv => ?_, fun x v hv => ?_, fun x v hv => ?_⟩ <;>
  · cases x with
    | none => simp [exampleInitializers, exampleInit] at hv
    | some pb =>
      simp only [exampleInitializers, exampleInit, Run.ret.injEq, Prod.mk.injEq,
        Option.some.injEq, and_true] at hv
      subst hv
      refine ⟨rfl, rfl, fun pb' hpb => ?_⟩
      cases hpb
      exact ⟨rfl, rfl⟩

/-- On `exampleState` slot 1 is nil and gives the zero key, slot 2 holds the record at
address 1 and gives its key. -/
theorem PubkeyAtIndex_spec_witness :
    exampleState.validators = some [some 0, none, some 1]
    ∧ exampleState.PubkeyAtIndex (copyInto zero48) exampleHeap 1 = List.replicate 48 0
    ∧ exampleState.PubkeyAtIndex (copyInto zero48) exampleHeap 2
        = copyInto zero48 [2, 2] :=
  ⟨rfl,
    (PubkeyAtIndex_spec (copyInto zero48) exampleState exampleHeap 1).2.2.1 _ rfl (by decide) rfl,
    (PubkeyAtIndex_spec (copyInto zero48) exampleState exampleHeap 2).2.2.2 _ 1 rfl (by decide)
      rfl⟩

/-- On `exampleState`, which has three balances, index 3 does not exist and index 1 holds
31. -/
theorem BalanceAtIndex_spec_witness :
    exampleState.balances = some [32, 31, 30]
    ∧ (exampleState.BalanceAtIndex 3).2 = some (Err.indexDoesNotExist 3)
    ∧ exampleState.BalanceAtIndex 1 = (31, none) :=
  ⟨rfl, (BalanceAtIndex_spec exampleState 3).2.2.1.mpr ⟨_, rfl, by decide⟩,
    (BalanceAtIndex_spec exampleState 1).2.2.2 _ rfl (by decide)⟩

/-- On `exampleFullValidators` the callback fails at position 2: it was invoked on the
positions 0, 1 and 2, in this order, and its error is returned. -/
theorem ReadFromEveryValidator_spec_witness :
    exampleFullValidators.validators = some [some 0, some 1, some 0]
    ∧ exampleFullValidators.ReadFromEveryValidator exampleNewValidator exampleCallback
        = (some (Err.other 7),
            [(0, some { validator := 0 }), (1, some { validator := 1 }),
              (2, some { validator := 0 })]) :=
  ⟨rfl,
    ((ReadFromEveryValidator_spec exampleNewValidator exampleCallback exampleFullValidators).2
      _ rfl).1 2 (Err.other 7) (by decide) (by decide) (by decide)⟩

theorem exampleState_slots_allocated :
    ∀ i p, ([some 0, none, some 1] : List (Option Nat)).getD i none = some p →
      p < exampleHeap.validators.length := by
  intro i p hp
  rcases i with _ | _ | _ | i
  · cases hp
    decide
  · cases hp
  · cases hp
    decide
  · cases hp

/-- On `exampleState` the copy has three entries, the second of them nil, and the first
addresses a record equal to the record at address 0. -/
theorem copying_getters_spec_witness :
    exampleState.validators = some [some 0, none, some 1]
    ∧ (∃ res h', exampleState.Validators exampleHeap = (some res, h')
        ∧ res.length = 3
        ∧ res.getD 1 none = none
        ∧ derefValidator h' (res.getD 0 none) = some { PublicKey := [1, 1], rest := [7] })
    ∧ exampleState.balances = some [32, 31, 30]
    ∧ exampleState.Balances exampleHeap
        = (some (Uint64Slice.buf { ptr := 1, len := 3 }),
            { exampleHeap with u64s := [[4, 4], [32, 31, 30]] }) :=
  ⟨rfl, by
    obtain ⟨res, h', h1, h2, h3, _⟩ :=
      (copying_getters_spec exampleState exampleHeap).2.1 _ rfl exampleState_slots_allocated
    exact ⟨res, h', h1, h2, (h3 1 (by decide)).1.mpr rfl, (h3 0 (by decide)).2.1⟩,
    rfl,
    ((copying_getters_spec exampleState exampleHeap).2.2.2.1 _ rfl).1⟩

/-- With `exampleInitializers`: a value of an unknown type is reported with its type name,
and a nil signed-block pointer, a recognized shape, is not reported as unsupported. -/
theorem factory_failure_modes_witness :
    Object.other "string" ≠ Object.nil
    ∧ (Object.other "string").isSignedShape = false
    ∧ NewSignedBeaconBlock exampleInitializers (Object.other "string")
        = Run.ret (none, some (BlockErr.errUnsupportedSignedBeaconBlock (some "string")))
    ∧ NewSignedBeaconBlock exampleInitializers (Object.SignedBeaconBlock none)
        ≠ Run.ret (none, some (BlockErr.errUnsupportedSignedBeaconBlock none)) :=
  ⟨by decide, rfl,
    (factory_failure_modes exampleInitializers (Object.other "string")
      { Block := Object.nil }).2.2.2.1 (by decide) rfl,
    ((factory_failure_modes exampleInitializers (Object.SignedBeaconBlock none)
      { Block := Object.nil }).2.2.2.2.2.2.2.1 exampleInitializers_neverUnsupported rfl
        none none).1⟩

/-- Scenario S3 with `exampleInitializers`: the view built from an Altair envelope has
version Altair and its `proto()` is the inner object. -/
theorem generic_and_direct_forms_agree_witness :
    NewSignedBeaconBlockFromGeneric exampleInitializers
        (some exampleAltairEnvelope)
      = Run.ret (some { version := version.Altair, object := exampleSigned }, none)
    ∧ exampleMethods.Version { version := version.Altair, object := exampleSigned }
        = version.Altair
    ∧ exampleMethods.Proto { version := version.Altair, object := exampleSigned }
        = (Object.SignedBeaconBlockAltair (some exampleSigned), none) :=
  ⟨rfl,
    (((generic_and_direct_forms_agree exampleInitializers exampleMethods (some exampleSigned)
      none).2.2.2.2.2 exampleInitializers_buildsViews).2.1 _ rfl).1,
    (((generic_and_direct_forms_agree exampleInitializers exampleMethods (some exampleSigned)
      none).2.2.2.2.2 exampleInitializers_buildsViews).2.1 _ rfl).2.1⟩

/-- Scenario S4 with `exampleInitializers`: the signed view assembled from the Bellatrix
block view `exampleBlockHandle` has the given signature and the block of the view. -/
theorem BuildSignedBeaconBlock_spec_witness :
    BuildSignedBeaconBlock exampleInitializers (some exampleBlockHandle) [7, 7]
      = Run.ret (some exampleAssembled, none)
    ∧ exampleMethods.Signature exampleAssembled = [7, 7]
    ∧ exampleMethods.BlockProto exampleAssembled = exampleBlockHandle.Proto :=
  ⟨rfl,
    ((BuildSignedBeaconBlock_spec exampleInitializers exampleMethods exampleBlockHandle
      [7, 7]).2.2.2.2.2.2 exampleInitializers_buildsViews _ rfl).1,
    ((BuildSignedBeaconBlock_spec exampleInitializers exampleMethods exampleBlockHandle
      [7, 7]).2.2.2.2.2.2 exampleInitializers_buildsViews _ rfl).2⟩

/-- Scenario S5: `exampleNilHandle` is reported as a nil signed block although its `Block()`
must not be used, and `exampleHandle` passes. -/
theorem BeaconBlockIsNil_spec_witness :
    exampleNilHandle.IsNil = true
    ∧ BeaconBlockIsNil (some exampleNilHandle)
        = Run.ret (some BlockErr.errNilSignedBeaconBlock)
    ∧ BeaconBlockIsNil (some exampleHandle) = Run.ret none :=
  ⟨rfl, (BeaconBlockIsNil_spec (some exampleNilHandle)).2.1 _ rfl rfl,
    (BeaconBlockIsNil_spec (some exampleHandle)).2.2.2.2.mpr
      ⟨_, _, _, rfl, rfl, rfl, rfl, rfl, rfl⟩⟩

/-- On `exampleState` with `RandaoMixesLength` 2 the input of three entries is accepted and
the new array lives at the next free address 1. -/
theorem SetRandaoMixes_stores_digests_witness :
    2 ≤ [[1], [2], [3]].length
    ∧ ∃ b' h', exampleState.SetRandaoMixes 2 exampleHeap [[1], [2], [3]] = Outcome.ret none b' h'
        ∧ b'.randaoMixes = some 1
        ∧ (h'.mixes.getD 1 []).length = 2 :=
  ⟨by decide, by
    obtain ⟨b', h', h1, h2, h3, _⟩ :=
      (SetRandaoMixes_stores_digests 2 exampleState exampleHeap [[1], [2], [3]] (by decide)).1
    exact ⟨b', h', h1, h2, h3⟩⟩

theorem SetRandaoMixes_faults_of_short (RandaoMixesLength : Nat) (b : State) (h : Heap)
    (val : List Bytes) (hlt : val.length < RandaoMixesLength) :
    ∃ b' h', b.SetRandaoMixes RandaoMixesLength h val = Outcome.fault b' h'
      ∧ b'.randaoMixes = b.randaoMixes
      ∧ b'.sharedFieldReferences FieldIndex.RandaoMixes = h.refs.length
      ∧ h'.mixes = h.mixes := by
  unfold State.SetRandaoMixes
  simp only [SetRandaoMixes_loop_none val RandaoMixesLength 0 _ (by omega) (Nat.zero_le _)]
  exact ⟨_, _, rfl, rfl, by simp [NewRef, MinusRef], rfl⟩

/-! ## Frame of the scalar setters -/

theorem mem_markFieldAsDirty_iff (b : State) (F f : FieldIndex) :
    f ∈ (b.markFieldAsDirty F).dirtyFields ↔ f ∈ b.dirtyFields ∨ f = F := by
  unfold State.markFieldAsDirty
  by_cases hF : F ∈ b.dirtyFields
  · simp only [hF, if_true]
    constructor
    · exact Or.inl
    · rintro (h | h)
      · exact h
      · exact h ▸ hF
  · simp only [hF, if_false, List.mem_cons]
    exact Or.comm

/-- C21. `SetEth1Data(v)` and `SetEth1DepositIndex(v)` return no error; the state they leave
is the old state with the named field equal to `v` and with the field added to
`dirtyFields`, every mark that was there being kept: all other fields, the counters the
state refers to, `dirtyIndices` and `rebuildTrie` are as before.  The sync-committee and
withdrawal setters leave the same kind of state whenever they return no error.  None of
these setters takes or returns the heap, so no counter and no shared buffer is touched. -/
theorem scalar_setters_frame (b : State) (d : Option Eth1Data) (n : Nat)
    (c : Option SyncCommittee) :
    ((b.SetEth1Data d).1 = none
      ∧ (b.SetEth1Data d).2
          = { b with eth1Data := d, dirtyFields := (b.SetEth1Data d).2.dirtyFields }
      ∧ (∀ f, f ∈ (b.SetEth1Data d).2.dirtyFields ↔ f ∈ b.dirtyFields ∨ f = FieldIndex.Eth1Data)
      ∧ (b.SetEth1Data d).2.sharedFieldReferences = b.sharedFieldReferences
      ∧ (b.SetEth1Data d).2.dirtyIndices = b.dirtyIndices
      ∧ (b.SetEth1Data d).2.rebuildTrie = b.rebuildTrie)
    ∧ ((b.SetEth1DepositIndex n).1 = none
      ∧ (b.SetEth1DepositIndex n).2
          = { b with eth1DepositIndex := n,
                     dirtyFields := (b.SetEth1DepositIndex n).2.dirtyFields }
      ∧ (∀ f, f ∈ (b.SetEth1DepositIndex n).2.dirtyFields
          ↔ f ∈ b.dirtyFields ∨ f = FieldIndex.Eth1DepositIndex)
      ∧ (b.SetEth1DepositIndex n).2.sharedFieldReferences = b.sharedFieldReferences
      ∧ (b.SetEth1DepositIndex n).2.dirtyIndices = b.dirtyIndices
      ∧ (b.SetEth1DepositIndex n).2.rebuildTrie = b.rebuildTrie)
    ∧ ((b.SetCurrentSyncCommittee c).1 = none →
        (b.SetCurrentSyncCommittee c).2
          = { b with currentSyncCommittee := c,
                     dirtyFields := (b.SetCurrentSyncCommittee c).2.dirtyFields }
        ∧ (∀ f, f ∈ (b.SetCurrentSyncCommittee c).2.dirtyFields
            ↔ f ∈ b.dirtyFields ∨ f = FieldIndex.CurrentSyncCommittee)
        ∧ (b.SetCurrentSyncCommittee c).2.sharedFieldReferences = b.sharedFieldReferences
        ∧ (b.SetCurrentSyncCommittee c).2.dirtyIndices = b.dirtyIndices
        ∧ (b.SetCurrentSyncCommittee c).2.rebuildTrie = b.rebuildTrie)
    ∧ ((b.SetNextSyncCommittee c).1 = none →
        (b.SetNextSyncCommittee c).2
          = { b with nextSyncCommittee := c,
                     dirtyFields := (b.SetNextSyncCommittee c).2.dirtyFields }
        ∧ (∀ f, f ∈ (b.SetNextSyncCommittee c).2.dirtyFields
            ↔ f ∈ b.dirtyFields ∨ f = FieldIndex.NextSyncCommittee)
        ∧ (b.SetNextSyncCommittee c).2.sharedFieldReferences = b.sharedFieldReferences
        ∧ (b.SetNextSyncCommittee c).2.dirtyIndices = b.dirtyIndices
        ∧ (b.SetNextSyncCommittee c).2.rebuildTrie = b.rebuildTrie)
    ∧ ((b.SetNextWithdrawalIndex n).1 = none →
        (b.SetNextWithdrawalIndex n).2
          = { b with nextWithdrawalIndex := n,
                     dirtyFields := (b.SetNextWithdrawalIndex n).2.dirtyFields }
        ∧ (∀ f, f ∈ (b.SetNextWithdrawalIndex n).2.dirtyFields
            ↔ f ∈ b.dirtyFields ∨ f = FieldIndex.NextWithdrawalIndex)
        ∧ (b.SetNextWithdrawalIndex n).2.sharedFieldReferences = b.sharedFieldReferences
        ∧ (b.SetNextWithdrawalIndex n).2.dirtyIndices = b.dirtyIndices
        ∧ (b.SetNextWithdrawalIndex n).2.rebuildTrie = b.rebuildTrie)
    ∧ ((b.SetNextWithdrawalValidatorIndex n).1 = none →
        (b.SetNextWithdrawalValidatorIndex n).2
          = { b with nextWithdrawalValidatorIndex := n,
                     dirtyFields := (b.SetNextWithdrawalValidatorIndex n).2.dirtyFields }
        ∧ (∀ f, f ∈ (b.SetNextWithdrawalValidatorIndex n).2.dirtyFields
            ↔ f ∈ b.dirtyFields ∨ f = FieldIndex.NextWithdrawalValidatorIndex)
        ∧ (b.SetNextWithdrawalValidatorIndex n).2.sharedFieldReferences
            = b.sharedFieldReferences
        ∧ (b.SetNextWithdrawalValidatorIndex n).2.dirtyIndices = b.dirtyIndices
        ∧ (b.SetNextWithdrawalValidatorIndex n).2.rebuildTrie = b.rebuildTrie) := by
  refine ⟨⟨rfl, rfl, fun f => mem_markFieldAsDirty_iff _ _ f, rfl, rfl, rfl⟩,
    ⟨rfl, rfl, fun f => mem_markFieldAsDirty_iff _ _ f, rfl, rfl, rfl⟩, ?_, ?_, ?_, ?_⟩
  · intro hok
    by_cases hv : b.version = version.Phase0
    · simp [State.SetCurrentSyncCommittee, hv] at hok
    · simp only [State.SetCurrentSyncCommittee, hv, if_false]
      exact ⟨rfl, fun f => mem_markFieldAsDirty_iff _ _ f, rfl, rfl, rfl⟩
  · intro hok
    by_cases hv : b.version = version.Phase0
    · simp [State.SetNextSyncCommittee, hv] at hok
    · simp only [State.SetNextSyncCommittee, hv, if_false]
      exact ⟨rfl, fun f => mem_markFieldAsDirty_iff _ _ f, rfl, rfl, rfl⟩
  · intro hok
    by_cases hv : b.version < version.Capella
    · simp [State.SetNextWithdrawalIndex, hv] at hok
    · simp only [State.SetNextWithdrawalIndex, hv, if_false]
      exact ⟨rfl, fun f => mem_markFieldAsDirty_iff _ _ f, rfl, rfl, rfl⟩
  · intro hok
    by_cases hv : b.version < version.Capella
    · simp [State.SetNextWithdrawalValidatorIndex, hv] at hok
    · simp only [State.SetNextWithdrawalValidatorIndex, hv, if_false]
      exact ⟨rfl, fun f => mem_markFieldAsDirty_iff _ _ f, rfl, rfl, rfl⟩

/-- On the Capella state `exampleCapella` the withdrawal setter succeeds and leaves the
counters the state refers to and the rebuild flags as they were; `SetEth1DepositIndex` marks
only its own field on `exampleState`. -/
theorem scalar_setters_frame_witness :
    (exampleCapella.SetNextWithdrawalIndex 9).1 = none
    ∧ (exampleCapella.SetNextWithdrawalIndex 9).2.sharedFieldReferences
        = exampleCapella.sharedFieldReferences
    ∧ (exampleCapella.SetNextWithdrawalIndex 9).2.rebuildTrie = exampleCapella.rebuildTrie
    ∧ (exampleState.SetEth1DepositIndex 5).2.dirtyFields = [FieldIndex.Eth1DepositIndex]
    ∧ (exampleState.SetEth1DepositIndex 5).2.dirtyIndices = exampleState.dirtyIndices :=
  ⟨rfl,
    ((scalar_setters_frame exampleCapella none 9 none).2.2.2.2.1 rfl).2.2.1,
    ((scalar_setters_frame exampleCapella none 9 none).2.2.2.2.1 rfl).2.2.2.2,
    rfl,
    (scalar_setters_frame exampleState none 5 none).2.1.2.2.2.2.1⟩

end Prysm
